import Mathlib

/-!
# MultiNEAT `Species.cpp`: a shallow embedding and its verified properties

The development embeds the species engine of `src/Species.cpp` in Lean and proves
properties of the embedded functions.

Modelling conventions, used throughout:

* A C++ `double` is an exact rational (`ℚ`) and the order of operations of the source is
  kept; infinities and NaN are outside the model. Rounding is left out where it moves a
  value by a unit in the last place and nothing discrete depends on it. Where an integer
  is taken from the value, every operation is rounded to binary64 (`toDouble`): the sum
  of `CountOffspring`, which `Reproduce` rounds to a baby count, and the truncation size
  `numParentsDouble` with `KillWorstDouble`. The exact truncation size `numParents` is
  kept beside it for the statements about the formula `floor(r * N) + 1`.
* Generation counters (`m_Age`, `m_GensNoImprovement`) and the age thresholds are
  natural numbers; other `int` values are integers.
* The genome's genetic content (neurons and links) is an abstract type `G`; the
  operations of `Genome`, `Population`, `Random.h` and `Utils.h` that the file calls but
  does not define are either fields of an environment record or small definitions
  modelled from the specification, each marked as such.
* `ASSERT(c)` is a fatal precondition check: a function whose assertion fails, or which
  would read a vector outside its bounds, returns `none`.
* Text written to `std::cout` is not part of the state and is omitted.
-/

set_option linter.dupNamespace false

namespace NEAT

/-! ## Data model -/

/-- Modelled from the spec: the `Genome` class (declared in `Genome.h`, which is not part
of the source file). Per the data model a genome has an identity, a raw fitness, an
adjusted fitness, an offspring amount, an evaluated flag and a lifecycle stage; the
genetic content is the abstract `m_Genes`. `m_Adult = false` is the stage Baby. -/
structure Genome (G : Type) where
  m_ID : Int
  m_Fitness : ℚ
  m_AdjustedFitness : ℚ
  m_OffspringAmount : ℚ
  m_Evaluated : Bool
  m_Adult : Bool
  m_Genes : G
  deriving DecidableEq

namespace Genome

variable {G : Type}

/-- Modelled from the spec: `Genome::GetFitness`, the fitness getter. -/
def GetFitness (g : Genome G) : ℚ := g.m_Fitness

/-- Modelled from the spec: `Genome::SetFitness`, the fitness setter. -/
def SetFitness (g : Genome G) (f : ℚ) : Genome G := { g with m_Fitness := f }

/-- Modelled from the spec: `Genome::GetAdjFitness`, the adjusted-fitness getter. -/
def GetAdjFitness (g : Genome G) : ℚ := g.m_AdjustedFitness

/-- Modelled from the spec: `Genome::SetAdjFitness`, the adjusted-fitness setter. -/
def SetAdjFitness (g : Genome G) (f : ℚ) : Genome G := { g with m_AdjustedFitness := f }

/-- Modelled from the spec: `Genome::GetOffspringAmount`, the offspring-amount getter. -/
def GetOffspringAmount (g : Genome G) : ℚ := g.m_OffspringAmount

/-- Modelled from the spec: `Genome::SetOffspringAmount`, the offspring-amount setter. -/
def SetOffspringAmount (g : Genome G) (a : ℚ) : Genome G := { g with m_OffspringAmount := a }

/-- Modelled from the spec: `Genome::GetID`, the identity getter. -/
def GetID (g : Genome G) : Int := g.m_ID

/-- Modelled from the spec: `Genome::SetID`, the identity setter. -/
def SetID (g : Genome G) (id : Int) : Genome G := { g with m_ID := id }

/-- Modelled from the spec: `Genome::IsEvaluated`, the evaluated-flag getter. -/
def IsEvaluated (g : Genome G) : Bool := g.m_Evaluated

/-- Modelled from the spec: `Genome::ResetEvaluated`, which clears the evaluated flag. -/
def ResetEvaluated (g : Genome G) : Genome G := { g with m_Evaluated := false }

/-- Modelled from the spec: `Genome::IsAdult`, the lifecycle getter. -/
def IsAdult (g : Genome G) : Bool := g.m_Adult

/-- Modelled from the spec: `Genome::Birth`, which marks the lifecycle stage Baby. -/
def Birth (g : Genome G) : Genome G := { g with m_Adult := false }

/-- Modelled from the spec: `Genome::Adult`, which marks the lifecycle stage Adult. -/
def Adult (g : Genome G) : Genome G := { g with m_Adult := true }

end Genome

/-- The members of `class Species` that `Species.cpp` reads and writes. -/
structure Species (G : Type) where
  m_ID : Int
  m_Representative : Genome G
  m_BestGenome : Genome G
  m_BestSpecies : Bool
  m_WorstSpecies : Bool
  m_BestFitness : ℚ
  m_GensNoImprovement : Nat
  m_Age : Nat
  m_OffspringRqd : ℚ
  m_R : Int
  m_G : Int
  m_B : Int
  m_Individuals : List (Genome G)
  m_AverageFitness : ℚ
  deriving DecidableEq

/-- The two search phases of `Population::GetSearchMode`. -/
inductive SearchMode where
  | COMPLEXIFYING
  | SIMPLIFYING
  deriving DecidableEq

/-- The fields of `GlobalParameters` (declared in `Parameters.h`) that `Species.cpp`
reads. They are configuration inputs, so every definition takes them as a parameter. -/
structure Parameters where
  YoungAgeTreshold : Nat
  YoungAgeFitnessBoost : ℚ
  OldAgeTreshold : Nat
  OldAgePenalty : ℚ
  SpeciesDropoffAge : Nat
  SurvivalRate : ℚ
  RouletteWheelSelection : Bool
  CrossoverRate : ℚ
  InterspeciesCrossoverRate : ℚ
  MultipointCrossoverRate : ℚ
  OverallMutationRate : ℚ
  MutateAddNeuronProb : ℚ
  MutateAddLinkProb : ℚ
  MutateRemSimpleNeuronProb : ℚ
  MutateRemLinkProb : ℚ
  MutateNeuronActivationTypeProb : ℚ
  MutateWeightsProb : ℚ
  MutateActivationAProb : ℚ
  MutateActivationBProb : ℚ
  MutateNeuronTimeConstantsProb : ℚ
  MutateNeuronBiasesProb : ℚ

variable {G : Type}

/-! ## Binary64 arithmetic

Two computations of the file turn a `double` into an integer the program goes on to
use: the offspring demand accumulated by `CountOffspring` is rounded to a baby count by
`Reproduce`, and the truncation size of `KillWorst` is the floor of a product and a sum.
There the rounding of each operation can change the integer, and the operations are
embedded with their rounding: each one is evaluated in binary64, with no wider
intermediate format and no fused multiply-add. -/

/-- Rounding of a rational to the nearest integer, a tie going to the even one. -/
def roundHalfEven (q : ℚ) : Int :=
  if q - (⌊q⌋ : ℚ) < 1 / 2 then ⌊q⌋
  else if 1 / 2 < q - (⌊q⌋ : ℚ) then ⌊q⌋ + 1
  else if ⌊q⌋ % 2 = 0 then ⌊q⌋ else ⌊q⌋ + 1

/-- The exponent of the spacing of the binary64 numbers at `x`, for `x` other than 0: 52
binary places below the leading bit of `x`, and not below `-1074`, the spacing of the
subnormal numbers. -/
def quantumExponent (x : ℚ) : Int := max (Int.log 2 |x| - 52) (-1074)

/-- The binary64 number a real result is rounded to in the default rounding mode (to
nearest, a tie going to the even significand): the multiple of the spacing at `x`
nearest to `x`. `none` when the rounded magnitude reaches `2 ^ 1024`, where the machine
result is an infinity. -/
def toDouble (x : ℚ) : Option ℚ :=
  if x = 0 then some 0
  else
    let y : ℚ := (roundHalfEven (x / 2 ^ quantumExponent x) : ℚ) * 2 ^ quantumExponent x
    if |y| < 2 ^ 1024 then some y else none

/-! ## `Species::CountOffspring` -/

/-- The loop of `Species::CountOffspring`: `m_OffspringRqd += GetOffspringAmount()` for the
members in index order, from the accumulator `acc`, every addition rounded to binary64.
`none` when an addition overflows. -/
def CountOffspringLoop : List (Genome G) → ℚ → Option ℚ
  | [], acc => some acc
  | g :: rest, acc =>
    match toDouble (acc + g.GetOffspringAmount) with
    | none => none
    | some acc1 => CountOffspringLoop rest acc1

/-- `Species::CountOffspring`: reset `m_OffspringRqd` to 0, then add every member's
offspring amount. -/
def CountOffspring (s : Species G) : Option (Species G) :=
  match CountOffspringLoop s.m_Individuals 0 with
  | none => none
  | some t_total => some { s with m_OffspringRqd := t_total }

/-! ## `Species::AdjustFitness` -/

/-- The running record of `AdjustFitness` after one member with (clamped) fitness `t`:
`if (t_fitness > m_BestFitness) { m_BestFitness = t_fitness; m_GensNoImprovement = 0; }`. -/
def updateRecord (t : ℚ) (rec : ℚ × Nat) : ℚ × Nat :=
  if t > rec.1 then (t, 0) else rec

/-- The clamp of `AdjustFitness`: `if (t_fitness <= 0) t_fitness = 0.0001;`. -/
def clampFitness (f : ℚ) : ℚ :=
  if f ≤ 0 then 1 / 10000 else f

/-- The three multiplicative modifiers of `AdjustFitness`, applied in source order to the
running value `t`; `gens` is `m_GensNoImprovement` as it stands after the record update. -/
def applyModifiers (P : Parameters) (age : Nat) (bestSpecies : Bool) (gens : Nat) (t : ℚ) : ℚ :=
  let t1 := if age < P.YoungAgeTreshold then t * P.YoungAgeFitnessBoost else t
  let t2 := if age > P.OldAgeTreshold then t1 * P.OldAgePenalty else t1
  if gens > P.SpeciesDropoffAge then
    if !bestSpecies then t2 * (1 / 10000000) else t2
  else t2

/-- The body of the `for` loop of `AdjustFitness` over the members still to be processed.
`size` is `m_Individuals.size()`, `rec` is `(m_BestFitness, m_GensNoImprovement)`.
Returns the processed members and the final record, or `none` when
`ASSERT(t_fitness >= 0)` fails. -/
def AdjustFitnessLoop (P : Parameters) (age : Nat) (bestSpecies : Bool) (size : Nat) :
    List (Genome G) → ℚ × Nat → Option (List (Genome G) × (ℚ × Nat))
  | [], rec => some ([], rec)
  | g :: rest, rec =>
    if g.GetFitness < 0 then none
    else
      let t := clampFitness g.GetFitness
      let rec1 := updateRecord t rec
      let t3 := applyModifiers P age bestSpecies rec1.2 t
      match AdjustFitnessLoop P age bestSpecies size rest rec1 with
      | none => none
      | some (done, rec2) => some (g.SetAdjFitness (t3 / (size : ℚ)) :: done, rec2)

/-- `Species::AdjustFitness`. `none` when `ASSERT(m_Individuals.size() > 0)` or
`ASSERT(t_fitness >= 0)` fails. -/
def AdjustFitness (P : Parameters) (s : Species G) : Option (Species G) :=
  if s.m_Individuals.length = 0 then none
  else
    match AdjustFitnessLoop P s.m_Age s.m_BestSpecies s.m_Individuals.length
        s.m_Individuals (s.m_BestFitness, s.m_GensNoImprovement) with
    | none => none
    | some (inds, rec) =>
      some { s with m_Individuals := inds, m_BestFitness := rec.1, m_GensNoImprovement := rec.2 }

/-! ## The environment: collaborators of `Species.cpp` -/

/-- The local enumeration `MutationTypes` of `MutateGenome`, in declaration order. -/
inductive MutationTypes where
  | ADD_NODE
  | ADD_LINK
  | REMOVE_NODE
  | REMOVE_LINK
  | CHANGE_ACTIVATION_FUNCTION
  | MUTATE_WEIGHTS
  | MUTATE_ACTIVATION_A
  | MUTATE_ACTIVATION_B
  | MUTATE_TIMECONSTS
  | MUTATE_BIASES
  deriving DecidableEq

/-- The helper class `Mutation`: a mutation type with its probability. -/
structure Mutation where
  MutationType : MutationTypes
  Probability : ℚ
  deriving DecidableEq

/-- The comparator `MutationBigger` handed to `std::sort` in `MutateGenome`. -/
def MutationBigger (ls rs : Mutation) : Bool :=
  decide (ls.Probability > rs.Probability)

/-- The comparator `genome_greater` handed to `std::sort` in `SortIndividuals`. -/
def genome_greater (ls rs : Genome G) : Bool :=
  decide (ls.GetFitness > rs.GetFitness)

/-- Everything `Species.cpp` calls but does not define. `W` is the state those calls
share and change: the random source of `Random.h` and the innovation database reached
through `Population::AccessInnovationDatabase`.

* `RandFloat`, `RandInt lo hi`: the generators of `Random.h`.
* `sortGenomes`, `sortMutations`: `std::sort` with `genome_greater` and with
  `MutationBigger`; the order it gives to equal keys is not fixed by the language, so the
  sorts are parameters and their contract is `StdSortContract`.
* `Mate mom dad a b`: `mom.Mate(dad, a, b)`.
* `CompatibilityDistance`, `IsCompatibleWith`, `HasDeadEnds`, `NumLinks`: queries of `Genome`.
* `SortGenes`: gene canonicalisation; it reorders the genetic content only.
* `Mutate_*`: the ten mutation operators (the success flag some of them return is
  stored in `t_mutation_success` and never read, so it is not modelled).
* `uninitWorstSpecies`, `uninitAverageFitness`: the values found in `m_WorstSpecies` and
  `m_AverageFitness`, which the constructor `Species::Species` does not initialise. -/
structure Env (G W : Type) where
  RandFloat : W → ℚ × W
  RandInt : Int → Int → W → Int × W
  sortGenomes : List (Genome G) → List (Genome G)
  sortMutations : List Mutation → List Mutation
  Mate : Genome G → Genome G → Bool → Bool → W → Genome G × W
  CompatibilityDistance : Genome G → Genome G → ℚ
  IsCompatibleWith : Genome G → Genome G → Bool
  HasDeadEnds : Genome G → Bool
  NumLinks : Genome G → Nat
  SortGenes : G → G
  Mutate_AddNeuron : Genome G → W → Genome G × W
  Mutate_AddLink : Genome G → W → Genome G × W
  Mutate_RemoveSimpleNeuron : Genome G → W → Genome G × W
  Mutate_RemoveLink : Genome G → W → Genome G × W
  Mutate_NeuronActivation_Type : Genome G → W → Genome G × W
  Mutate_LinkWeights : Genome G → W → Genome G × W
  Mutate_NeuronActivations_A : Genome G → W → Genome G × W
  Mutate_NeuronActivations_B : Genome G → W → Genome G × W
  Mutate_NeuronTimeConstants : Genome G → W → Genome G × W
  Mutate_NeuronBiases : Genome G → W → Genome G × W
  uninitWorstSpecies : Bool
  uninitAverageFitness : ℚ

variable {W : Type}

/-- The contract of `std::sort(first, last, comp)` for the two sorts of the file: the
result is a permutation of the input and no element is `comp`-before an earlier one. -/
structure StdSortContract (E : Env G W) : Prop where
  genomes_perm : ∀ l, (E.sortGenomes l).Perm l
  genomes_sorted : ∀ l, (E.sortGenomes l).Pairwise (fun a b => genome_greater b a = false)
  mutations_perm : ∀ l, (E.sortMutations l).Perm l
  mutations_sorted : ∀ l, (E.sortMutations l).Pairwise (fun a b => MutationBigger b a = false)

/-- Modelled from the spec: the population context (`Population.h` is not part of the
source file): the live species list, the next-generation species list, the genome-ID and
species-ID counters and the search phase. -/
structure Population (G : Type) where
  m_Species : List (Species G)
  m_TempSpecies : List (Species G)
  m_NextGenomeID : Int
  m_NextSpeciesID : Int
  m_SearchMode : SearchMode
  deriving DecidableEq

namespace Population

/-- Modelled from the spec: `Population::GetNextGenomeID`, the genome-ID counter. -/
def GetNextGenomeID (p : Population G) : Int := p.m_NextGenomeID

/-- Modelled from the spec: `Population::IncrementNextGenomeID`, which advances the
monotonic genome-ID counter by one. -/
def IncrementNextGenomeID (p : Population G) : Population G :=
  { p with m_NextGenomeID := p.m_NextGenomeID + 1 }

/-- Modelled from the spec: `Population::GetNextSpeciesID`, the species-ID counter. -/
def GetNextSpeciesID (p : Population G) : Int := p.m_NextSpeciesID

/-- Modelled from the spec: `Population::IncrementNextSpeciesID`, which advances the
monotonic species-ID counter by one. -/
def IncrementNextSpeciesID (p : Population G) : Population G :=
  { p with m_NextSpeciesID := p.m_NextSpeciesID + 1 }

/-- Modelled from the spec: `Population::GetSearchMode`, the current search phase. -/
def GetSearchMode (p : Population G) : SearchMode := p.m_SearchMode

end Population

/-- Modelled from the spec: `Rounded` of `Utils.h` (not part of the source file), which
the specification fixes as round-half-up. -/
def Rounded (x : ℚ) : Int := ⌊x + 1 / 2⌋

/-- The conversion `static_cast<int>(x)` of a `double`: truncation toward zero. -/
def castInt (x : ℚ) : Int := if 0 ≤ x then ⌊x⌋ else ⌈x⌉

/-- The read `v[i]` of a vector at an `int` index: `none` outside the bounds. -/
def vectorAt {α : Type} (v : List α) (i : Int) : Option α :=
  if 0 ≤ i then v[i.toNat]? else none

/-! ## Small members of `Species` -/

/-- Modelled from the spec: `Species::NumMembers` (defined in `Species.h`), the number of
members. -/
def Species.NumMembers (s : Species G) : Nat := s.m_Individuals.length

/-- Modelled from the spec: `Species::GetOffspringRqd` (defined in `Species.h`), the
accumulated offspring demand. -/
def Species.GetOffspringRqd (s : Species G) : ℚ := s.m_OffspringRqd

/-- `Species::GetRepresentative`. -/
def Species.GetRepresentative (s : Species G) : Genome G := s.m_Representative

/-- `Species::AddIndividual`: `m_Individuals.push_back(a_Genome)`. -/
def Species.AddIndividual (s : Species G) (a_Genome : Genome G) : Species G :=
  { s with m_Individuals := s.m_Individuals ++ [a_Genome] }

/-- The constructor `Species::Species(a_Genome, a_ID)`. It draws three random floats for
the colour and leaves `m_WorstSpecies` and `m_AverageFitness` uninitialised. -/
def Species.Species (E : Env G W) (a_Genome : Genome G) (a_ID : Int) (w : W) : Species G × W :=
  let r := E.RandFloat w
  let g := E.RandFloat r.2
  let b := E.RandFloat g.2
  ({ m_ID := a_ID
     m_Representative := a_Genome
     m_BestGenome := a_Genome
     m_BestSpecies := true
     m_WorstSpecies := E.uninitWorstSpecies
     m_BestFitness := a_Genome.GetFitness
     m_GensNoImprovement := 0
     m_Age := 0
     m_OffspringRqd := 0
     m_R := castInt (r.1 * 255)
     m_G := castInt (g.1 * 255)
     m_B := castInt (b.1 * 255)
     m_Individuals := [a_Genome]
     m_AverageFitness := E.uninitAverageFitness }, b.2)

/-- `Species::GetRandomIndividual`: the representative when there are no members,
otherwise the member at index `RandInt(0, size-1)`. -/
def GetRandomIndividual (E : Env G W) (s : Species G) (w : W) : Option (Genome G × W) :=
  if s.m_Individuals.length = 0 then some (s.m_Representative, w)
  else
    let r := E.RandInt 0 ((s.m_Individuals.length : Int) - 1) w
    match vectorAt s.m_Individuals r.1 with
    | none => none
    | some g => some (g, r.2)

/-! ## `Species::KillWorst` and `Species::KillOldParents` -/

/-- `Species::SortIndividuals`: `std::sort` of the members with `genome_greater`. -/
def SortIndividuals (E : Env G W) (s : Species G) : Species G :=
  { s with m_Individuals := E.sortGenomes s.m_Individuals }

/-- The truncation size of `KillWorst` and `GetIndividual`:
`static_cast<int>(floor(SurvivalRate * static_cast<double>(size) + 1.0))`, in exact
arithmetic (`numParentsDouble` is the same expression with every operation rounded). -/
def numParents (P : Parameters) (size : Nat) : Int :=
  castInt (⌊P.SurvivalRate * (size : ℚ) + 1⌋ : Int)

/-- The loop `for (i = 0; i < t_num_parents; i++) m_Individuals[i].Adult();` of
`KillWorst`, from index `i` with `k` iterations left; `none` when it indexes past the
end of the vector. -/
def KillWorstAdultLoop : Nat → Nat → List (Genome G) → Option (List (Genome G))
  | 0, _, inds => some inds
  | k + 1, i, inds =>
    match inds[i]? with
    | none => none
    | some g => KillWorstAdultLoop k (i + 1) (inds.set i g.Adult)

/-- `Species::KillWorst`. `none` when an assertion fails or the promotion loop runs past
the end of the member vector. -/
def KillWorst (E : Env G W) (P : Parameters) (s : Species G) : Option (Species G) :=
  if s.m_Individuals.length = 0 then none
  else
    let s1 : Species G := { s with m_Individuals := s.m_Individuals.map Genome.Birth }
    let s2 := SortIndividuals E s1
    let t_num_parents := numParents P s2.m_Individuals.length
    if t_num_parents ≤ 0 then none
    else
      match KillWorstAdultLoop t_num_parents.toNat 0 s2.m_Individuals with
      | none => none
      | some inds => some { s2 with m_Individuals := inds.take t_num_parents.toNat }

/-- The truncation size as the machine computes it:
`static_cast<int>(floor(SurvivalRate * static_cast<double>(size) + 1.0))` with the
conversion of the size, the product and the sum each rounded to binary64. `none` when an
operation overflows or the floor is outside the range of `int`, where the conversion is
undefined. -/
def numParentsDouble (P : Parameters) (size : Nat) : Option Int :=
  match toDouble (size : ℚ) with
  | none => none
  | some t_size =>
    match toDouble (P.SurvivalRate * t_size) with
    | none => none
    | some t_product =>
      match toDouble (t_product + 1) with
      | none => none
      | some t_sum =>
        if -(2 : Int) ^ 31 ≤ ⌊t_sum⌋ ∧ ⌊t_sum⌋ < (2 : Int) ^ 31 then some ⌊t_sum⌋ else none

/-- `Species::KillWorst` with the truncation size as the machine computes it
(`numParentsDouble`); the rest is as in `KillWorst`. -/
def KillWorstDouble (E : Env G W) (P : Parameters) (s : Species G) : Option (Species G) :=
  if s.m_Individuals.length = 0 then none
  else
    let s1 : Species G := { s with m_Individuals := s.m_Individuals.map Genome.Birth }
    let s2 := SortIndividuals E s1
    match numParentsDouble P s2.m_Individuals.length with
    | none => none
    | some t_num_parents =>
      if t_num_parents ≤ 0 then none
      else
        match KillWorstAdultLoop t_num_parents.toNat 0 s2.m_Individuals with
        | none => none
        | some inds => some { s2 with m_Individuals := inds.take t_num_parents.toNat }

/-- The decrement `i--` of an `unsigned int`. -/
def uintDec (i : Nat) : Nat := (i + 2 ^ 32 - 1) % 2 ^ 32

/-- The increment `i++` of an `unsigned int`. -/
def uintInc (i : Nat) : Nat := (i + 1) % 2 ^ 32

/-- The loop of `Species::KillOldParents` from index `i`: an adult at `i` is erased and
the index rolled back with `i--` before the `i++` of the loop header. `fuel` bounds the
number of iterations; `none` when it is used up. -/
def KillOldParentsLoop : Nat → Nat → List (Genome G) → Option (List (Genome G))
  | 0, _, _ => none
  | fuel + 1, i, inds =>
    match inds[i]? with
    | none => some inds
    | some g =>
      if g.IsAdult then KillOldParentsLoop fuel (uintInc (uintDec i)) (inds.eraseIdx i)
      else KillOldParentsLoop fuel (uintInc i) inds

/-- `Species::KillOldParents`, with `fuel` loop iterations allowed. -/
def KillOldParents (fuel : Nat) (s : Species G) : Option (Species G) :=
  match KillOldParentsLoop fuel 0 s.m_Individuals with
  | none => none
  | some inds => some { s with m_Individuals := inds }

/-- The filter/retain pass the specification proposes in place of the erase loop: keep
the members that are not flagged Adult, in order. -/
def retainNonAdults (inds : List (Genome G)) : List (Genome G) :=
  inds.filter (fun g => !g.IsAdult)

/-! ## `Species::MutateGenome` -/

/-- The vector `Mutations` as `MutateGenome` fills it, in `push_back` order. -/
def initialMutations (P : Parameters) : List Mutation :=
  [ ⟨MutationTypes.ADD_NODE, P.MutateAddNeuronProb⟩,
    ⟨MutationTypes.ADD_LINK, P.MutateAddLinkProb⟩,
    ⟨MutationTypes.REMOVE_NODE, P.MutateRemSimpleNeuronProb⟩,
    ⟨MutationTypes.REMOVE_LINK, P.MutateRemLinkProb⟩,
    ⟨MutationTypes.CHANGE_ACTIVATION_FUNCTION, P.MutateNeuronActivationTypeProb⟩,
    ⟨MutationTypes.MUTATE_WEIGHTS, P.MutateWeightsProb⟩,
    ⟨MutationTypes.MUTATE_ACTIVATION_A, P.MutateActivationAProb⟩,
    ⟨MutationTypes.MUTATE_ACTIVATION_B, P.MutateActivationBProb⟩,
    ⟨MutationTypes.MUTATE_TIMECONSTS, P.MutateNeuronTimeConstantsProb⟩,
    ⟨MutationTypes.MUTATE_BIASES, P.MutateNeuronBiasesProb⟩ ]

/-- The assignment `Mutations[i].Probability = 0`. -/
def zeroProbability : Nat → List Mutation → List Mutation
  | _, [] => []
  | 0, m :: rest => { m with Probability := 0 } :: rest
  | i + 1, m :: rest => m :: zeroProbability i rest

/-- The phase and clone masking of `MutateGenome`. -/
def maskMutations (mode : SearchMode) (t_baby_is_clone : Bool) (ms : List Mutation) :
    List Mutation :=
  let ms1 :=
    if mode = SearchMode.SIMPLIFYING ∨ t_baby_is_clone = true then
      zeroProbability 1 (zeroProbability 0 ms)
    else ms
  if mode = SearchMode.COMPLEXIFYING ∨ t_baby_is_clone = true then
    zeroProbability 3 (zeroProbability 2 ms1)
  else ms1

/-- The accumulation `for (i...) t_total += v[i]` of a roulette wheel, from `acc`. -/
def totalLoop : List ℚ → ℚ → ℚ
  | [], acc => acc
  | p :: rest, acc => totalLoop rest (acc + p)

/-- The roulette walk `while (t_spin < t_marble) { t_chosen_one++; t_spin += v[t_chosen_one]; }`.
`rest` holds the entries after index `t_chosen_one`; `none` when the walk reads past the
end of the vector. -/
def rouletteWalk (t_marble : ℚ) : List ℚ → ℚ → Nat → Option Nat
  | [], t_spin, t_chosen_one =>
    if t_spin < t_marble then none else some t_chosen_one
  | p :: rest, t_spin, t_chosen_one =>
    if t_spin < t_marble then rouletteWalk t_marble rest (t_spin + p) (t_chosen_one + 1)
    else some t_chosen_one

/-- A roulette wheel over the vector of weights `v`: `t_spin` starts at `v[0]`, then the
walk. `none` when a read is out of bounds. -/
def roulette (v : List ℚ) (t_marble : ℚ) : Option Nat :=
  match v with
  | [] => none
  | p :: rest => rouletteWalk t_marble rest p 0

/-- The `do ... while` of the `REMOVE_LINK` case, from the value `t_tries` holds at the
top of an iteration: after `t_tries--`, a value `<= 0` restores the unmutated baby and
gives up; otherwise `Mutate_RemoveLink` is applied to a copy of the baby and the loop
repeats while the copy has no links or has dead ends. -/
def RemoveLinkLoop (E : Env G W) (t_baby : Genome G) : Nat → W → Genome G × W
  | 0, w => (t_baby, w)
  | 1, w => (t_baby, w)
  | n + 2, w =>
    let r := E.Mutate_RemoveLink t_baby w
    if E.NumLinks r.1 = 0 ∨ E.HasDeadEnds r.1 = true then RemoveLinkLoop E t_baby (n + 1) r.2
    else r

/-- The `switch (ChosenMutation)` of `MutateGenome`. -/
def applyMutation (E : Env G W) (t_baby : Genome G) (w : W) : MutationTypes → Genome G × W
  | MutationTypes.ADD_NODE => E.Mutate_AddNeuron t_baby w
  | MutationTypes.ADD_LINK => E.Mutate_AddLink t_baby w
  | MutationTypes.REMOVE_NODE => E.Mutate_RemoveSimpleNeuron t_baby w
  | MutationTypes.REMOVE_LINK => RemoveLinkLoop E t_baby 128 w
  | MutationTypes.CHANGE_ACTIVATION_FUNCTION => E.Mutate_NeuronActivation_Type t_baby w
  | MutationTypes.MUTATE_WEIGHTS => E.Mutate_LinkWeights t_baby w
  | MutationTypes.MUTATE_ACTIVATION_A => E.Mutate_NeuronActivations_A t_baby w
  | MutationTypes.MUTATE_ACTIVATION_B => E.Mutate_NeuronActivations_B t_baby w
  | MutationTypes.MUTATE_TIMECONSTS => E.Mutate_NeuronTimeConstants t_baby w
  | MutationTypes.MUTATE_BIASES => E.Mutate_NeuronBiases t_baby w

/-- The mutation type `MutateGenome` chooses: mask, sort, draw the marble, walk. `none`
when the walk reads past the end of `Mutations`. -/
def chooseMutation (E : Env G W) (P : Parameters) (t_baby_is_clone : Bool)
    (mode : SearchMode) (w : W) : Option (MutationTypes × W) :=
  let Mutations := E.sortMutations (maskMutations mode t_baby_is_clone (initialMutations P))
  let t_total_probability := totalLoop (Mutations.map Mutation.Probability) 0
  let r := E.RandFloat w
  let t_marble := r.1 * t_total_probability
  match roulette (Mutations.map Mutation.Probability) t_marble with
  | none => none
  | some t_chosen_one =>
    match Mutations[t_chosen_one]? with
    | none => none
    | some m => some (m.MutationType, r.2)

/-- `Species::MutateGenome`: returns the mutated baby and the new shared state. -/
def MutateGenome (E : Env G W) (P : Parameters) (t_baby_is_clone : Bool) (a_Pop : Population G)
    (t_baby : Genome G) (w : W) : Option (Genome G × W) :=
  match chooseMutation E P t_baby_is_clone a_Pop.GetSearchMode w with
  | none => none
  | some (ChosenMutation, w1) => some (applyMutation E t_baby w1 ChosenMutation)

/-! ## `Species::Reproduce` -/

/-- The loop `while ((same parent) && (t_tries--)) t_dad = GetRandomIndividual();` of the
intraspecies branch, from the current `t_tries` and `t_dad`. -/
def intraspeciesDadLoop (E : Env G W) (s : Species G) (t_mom : Genome G) :
    Nat → Genome G → W → Option (Genome G × W)
  | t_tries, t_dad, w =>
    if t_mom.GetID = t_dad.GetID ∨ E.CompatibilityDistance t_mom t_dad = 0 then
      match t_tries with
      | 0 => some (t_dad, w)
      | n + 1 =>
        match GetRandomIndividual E s w with
        | none => none
        | some (d, w1) => intraspeciesDadLoop E s t_mom n d w1
    else some (t_dad, w)

/-- The father selection of `Reproduce`: returns `(t_dad, t_interspecies)`. The float is
drawn before the species count is looked at (`&&` evaluates its left operand first). -/
def ReproduceDad (E : Env G W) (P : Parameters) (s : Species G) (a_Pop : Population G)
    (t_mom : Genome G) (w : W) : Option ((Genome G × Bool) × W) :=
  let r := E.RandFloat w
  if r.1 < P.InterspeciesCrossoverRate ∧ a_Pop.m_Species.length > 1 then
    let k := E.RandInt 0 ((a_Pop.m_Species.length : Int) - 1) r.2
    match vectorAt a_Pop.m_Species k.1 with
    | none => none
    | some sp =>
      match GetRandomIndividual E sp k.2 with
      | none => none
      | some (t_dad, w1) => some ((t_dad, true), w1)
  else
    match GetRandomIndividual E s r.2 with
    | none => none
    | some (d, w1) =>
      match intraspeciesDadLoop E s t_mom 16 d w1 with
      | none => none
      | some (t_dad, w2) => some ((t_dad, false), w2)

/-- The first half of one pass through the `do ... while` of `Reproduce`: the candidate
before mutation, with the flag `t_mated`. -/
def ReproduceMateOrCopy (E : Env G W) (P : Parameters) (s : Species G) (a_Pop : Population G)
    (w : W) : Option ((Genome G × Bool) × W) :=
  if s.NumMembers = 0 then none
  else if s.NumMembers = 1 then
    match GetRandomIndividual E s w with
    | none => none
    | some (t_baby, w1) => some ((t_baby, false), w1)
  else
    match GetRandomIndividual E s w with
    | none => none
    | some (t_mom, w1) =>
      let r := E.RandFloat w1
      if r.1 < P.CrossoverRate ∧ a_Pop.GetSearchMode ≠ SearchMode.SIMPLIFYING then
        match ReproduceDad E P s a_Pop t_mom r.2 with
        | none => none
        | some ((t_dad, t_interspecies), w2) =>
          let c := E.RandFloat w2
          if c.1 < P.MultipointCrossoverRate then
            let b := E.Mate t_mom t_dad false t_interspecies c.2
            some ((b.1, true), b.2)
          else
            let b := E.Mate t_mom t_dad true t_interspecies c.2
            some ((b.1, true), b.2)
      else some ((t_mom, false), r.2)

/-- The clone test of `Reproduce`: some genome held in `m_TempSpecies` is at
compatibility distance below `0.000001` from the baby. -/
def isCloneOfOffspring (E : Env G W) (t_baby : Genome G) (temp : List (Species G)) : Bool :=
  temp.any (fun sp =>
    sp.m_Individuals.any (fun g => decide (E.CompatibilityDistance t_baby g < 1 / 1000000)))

/-- One pass through the body of the `do ... while` of `Reproduce`: the candidate after
the optional mutation. An unmated candidate is mutated without a draw; for a mated one
a float is drawn and compared with `OverallMutationRate`. -/
def ReproduceAttempt (E : Env G W) (P : Parameters) (s : Species G) (a_Pop : Population G)
    (t_baby_is_clone : Bool) (w : W) : Option (Genome G × W) :=
  match ReproduceMateOrCopy E P s a_Pop w with
  | none => none
  | some ((t_baby, t_mated), w1) =>
    if t_mated = false then MutateGenome E P t_baby_is_clone a_Pop t_baby w1
    else
      let r := E.RandFloat w1
      if r.1 < P.OverallMutationRate then MutateGenome E P t_baby_is_clone a_Pop t_baby r.2
      else some (t_baby, r.2)

/-- The `do ... while (t_baby_is_clone)` of `Reproduce`. The source loop has no bound;
`fuel` bounds the number of passes and `none` is returned when it is used up. -/
def ReproduceRetry (E : Env G W) (P : Parameters) (s : Species G) (a_Pop : Population G) :
    Nat → Bool → W → Option (Genome G × W)
  | 0, _, _ => none
  | fuel + 1, t_baby_is_clone, w =>
    match ReproduceAttempt E P s a_Pop t_baby_is_clone w with
    | none => none
    | some (t_baby, w1) =>
      if isCloneOfOffspring E t_baby a_Pop.m_TempSpecies = true then
        ReproduceRetry E P s a_Pop fuel true w1
      else some (t_baby, w1)

/-- The finalisation of a baby in `Reproduce` and `ReproduceOne`: `SetID` with the
genome-ID counter, `SortGenes`, fitness, adjusted fitness and offspring amount set to 0,
`Birth`, `ResetEvaluated`. -/
def finalizeBaby (E : Env G W) (a_Pop : Population G) (t_baby : Genome G) : Genome G :=
  let b1 := t_baby.SetID a_Pop.GetNextGenomeID
  let b2 : Genome G := { b1 with m_Genes := E.SortGenes b1.m_Genes }
  ((((b2.SetFitness 0).SetAdjFitness 0).SetOffspringAmount 0).Birth).ResetEvaluated

/-- The search `while (t_cur_species != end && !t_found)` of the placement step: the list
with the baby added to the first species whose representative is compatible, or `none`
when no representative is compatible. -/
def placeLoop (E : Env G W) (t_baby : Genome G) : List (Species G) → Option (List (Species G))
  | [] => none
  | sp :: rest =>
    if E.IsCompatibleWith t_baby sp.GetRepresentative = true then
      some (sp.AddIndividual t_baby :: rest)
    else
      match placeLoop E t_baby rest with
      | none => none
      | some rest1 => some (sp :: rest1)

/-- The step `m_TempSpecies.push_back(Species(t_baby, GetNextSpeciesID()));
IncrementNextSpeciesID();`. -/
def pushNewSpecies (E : Env G W) (t_baby : Genome G) (a_Pop : Population G) (w : W) :
    Population G × W :=
  let sp := Species.Species E t_baby a_Pop.GetNextSpeciesID w
  (({ a_Pop with m_TempSpecies := a_Pop.m_TempSpecies ++ [sp.1] }).IncrementNextSpeciesID, sp.2)

/-- The placement step of `Reproduce` ("put the baby to its species"). -/
def placeBaby (E : Env G W) (t_baby : Genome G) (a_Pop : Population G) (w : W) :
    Population G × W :=
  if a_Pop.m_TempSpecies.length = 0 then pushNewSpecies E t_baby a_Pop w
  else
    match placeLoop E t_baby a_Pop.m_TempSpecies with
    | some temp => ({ a_Pop with m_TempSpecies := temp }, w)
    | none => pushNewSpecies E t_baby a_Pop w

/-- What a call of `Reproduce` leaves behind: the population context, the shared state,
and `born`, a log (not a variable of the source) of the finalised babies in the order in
which they were placed. -/
structure ReproduceResult (G W : Type) where
  pop : Population G
  world : W
  born : List (Genome G)

/-- The loop `while (t_offspring_count--)` of `Reproduce`, with `count` iterations left.
Each iteration takes the candidate (member 0 the first time, the retry loop afterwards),
finalises it, advances the genome-ID counter and places it. `none` when the species has
no member 0, an inner call fails or the retry loop runs out of fuel. -/
def ReproduceLoop (E : Env G W) (P : Parameters) (s : Species G) (fuel : Nat) :
    Nat → Bool → Population G → W → List (Genome G) → Option (ReproduceResult G W)
  | 0, _, a_Pop, w, born => some ⟨a_Pop, w, born⟩
  | count + 1, t_champ_chosen, a_Pop, w, born =>
    let candidate : Option (Genome G × W) :=
      if t_champ_chosen = false then
        match s.m_Individuals[0]? with
        | none => none
        | some g => some (g, w)
      else ReproduceRetry E P s a_Pop fuel false w
    match candidate with
    | none => none
    | some (t_baby, w1) =>
      let baby := finalizeBaby E a_Pop t_baby
      let placed := placeBaby E baby a_Pop.IncrementNextGenomeID w1
      ReproduceLoop E P s fuel count true placed.1 placed.2 (born ++ [baby])

/-- `Species::Reproduce` for the species `s` (which is not an element of
`m_TempSpecies`), with `fuel` passes allowed to each clone-avoidance loop. A count of 0
returns at once; a negative count is outside the model (`none`). -/
def Reproduce (E : Env G W) (P : Parameters) (fuel : Nat) (s : Species G) (a_Pop : Population G)
    (w : W) : Option (ReproduceResult G W) :=
  let t_offspring_count := Rounded s.GetOffspringRqd
  if t_offspring_count = 0 then some ⟨a_Pop, w, []⟩
  else if t_offspring_count < 0 then none
  else ReproduceLoop E P s fuel t_offspring_count.toNat false a_Pop w []

/-- The number of genomes held in a species list. -/
def totalGenomes (l : List (Species G)) : Nat :=
  (l.map (fun sp => sp.m_Individuals.length)).sum

/-! ## `Species::GetLeader`, `Species::GetIndividual`, `Species::CalculateAverageFitness` -/

/-- The scan of `GetLeader` over the members still to be visited: `i` is the loop index,
`t_max_fitness` and `t_leader_idx` the running maximum and its index. -/
def GetLeaderLoop : List (Genome G) → Nat → ℚ → Int → Int
  | [], _, _, t_leader_idx => t_leader_idx
  | g :: rest, i, t_max_fitness, t_leader_idx =>
    if t_max_fitness < g.GetFitness then GetLeaderLoop rest (i + 1) g.GetFitness (i : Int)
    else GetLeaderLoop rest (i + 1) t_max_fitness t_leader_idx

/-- `Species::GetLeader`: the representative when there are no members; otherwise the
member at the index the scan ends with. `none` when
`ASSERT(t_leader_idx != -1)` fails. -/
def GetLeader (s : Species G) : Option (Genome G) :=
  if s.m_Individuals.length = 0 then some s.m_Representative
  else
    let t_leader_idx := GetLeaderLoop s.m_Individuals 0 (-99999999) (-1)
    if t_leader_idx = -1 then none
    else vectorAt s.m_Individuals t_leader_idx

/-- The index `t_chosen_one` that `GetIndividual` computes for a pool `t_Evaluated` of
three or more evaluated members. The marble is drawn in either scheme. With
truncation selection the index is `RandInt(0, t_num_parents)`; `none` when
`ASSERT(t_num_parents > 0)` fails. With roulette-wheel selection it is where the walk
stops; `none` when the walk reads past the end of the pool. -/
def GetIndividualChosen (E : Env G W) (P : Parameters) (t_Evaluated : List (Genome G)) (w : W) :
    Option (Int × W) :=
  let t_total_fitness := totalLoop (t_Evaluated.map Genome.GetFitness) 0
  let r := E.RandFloat w
  let t_marble := r.1 * t_total_fitness
  if P.RouletteWheelSelection = false then
    let t_num_parents := numParents P t_Evaluated.length
    if t_num_parents ≤ 0 then none
    else some (E.RandInt 0 t_num_parents r.2)
  else
    match roulette (t_Evaluated.map Genome.GetFitness) t_marble with
    | none => none
    | some t_chosen_one => some ((t_chosen_one : Int), r.2)

/-- `Species::GetIndividual`. `none` when an assertion fails or a vector is read outside
its bounds. -/
def GetIndividual (E : Env G W) (P : Parameters) (s : Species G) (w : W) :
    Option (Genome G × W) :=
  if s.m_Individuals.length = 0 then none
  else
    let t_Evaluated := s.m_Individuals.filter (fun g => g.IsEvaluated)
    if t_Evaluated.length = 0 then none
    else if t_Evaluated.length = 1 then
      match t_Evaluated[0]? with
      | none => none
      | some g => some (g, w)
    else if t_Evaluated.length = 2 then
      let r := E.RandFloat w
      match vectorAt t_Evaluated (Rounded r.1) with
      | none => none
      | some g => some (g, r.2)
    else
      match GetIndividualChosen E P t_Evaluated w with
      | none => none
      | some (t_chosen_one, w1) =>
        match vectorAt t_Evaluated t_chosen_one with
        | none => none
        | some g => some (g, w1)

/-- The loop of `CalculateAverageFitness` over the members still to be visited, with the
running `t_total_fitness` and `t_num_individuals`. -/
def CalculateAverageFitnessLoop : List (Genome G) → ℚ → Int → ℚ × Int
  | [], t_total_fitness, t_num_individuals => (t_total_fitness, t_num_individuals)
  | g :: rest, t_total_fitness, t_num_individuals =>
    if g.m_Evaluated = true then
      CalculateAverageFitnessLoop rest (t_total_fitness + g.GetFitness) (t_num_individuals + 1)
    else CalculateAverageFitnessLoop rest t_total_fitness t_num_individuals

/-- `Species::CalculateAverageFitness`. -/
def CalculateAverageFitness (s : Species G) : Species G :=
  let r := CalculateAverageFitnessLoop s.m_Individuals 0 0
  if r.2 > 0 then { s with m_AverageFitness := r.1 / (r.2 : ℚ) }
  else { s with m_AverageFitness := 0 }

/-! ## `Species::ReproduceOne` -/

/-- The loop `while ((same parent) && (t_tries--)) t_dad = GetIndividual();` of the
intraspecies branch of `ReproduceOne`. -/
def intraspeciesDadLoopOne (E : Env G W) (P : Parameters) (s : Species G) (t_mom : Genome G) :
    Nat → Genome G → W → Option (Genome G × W)
  | t_tries, t_dad, w =>
    if t_mom.GetID = t_dad.GetID ∨ E.CompatibilityDistance t_mom t_dad = 0 then
      match t_tries with
      | 0 => some (t_dad, w)
      | n + 1 =>
        match GetIndividual E P s w with
        | none => none
        | some (d, w1) => intraspeciesDadLoopOne E P s t_mom n d w1
    else some (t_dad, w)

/-- The loop `do { t_diffspec = RandInt(0, size-1); } while ((m_Species[t_diffspec]
.m_AverageFitness == 0) && (t_giveup--));` of `ReproduceOne`, from the current value of
`t_giveup`; returns the last `t_diffspec`. `none` when the index is outside the list. -/
def foreignSpeciesLoop (E : Env G W) (a_Pop : Population G) : Nat → W → Option (Int × W)
  | t_giveup, w =>
    let k := E.RandInt 0 ((a_Pop.m_Species.length : Int) - 1) w
    match vectorAt a_Pop.m_Species k.1 with
    | none => none
    | some sp =>
      if sp.m_AverageFitness = 0 then
        match t_giveup with
        | 0 => some k
        | n + 1 => foreignSpeciesLoop E a_Pop n k.2
      else some k

/-- The father selection of `ReproduceOne`: returns `(t_dad, t_interspecies)`. -/
def ReproduceOneDad (E : Env G W) (P : Parameters) (s : Species G) (a_Pop : Population G)
    (t_mom : Genome G) (w : W) : Option ((Genome G × Bool) × W) :=
  let r := E.RandFloat w
  if r.1 < P.InterspeciesCrossoverRate ∧ a_Pop.m_Species.length > 1 then
    match foreignSpeciesLoop E a_Pop 64 r.2 with
    | none => none
    | some (t_diffspec, w1) =>
      match vectorAt a_Pop.m_Species t_diffspec with
      | none => none
      | some sp =>
        if sp.m_AverageFitness = 0 then
          match GetIndividual E P s w1 with
          | none => none
          | some (t_dad, w2) => some ((t_dad, true), w2)
        else
          match GetIndividual E P sp w1 with
          | none => none
          | some (t_dad, w2) => some ((t_dad, true), w2)
  else
    match GetIndividual E P s r.2 with
    | none => none
    | some (d, w1) =>
      match intraspeciesDadLoopOne E P s t_mom 16 d w1 with
      | none => none
      | some (t_dad, w2) => some ((t_dad, false), w2)

/-- The first half of `ReproduceOne`: the candidate before mutation, with the flag
`t_mated`. -/
def ReproduceOneMateOrCopy (E : Env G W) (P : Parameters) (s : Species G) (a_Pop : Population G)
    (w : W) : Option ((Genome G × Bool) × W) :=
  if s.NumMembers = 0 then none
  else if s.NumMembers = 1 then
    match GetIndividual E P s w with
    | none => none
    | some (t_baby, w1) => some ((t_baby, false), w1)
  else
    match GetIndividual E P s w with
    | none => none
    | some (t_mom, w1) =>
      let r := E.RandFloat w1
      if r.1 < P.CrossoverRate ∧ a_Pop.GetSearchMode ≠ SearchMode.SIMPLIFYING then
        match ReproduceOneDad E P s a_Pop t_mom r.2 with
        | none => none
        | some ((t_dad, t_interspecies), w2) =>
          let c := E.RandFloat w2
          if c.1 < P.MultipointCrossoverRate then
            let b := E.Mate t_mom t_dad false t_interspecies c.2
            some ((b.1, true), b.2)
          else
            let b := E.Mate t_mom t_dad true t_interspecies c.2
            some ((b.1, true), b.2)
      else some ((t_mom, false), r.2)

/-- The mutation step of `ReproduceOne`, with `t_baby_is_clone = false`: an unmated
candidate is mutated without a draw; for a mated one a float is drawn and compared with
`OverallMutationRate`. -/
def ReproduceOneCandidate (E : Env G W) (P : Parameters) (s : Species G) (a_Pop : Population G)
    (w : W) : Option (Genome G × W) :=
  match ReproduceOneMateOrCopy E P s a_Pop w with
  | none => none
  | some ((t_baby, t_mated), w1) =>
    if t_mated = false then MutateGenome E P false a_Pop t_baby w1
    else
      let r := E.RandFloat w1
      if r.1 < P.OverallMutationRate then MutateGenome E P false a_Pop t_baby r.2
      else some (t_baby, r.2)

/-- `Species::ReproduceOne`: the finalised baby, the population context with the
genome-ID counter advanced, and the new shared state. -/
def ReproduceOne (E : Env G W) (P : Parameters) (s : Species G) (a_Pop : Population G) (w : W) :
    Option ((Genome G × Population G) × W) :=
  match ReproduceOneCandidate E P s a_Pop w with
  | none => none
  | some (t_baby, w1) => some ((finalizeBaby E a_Pop t_baby, a_Pop.IncrementNextGenomeID), w1)

/-! ## `Species::operator=` -/

/-- `Species::operator=`: the value of `*this` after `*this = a_S`, with `a_This` the
value of `*this` before. The body assigns the twelve fields from `m_ID` to `m_B` and the
member list; it has no assignment to `m_AverageFitness`, which keeps the value it has in
`a_This`. The guard `this != &a_S` skips the copy of an object onto itself; in that case
both values are the same and the copy would change nothing. -/
def Species.operator_assign (a_This a_S : NEAT.Species G) : NEAT.Species G :=
  { a_This with
      m_ID := a_S.m_ID
      m_Representative := a_S.m_Representative
      m_BestGenome := a_S.m_BestGenome
      m_BestSpecies := a_S.m_BestSpecies
      m_WorstSpecies := a_S.m_WorstSpecies
      m_BestFitness := a_S.m_BestFitness
      m_GensNoImprovement := a_S.m_GensNoImprovement
      m_Age := a_S.m_Age
      m_OffspringRqd := a_S.m_OffspringRqd
      m_R := a_S.m_R
      m_G := a_S.m_G
      m_B := a_S.m_B
      m_Individuals := a_S.m_Individuals }

/-! ## Specification-side definitions -/

/-- The record `(m_BestFitness, m_GensNoImprovement)` once the members `inds` have been
processed by `AdjustFitness`, starting from `rec`. -/
def recordAfter (inds : List (Genome G)) (rec : ℚ × Nat) : ℚ × Nat :=
  inds.foldl (fun r g => updateRecord (clampFitness g.GetFitness) r) rec

/-- The value of `m_BestFitness` held when member `i` is reached: the record after the
members before `i`. -/
def bestWhenProcessed (s : Species G) (i : Nat) : ℚ :=
  (recordAfter (s.m_Individuals.take i) (s.m_BestFitness, s.m_GensNoImprovement)).1

/-- The value of `m_GensNoImprovement` as it stands when member `i` is processed: the
record after the members up to and including `i`. -/
def gensWhenProcessed (s : Species G) (i : Nat) : Nat :=
  (recordAfter (s.m_Individuals.take (i + 1)) (s.m_BestFitness, s.m_GensNoImprovement)).2

/-- The adjusted fitness the specification gives to member `i` with raw fitness `f`:
`t / N` with `t` the raw fitness (0.0001 when it is `<= 0`), times the young-age boost,
then the old-age penalty, then the stagnation factor unless the species is the best. -/
def sharedFitness (P : Parameters) (s : Species G) (i : Nat) (f : ℚ) : ℚ :=
  let t0 : ℚ := if f ≤ 0 then 1 / 10000 else f
  let t1 := if s.m_Age < P.YoungAgeTreshold then t0 * P.YoungAgeFitnessBoost else t0
  let t2 := if s.m_Age > P.OldAgeTreshold then t1 * P.OldAgePenalty else t1
  let t3 :=
    if gensWhenProcessed s i > P.SpeciesDropoffAge ∧ s.m_BestSpecies = false then
      t2 * (1 / 10000000)
    else t2
  t3 / (s.m_Individuals.length : ℚ)

/-- The outcome of at most `n` speculative remove-link attempts on `t_baby` from the
shared state `w`: each attempt applies `Mutate_RemoveLink` to a fresh copy of `t_baby`;
the first attempt with at least one link and no dead ends is the result; when all `n`
attempts fail the result is the unmutated `t_baby`. -/
def firstGoodAttempt (E : Env G W) (t_baby : Genome G) : Nat → W → Genome G × W
  | 0, w => (t_baby, w)
  | n + 1, w =>
    let r := E.Mutate_RemoveLink t_baby w
    if E.NumLinks r.1 ≠ 0 ∧ E.HasDeadEnds r.1 = false then r
    else firstGoodAttempt E t_baby n r.2

/-- The shared state after `j` consecutive draws `RandInt(0, hi)` made from `w`. -/
def stateAfterDraws (E : Env G W) (hi : Int) : Nat → W → W
  | 0, w => w
  | j + 1, w => stateAfterDraws E hi j (E.RandInt 0 hi w).2

/-- The draw number `j` (counted from 0) of a run of draws `RandInt(0, hi)` made from
`w`: its value and the shared state it leaves. -/
def drawNumber (E : Env G W) (hi : Int) (j : Nat) (w : W) : Int × W :=
  E.RandInt 0 hi (stateAfterDraws E hi j w)

/-- The binary64 sum of the numbers `l` added one by one to `acc`, in list order, every
addition rounded; `none` when an addition overflows. -/
def doubleSumFrom : ℚ → List ℚ → Option ℚ
  | acc, [] => some acc
  | acc, a :: rest =>
    match toDouble (acc + a) with
    | none => none
    | some acc1 => doubleSumFrom acc1 rest

/-- The binary64 sum of a list of numbers, accumulated from 0 in list order. -/
def doubleSum (l : List ℚ) : Option ℚ := doubleSumFrom 0 l

/-! ## Concrete inputs -/

/-- A genome with the given ID, raw fitness and offspring amount, evaluated, Baby. -/
def sampleGenome (id : Int) (fitness amount : ℚ) : Genome Nat :=
  { m_ID := id, m_Fitness := fitness, m_AdjustedFitness := 0, m_OffspringAmount := amount,
    m_Evaluated := true, m_Adult := false, m_Genes := id.toNat }

/-- A species of the given members with best fitness `best`, stagnation counter `gens`
and age `age`; it is not the best species. -/
def sampleSpecies (inds : List (Genome Nat)) (best : ℚ) (gens age : Nat) : Species Nat :=
  { m_ID := 1, m_Representative := sampleGenome 0 0 0, m_BestGenome := sampleGenome 0 0 0,
    m_BestSpecies := false, m_WorstSpecies := false, m_BestFitness := best,
    m_GensNoImprovement := gens, m_Age := age, m_OffspringRqd := 0, m_R := 0, m_G := 0, m_B := 0,
    m_Individuals := inds, m_AverageFitness := 0 }

/-- A parameter table: young below 5 generations (boost 1.1), old above 30 (penalty 0.5),
drop-off after 50 stagnant generations, survival rate 0.5. -/
def sampleParameters : Parameters :=
  { YoungAgeTreshold := 5, YoungAgeFitnessBoost := 11 / 10, OldAgeTreshold := 30,
    OldAgePenalty := 1 / 2, SpeciesDropoffAge := 50, SurvivalRate := 1 / 2,
    RouletteWheelSelection := false, CrossoverRate := 7 / 10,
    InterspeciesCrossoverRate := 1 / 100, MultipointCrossoverRate := 3 / 4,
    OverallMutationRate := 1 / 4, MutateAddNeuronProb := 1 / 100, MutateAddLinkProb := 3 / 100,
    MutateRemSimpleNeuronProb := 0, MutateRemLinkProb := 0,
    MutateNeuronActivationTypeProb := 0, MutateWeightsProb := 9 / 10,
    MutateActivationAProb := 0, MutateActivationBProb := 0,
    MutateNeuronTimeConstantsProb := 0, MutateNeuronBiasesProb := 0 }

/-- A young, stagnating species whose first member sets a new record: fitnesses 3 and 0,
best fitness 1, 60 generations without improvement, age 2. -/
def youngSpecies : Species Nat :=
  sampleSpecies [sampleGenome 1 3 0, sampleGenome 2 0 0] 1 60 2

/-- A young species whose only member has raw fitness 0; best fitness 0, 5 generations
without improvement, age 0 (the state of a species created for a newborn). -/
def zeroFitnessSpecies : Species Nat :=
  sampleSpecies [sampleGenome 1 0 0] 0 5 0

/-- A parameter table whose old-age threshold lies below its young-age threshold. -/
def overlappingAgeParameters : Parameters :=
  { sampleParameters with YoungAgeTreshold := 5, OldAgeTreshold := 2 }

/-- A species of age 3 with one member of raw fitness 4, best fitness 4. -/
def ageThreeSpecies : Species Nat :=
  sampleSpecies [sampleGenome 1 4 0] 4 0 3

/-- Four members with raw fitness 10, 7, 3 and 1, in this order. -/
def fourSpecies : Species Nat :=
  sampleSpecies
    [sampleGenome 1 10 0, sampleGenome 2 7 0, sampleGenome 3 3 0, sampleGenome 4 1 0]
    10 0 1

/-- The same four fitnesses stored in the order 3, 10, 1, 7, the last member flagged
Adult. -/
def shuffledSpecies : Species Nat :=
  sampleSpecies
    [sampleGenome 3 3 0, sampleGenome 1 10 0, sampleGenome 4 1 0, (sampleGenome 2 7 0).Adult]
    10 0 1

/-- The parameter table with the survival rate set to 1. -/
def fullSurvivalParameters : Parameters :=
  { sampleParameters with SurvivalRate := 1 }

/-- A concrete environment over gene content `Nat` and shared state `Nat` (a counter
that every draw and every operator advances). The sorts are insertion sorts; the
distance of two genomes is the difference of their gene numbers; compatible means at
distance below 3; mating and the mutation operators change the gene number by an
amount that depends on the shared state. -/
def sampleEnv : Env Nat Nat :=
  { RandFloat := fun w => (((w % 10 : Nat) : ℚ) / 10, w + 1)
    RandInt := fun lo hi w => (lo + ((w : Int) % (hi - lo + 1)), w + 1)
    sortGenomes := fun l => l.insertionSort (fun a b => a.GetFitness ≥ b.GetFitness)
    sortMutations := fun l => l.insertionSort (fun a b => a.Probability ≥ b.Probability)
    Mate := fun mom dad _ _ w => ({ mom with m_Genes := mom.m_Genes + dad.m_Genes + w }, w + 1)
    CompatibilityDistance := fun a b =>
      (((a.m_Genes - b.m_Genes) + (b.m_Genes - a.m_Genes) : Nat) : ℚ)
    IsCompatibleWith := fun a b =>
      decide ((a.m_Genes - b.m_Genes) + (b.m_Genes - a.m_Genes) < 3)
    HasDeadEnds := fun _ => false
    NumLinks := fun g => g.m_Genes
    SortGenes := fun x => x
    Mutate_AddNeuron := fun g w => ({ g with m_Genes := g.m_Genes + w + 10 }, w + 1)
    Mutate_AddLink := fun g w => ({ g with m_Genes := g.m_Genes + w + 5 }, w + 1)
    Mutate_RemoveSimpleNeuron := fun g w => ({ g with m_Genes := g.m_Genes - 10 }, w + 1)
    Mutate_RemoveLink := fun g w => ({ g with m_Genes := g.m_Genes - 5 }, w + 1)
    Mutate_NeuronActivation_Type := fun g w => ({ g with m_Genes := g.m_Genes + w + 1 }, w + 1)
    Mutate_LinkWeights := fun g w => ({ g with m_Genes := g.m_Genes + w + 1 }, w + 1)
    Mutate_NeuronActivations_A := fun g w => ({ g with m_Genes := g.m_Genes + w + 1 }, w + 1)
    Mutate_NeuronActivations_B := fun g w => ({ g with m_Genes := g.m_Genes + w + 1 }, w + 1)
    Mutate_NeuronTimeConstants := fun g w => ({ g with m_Genes := g.m_Genes + w + 1 }, w + 1)
    Mutate_NeuronBiases := fun g w => ({ g with m_Genes := g.m_Genes + w + 1 }, w + 1)
    uninitWorstSpecies := false
    uninitAverageFitness := 0 }

/-- Five members after reproduction: adults at indices 0, 1 and 3, babies at 2 and 4. -/
def mixedSpecies : Species Nat :=
  sampleSpecies
    [(sampleGenome 1 10 0).Adult, (sampleGenome 2 7 0).Adult, sampleGenome 3 0 0,
      (sampleGenome 4 3 0).Adult, sampleGenome 5 0 0]
    10 0 1

/-- A species ready to reproduce: one adult member of fitness 10, offspring demand 2.5. -/
def parentSpecies : Species Nat :=
  { sampleSpecies [(sampleGenome 1 10 (5 / 2)).Adult] 10 0 1 with m_OffspringRqd := 5 / 2 }

/-- A population context in the Complexifying phase holding `parentSpecies`, an empty
next-generation list, genome-ID counter 100 and species-ID counter 7. -/
def parentPopulation : Population Nat :=
  { m_Species := [parentSpecies], m_TempSpecies := [], m_NextGenomeID := 100,
    m_NextSpeciesID := 7, m_SearchMode := SearchMode.COMPLEXIFYING }

/-- Three evaluated members of raw fitness 10, 7 and 3, in this order. -/
def evaluatedThree : Species Nat :=
  sampleSpecies [sampleGenome 1 10 0, sampleGenome 2 7 0, sampleGenome 3 3 0] 10 0 1

/-- The parameter table with truncation selection and the survival rate set to 0.7. -/
def truncationParameters : Parameters :=
  { sampleParameters with SurvivalRate := 7 / 10, RouletteWheelSelection := false }

/-- Four members of raw fitness 3, 10, 10 and 7: the maximum 10 is reached at the
indices 1 and 2. -/
def tiedSpecies : Species Nat :=
  sampleSpecies
    [sampleGenome 1 3 0, sampleGenome 2 10 0, sampleGenome 3 10 0, sampleGenome 4 7 0] 10 0 1

/-- A species whose only member has raw fitness -100000000. -/
def sunkSpecies : Species Nat :=
  sampleSpecies [sampleGenome 1 (-100000000) 0] 0 0 1

/-- Four members of raw fitness 10, 7, 3 and 1 of which the second is not evaluated. -/
def partlyEvaluatedSpecies : Species Nat :=
  sampleSpecies
    [sampleGenome 1 10 0, (sampleGenome 2 7 0).ResetEvaluated, sampleGenome 3 3 0,
      sampleGenome 4 1 0] 10 0 1

/-- The parameter table in which add-node is the only operator with a positive
probability. -/
def onlyAddNodeParameters : Parameters :=
  { sampleParameters with
      MutateAddNeuronProb := 1, MutateAddLinkProb := 0, MutateWeightsProb := 0 }

/-- The parameter table in which remove-link is the only operator with a positive
probability. -/
def onlyRemoveLinkParameters : Parameters :=
  { sampleParameters with
      MutateAddNeuronProb := 0, MutateAddLinkProb := 0, MutateWeightsProb := 0,
      MutateRemLinkProb := 1 }

/-- The sample population context in the Simplifying phase. -/
def simplifyingPopulation : Population Nat :=
  { parentPopulation with m_SearchMode := SearchMode.SIMPLIFYING }

/-- The sample environment with a `Mate` that records its arguments in the gene number of
the baby: 4 times the ID of the father, plus 2 when the second argument is `true`, plus 1
when the third argument is `true`. -/
def recordingEnv : Env Nat Nat :=
  { sampleEnv with
      Mate := fun mom dad a b w =>
        ({ mom with
            m_Genes := 4 * dad.m_ID.toNat + (if a = true then 2 else 0)
              + (if b = true then 1 else 0) }, w + 1) }

/-- Two evaluated members of raw fitness 10 and 7; species ID 1, average fitness 0. -/
def pairSpecies : Species Nat :=
  sampleSpecies [sampleGenome 1 10 0, sampleGenome 2 7 0] 10 0 1

/-- A second species: ID 2, two evaluated members of raw fitness 4 and 2 with the IDs 11
and 12, average fitness 3. -/
def foreignSpecies : Species Nat :=
  { sampleSpecies [sampleGenome 11 4 0, sampleGenome 12 2 0] 4 0 1 with
      m_ID := 2, m_AverageFitness := 3 }

/-- The parameter table with the crossover rate set to 1. -/
def fullCrossoverParameters : Parameters :=
  { sampleParameters with CrossoverRate := 1 }

/-- The parameter table with the crossover rate and the interspecies crossover rate
set to 1. -/
def interspeciesParameters : Parameters :=
  { sampleParameters with CrossoverRate := 1, InterspeciesCrossoverRate := 1 }

/-- A population context in the Complexifying phase whose only species is
`pairSpecies`. -/
def singlePopulation : Population Nat :=
  { parentPopulation with m_Species := [pairSpecies] }

/-- The same context in the Simplifying phase. -/
def singleSimplifyingPopulation : Population Nat :=
  { singlePopulation with m_SearchMode := SearchMode.SIMPLIFYING }

/-- A population context in the Complexifying phase holding `pairSpecies` at index 0 and
`foreignSpecies` at index 1. -/
def twoSpeciesPopulation : Population Nat :=
  { parentPopulation with m_Species := [pairSpecies, foreignSpecies] }

/-- The same context with the average fitness of the second species set to 0: no species
has a nonzero average fitness. -/
def zeroAveragePopulation : Population Nat :=
  { parentPopulation with
      m_Species := [pairSpecies, { foreignSpecies with m_AverageFitness := 0 }] }

/-- The species `pairSpecies` with average fitness 5. -/
def assignedSpecies : Species Nat :=
  { pairSpecies with m_AverageFitness := 5 }

/-- A population context in the Complexifying phase holding `assignedSpecies` (average
fitness 5) at index 0 and a second species of average fitness 0 at index 1. -/
def ownAveragePopulation : Population Nat :=
  { parentPopulation with
      m_Species := [assignedSpecies, { foreignSpecies with m_AverageFitness := 0 }] }

/-- The binary64 number nearest to 0.3. -/
def pointThree : ℚ := 5404319552844595 / 18014398509481984

/-- The binary64 number nearest to 0.4. -/
def pointFour : ℚ := 3602879701896397 / 9007199254740992

/-- The binary64 number nearest to 0.7. -/
def pointSeven : ℚ := 3152519739159347 / 4503599627370496

/-- The binary64 number nearest to 0.9. -/
def pointNine : ℚ := 8106479329266893 / 9007199254740992

/-- The binary64 number nearest to 1.2. -/
def onePointTwo : ℚ := 5404319552844595 / 4503599627370496

/-- The binary64 number nearest to 0.9999999999999999, the largest one below 1:
`1 - 2 ^ (-53)`. -/
def almostOne : ℚ := 9007199254740991 / 9007199254740992

/-- Three members with the offspring amounts 1.2, 0.9 and 0.4 as binary64 numbers. -/
def demandSpecies : Species Nat :=
  sampleSpecies
    [sampleGenome 1 0 onePointTwo, sampleGenome 2 0 pointNine, sampleGenome 3 0 pointFour] 0 0 0

/-- Two members with the offspring amounts 0.3 and 1.2 as binary64 numbers. -/
def roundedDemandSpecies : Species Nat :=
  sampleSpecies [sampleGenome 1 0 pointThree, sampleGenome 2 0 onePointTwo] 0 0 0

/-- The parameter table with the survival rate 0.9999999999999999. -/
def almostFullSurvivalParameters : Parameters :=
  { sampleParameters with SurvivalRate := almostOne }

/-- The parameter table with the survival rate 0.7 as a binary64 number. -/
def pointSevenParameters : Parameters :=
  { sampleParameters with SurvivalRate := pointSeven }

/-! ## Theorems -/

/-! ### `AdjustFitness` -/

theorem recordAfter_cons (g : Genome G) (l : List (Genome G)) (rec : ℚ × Nat) :
    recordAfter (g :: l) rec = recordAfter l (updateRecord (clampFitness g.GetFitness) rec) := by
  simp [recordAfter]

/-- The loop of `AdjustFitness` succeeds on non-negative fitnesses, ends in the record
`recordAfter`, and writes to member `i` the modified, shared fitness computed from the
record as it stands after member `i`. -/
theorem AdjustFitnessLoop_spec (P : Parameters) (age : Nat) (best : Bool) (size : Nat)
    (l : List (Genome G)) (rec : ℚ × Nat) (hpos : ∀ g ∈ l, 0 ≤ g.GetFitness) :
    ∃ done, AdjustFitnessLoop P age best size l rec = some (done, recordAfter l rec)
      ∧ done.length = l.length
      ∧ ∀ (i : Nat) (g : Genome G), l[i]? = some g →
          done[i]? = some (g.SetAdjFitness
            (applyModifiers P age best (recordAfter (l.take (i + 1)) rec).2
              (clampFitness g.GetFitness) / (size : ℚ))) := by
  induction l generalizing rec with
  | nil => exact ⟨[], by simp [AdjustFitnessLoop, recordAfter]⟩
  | cons g rest ih =>
    have hg : ¬ g.GetFitness < 0 := not_lt.mpr (hpos g (List.mem_cons_self _ _))
    obtain ⟨done, hd, hlen, hidx⟩ :=
      ih (updateRecord (clampFitness g.GetFitness) rec)
        (fun x hx => hpos x (List.mem_cons_of_mem _ hx))
    refine ⟨g.SetAdjFitness
        (applyModifiers P age best (updateRecord (clampFitness g.GetFitness) rec).2
          (clampFitness g.GetFitness) / (size : ℚ)) :: done, ?_, ?_, ?_⟩
    · simp only [AdjustFitnessLoop, hg, if_false, hd, recordAfter_cons]
    · simp [hlen]
    · intro i x hx
      cases i with
      | zero =>
        simp only [List.getElem?_cons_zero, Option.some.injEq] at hx
        subst hx
        simp [recordAfter]
      | succ j =>
        simp only [List.getElem?_cons_succ] at hx
        simpa [recordAfter_cons] using hidx j x hx

theorem applyModifiers_eq_sharedFitness (P : Parameters) (s : Species G) (i : Nat) (f : ℚ) :
    applyModifiers P s.m_Age s.m_BestSpecies (gensWhenProcessed s i) (clampFitness f)
        / (s.m_Individuals.length : ℚ)
      = sharedFitness P s i f := by
  unfold applyModifiers sharedFitness clampFitness
  cases hb : s.m_BestSpecies <;> simp

/-- `AdjustFitness` on a non-empty species of non-negative fitnesses, in terms of
`recordAfter`. -/
theorem AdjustFitness_spec (P : Parameters) (s : Species G) (hne : s.m_Individuals ≠ [])
    (hpos : ∀ g ∈ s.m_Individuals, 0 ≤ g.GetFitness) :
    ∃ inds, AdjustFitness P s
        = some { s with
            m_Individuals := inds
            m_BestFitness :=
              (recordAfter s.m_Individuals (s.m_BestFitness, s.m_GensNoImprovement)).1
            m_GensNoImprovement :=
              (recordAfter s.m_Individuals (s.m_BestFitness, s.m_GensNoImprovement)).2 }
      ∧ inds.length = s.m_Individuals.length
      ∧ ∀ (i : Nat) (g : Genome G), s.m_Individuals[i]? = some g →
          inds[i]? = some (g.SetAdjFitness (sharedFitness P s i g.GetFitness)) := by
  obtain ⟨done, hd, hlen, hidx⟩ :=
    AdjustFitnessLoop_spec P s.m_Age s.m_BestSpecies s.m_Individuals.length s.m_Individuals
      (s.m_BestFitness, s.m_GensNoImprovement) hpos
  refine ⟨done, ?_, hlen, ?_⟩
  · have hlen0 : ¬ s.m_Individuals.length = 0 := by
      simpa [List.length_eq_zero] using hne
    simp only [AdjustFitness, hlen0, if_false, hd]
  · intro i g hg
    rw [hidx i g hg, ← applyModifiers_eq_sharedFitness]
    rfl

theorem recordAfter_append (l : List (Genome G)) (g : Genome G) (rec : ℚ × Nat) :
    recordAfter (l ++ [g]) rec = updateRecord (clampFitness g.GetFitness) (recordAfter l rec) := by
  simp [recordAfter]

theorem updateRecord_fst_ge (t : ℚ) (rec : ℚ × Nat) : rec.1 ≤ (updateRecord t rec).1 := by
  unfold updateRecord
  split
  · exact le_of_lt (by assumption)
  · exact le_refl _

theorem updateRecord_fst_ub (t : ℚ) (rec : ℚ × Nat) : t ≤ (updateRecord t rec).1 := by
  unfold updateRecord
  split
  · exact le_refl _
  · exact not_lt.mp (by assumption)

theorem updateRecord_snd_le (t : ℚ) (rec : ℚ × Nat) : (updateRecord t rec).2 ≤ rec.2 := by
  unfold updateRecord
  split <;> simp

theorem recordAfter_fst_ge (l : List (Genome G)) (rec : ℚ × Nat) :
    rec.1 ≤ (recordAfter l rec).1 := by
  induction l generalizing rec with
  | nil => simp [recordAfter]
  | cons g rest ih =>
    rw [recordAfter_cons]
    exact le_trans (updateRecord_fst_ge _ _) (ih _)

theorem recordAfter_fst_ub (l : List (Genome G)) (rec : ℚ × Nat) (g : Genome G) (hg : g ∈ l) :
    clampFitness g.GetFitness ≤ (recordAfter l rec).1 := by
  induction l generalizing rec with
  | nil => simp at hg
  | cons x rest ih =>
    rw [recordAfter_cons]
    rcases List.mem_cons.mp hg with h | h
    · subst h
      exact le_trans (updateRecord_fst_ub _ _) (recordAfter_fst_ge _ _)
    · exact ih _ h

theorem recordAfter_fst_attained (l : List (Genome G)) (rec : ℚ × Nat) :
    (recordAfter l rec).1 = rec.1
      ∨ ∃ g ∈ l, (recordAfter l rec).1 = clampFitness g.GetFitness := by
  induction l generalizing rec with
  | nil => simp [recordAfter]
  | cons x rest ih =>
    rw [recordAfter_cons]
    rcases ih (updateRecord (clampFitness x.GetFitness) rec) with h | ⟨g, hg, h⟩
    · by_cases hx : clampFitness x.GetFitness > rec.1
      · right
        exact ⟨x, List.mem_cons_self _ _, by rw [h]; simp [updateRecord, hx]⟩
      · left
        rw [h]; simp [updateRecord, hx]
    · right
      exact ⟨g, List.mem_cons_of_mem _ hg, h⟩

theorem recordAfter_snd_le (l : List (Genome G)) (rec : ℚ × Nat) :
    (recordAfter l rec).2 ≤ rec.2 := by
  induction l generalizing rec with
  | nil => simp [recordAfter]
  | cons g rest ih =>
    rw [recordAfter_cons]
    exact le_trans (ih _) (updateRecord_snd_le _ _)

theorem updateRecord_fst_eq_max (t : ℚ) (rec : ℚ × Nat) :
    (updateRecord t rec).1 = max rec.1 t := by
  unfold updateRecord
  split
  · rename_i h
    exact (max_eq_right (le_of_lt h)).symm
  · rename_i h
    exact (max_eq_left (not_lt.mp h)).symm

theorem recordAfter_fst_eq_foldl (l : List (Genome G)) (rec : ℚ × Nat) :
    (recordAfter l rec).1
      = List.foldl max rec.1 (l.map (fun g => clampFitness g.GetFitness)) := by
  induction l generalizing rec with
  | nil => simp [recordAfter]
  | cons g rest ih =>
    rw [recordAfter_cons, ih, updateRecord_fst_eq_max]
    simp

/-- The stagnation counter after the members `l`: 0 when some member beat the record held
when it was reached, unchanged otherwise. -/
theorem recordAfter_snd (l : List (Genome G)) (rec : ℚ × Nat) :
    ((∃ (i : Nat) (g : Genome G), l[i]? = some g
        ∧ clampFitness g.GetFitness > (recordAfter (l.take i) rec).1)
      → (recordAfter l rec).2 = 0)
    ∧ ((¬ ∃ (i : Nat) (g : Genome G), l[i]? = some g
        ∧ clampFitness g.GetFitness > (recordAfter (l.take i) rec).1)
      → (recordAfter l rec).2 = rec.2) := by
  induction l using List.reverseRecOn with
  | nil => simp [recordAfter]
  | append_singleton l x ih =>
    obtain ⟨ih1, ih2⟩ := ih
    rw [recordAfter_append]
    by_cases hx : clampFitness x.GetFitness > (recordAfter l rec).1
    · constructor
      · intro _
        simp [updateRecord, hx]
      · intro hno
        exact absurd ⟨l.length, x, by simp, by simpa using hx⟩ hno
    · have hkeep : updateRecord (clampFitness x.GetFitness) (recordAfter l rec)
          = recordAfter l rec := by simp [updateRecord, hx]
      rw [hkeep]
      have hiff : (∃ (i : Nat) (g : Genome G), (l ++ [x])[i]? = some g
            ∧ clampFitness g.GetFitness > (recordAfter ((l ++ [x]).take i) rec).1)
          ↔ (∃ (i : Nat) (g : Genome G), l[i]? = some g
            ∧ clampFitness g.GetFitness > (recordAfter (l.take i) rec).1) := by
        constructor
        · rintro ⟨i, g, hig, hgt⟩
          rcases Nat.lt_trichotomy i l.length with hlt | heq | hgt2
          · refine ⟨i, g, ?_, ?_⟩
            · rwa [List.getElem?_append_left hlt] at hig
            · rwa [List.take_append_of_le_length (le_of_lt hlt)] at hgt
          · subst heq
            simp at hig
            subst hig
            simp at hgt
            exact absurd hgt hx
          · rw [List.getElem?_eq_none (by simp; omega)] at hig
            exact absurd hig (by simp)
        · rintro ⟨i, g, hig, hgt⟩
          have hlt : i < l.length := by
            by_contra hge
            rw [List.getElem?_eq_none (by omega)] at hig
            exact absurd hig (by simp)
          refine ⟨i, g, ?_, ?_⟩
          · rwa [List.getElem?_append_left hlt]
          · rwa [List.take_append_of_le_length (le_of_lt hlt)]
      rw [hiff]
      exact ⟨ih1, ih2⟩

/-- C1: on a non-empty species whose members all have raw fitness `>= 0`,
`AdjustFitness` returns, keeps the member count, and stores in each member `i` (all other
fields of the member untouched) the adjusted fitness `sharedFitness`: `t / N` with `t`
the raw fitness (0.0001 when `<= 0`), times `YoungAgeFitnessBoost` if
`age < YoungAgeTreshold`, then times `OldAgePenalty` if `age > OldAgeTreshold`, then
times 0.0000001 if `m_GensNoImprovement`, as it stands when member `i` is processed,
exceeds `SpeciesDropoffAge` and the species is not the best species. For a best species
no value of the counter brings in the stagnation factor. -/
theorem AdjustFitness_shares (P : Parameters) (s : Species G) (hne : s.m_Individuals ≠ [])
    (hpos : ∀ g ∈ s.m_Individuals, 0 ≤ g.GetFitness) :
    ∃ s1, AdjustFitness P s = some s1
      ∧ s1.m_Individuals.length = s.m_Individuals.length
      ∧ (∀ (i : Nat) (g : Genome G), s.m_Individuals[i]? = some g →
          s1.m_Individuals[i]? = some (g.SetAdjFitness (sharedFitness P s i g.GetFitness)))
      ∧ (s.m_BestSpecies = true → ∀ (i : Nat) (f : ℚ),
          sharedFitness P s i f
            = (if s.m_Age > P.OldAgeTreshold then
                (if s.m_Age < P.YoungAgeTreshold then
                  (if f ≤ 0 then 1 / 10000 else f) * P.YoungAgeFitnessBoost
                 else (if f ≤ 0 then 1 / 10000 else f)) * P.OldAgePenalty
               else
                (if s.m_Age < P.YoungAgeTreshold then
                  (if f ≤ 0 then 1 / 10000 else f) * P.YoungAgeFitnessBoost
                 else (if f ≤ 0 then 1 / 10000 else f)))
              / (s.m_Individuals.length : ℚ)) := by
  obtain ⟨inds, hres, hlen, hidx⟩ := AdjustFitness_spec P s hne hpos
  refine ⟨_, hres, hlen, hidx, ?_⟩
  intro hbest i f
  simp [sharedFitness, hbest]

/-- Witness for C1: the young species with fitnesses 3 and 0. -/
theorem AdjustFitness_shares_witness :
    ∃ s1, AdjustFitness sampleParameters youngSpecies = some s1
      ∧ s1.m_Individuals.length = youngSpecies.m_Individuals.length
      ∧ (∀ (i : Nat) (g : Genome Nat), youngSpecies.m_Individuals[i]? = some g →
          s1.m_Individuals[i]?
            = some (g.SetAdjFitness (sharedFitness sampleParameters youngSpecies i g.GetFitness)))
      ∧ (youngSpecies.m_BestSpecies = true → ∀ (i : Nat) (f : ℚ),
          sharedFitness sampleParameters youngSpecies i f
            = (if youngSpecies.m_Age > sampleParameters.OldAgeTreshold then
                (if youngSpecies.m_Age < sampleParameters.YoungAgeTreshold then
                  (if f ≤ 0 then 1 / 10000 else f) * sampleParameters.YoungAgeFitnessBoost
                 else (if f ≤ 0 then 1 / 10000 else f)) * sampleParameters.OldAgePenalty
               else
                (if youngSpecies.m_Age < sampleParameters.YoungAgeTreshold then
                  (if f ≤ 0 then 1 / 10000 else f) * sampleParameters.YoungAgeFitnessBoost
                 else (if f ≤ 0 then 1 / 10000 else f)))
              / (youngSpecies.m_Individuals.length : ℚ)) :=
  AdjustFitness_shares sampleParameters youngSpecies
    (by simp [youngSpecies, sampleSpecies])
    (by simp [youngSpecies, sampleSpecies, sampleGenome, Genome.GetFitness])

/-- C2 as stated fails on two inputs. A member of raw fitness 0 in a young, non-stagnant
species gets `(0.0001 * boost) / size = 0.000011`, not `(0 * boost) / size = 0`. And when
the old-age threshold lies below the young-age threshold, a species of age 3 is boosted
and penalised: raw fitness 4 gets `4 * 1.1 * 0.5 = 2.2`, not `4 * 1.1 = 4.4`. -/
theorem AdjustFitness_young_counterexample :
    (zeroFitnessSpecies.m_Age < sampleParameters.YoungAgeTreshold
      ∧ zeroFitnessSpecies.m_GensNoImprovement ≤ sampleParameters.SpeciesDropoffAge
      ∧ zeroFitnessSpecies.m_Individuals.map Genome.GetFitness = [0]
      ∧ (AdjustFitness sampleParameters zeroFitnessSpecies).map
          (fun s => s.m_Individuals.map Genome.GetAdjFitness) = some [11 / 100000]
      ∧ (0 * sampleParameters.YoungAgeFitnessBoost)
          / (zeroFitnessSpecies.m_Individuals.length : ℚ) = 0)
    ∧ (ageThreeSpecies.m_Age < overlappingAgeParameters.YoungAgeTreshold
      ∧ ageThreeSpecies.m_GensNoImprovement ≤ overlappingAgeParameters.SpeciesDropoffAge
      ∧ ageThreeSpecies.m_Individuals.map Genome.GetFitness = [4]
      ∧ (AdjustFitness overlappingAgeParameters ageThreeSpecies).map
          (fun s => s.m_Individuals.map Genome.GetAdjFitness) = some [11 / 5]
      ∧ (4 * overlappingAgeParameters.YoungAgeFitnessBoost)
          / (ageThreeSpecies.m_Individuals.length : ℚ) = 22 / 5) := by
  norm_num [AdjustFitness, AdjustFitnessLoop, zeroFitnessSpecies, ageThreeSpecies, sampleSpecies,
    sampleGenome, sampleParameters, overlappingAgeParameters, clampFitness, updateRecord,
    applyModifiers, Genome.GetFitness, Genome.SetAdjFitness, Genome.GetAdjFitness]

/-- C2, amended: on a non-empty species of non-negative raw fitnesses with
`age < YoungAgeTreshold`, `age <= OldAgeTreshold` and
`m_GensNoImprovement <= SpeciesDropoffAge`, `AdjustFitness` returns and stores in every
member of raw fitness `f > 0` the adjusted fitness `(f * boost) / size`, and in every
member of raw fitness 0 the adjusted fitness `(0.0001 * boost) / size`. -/
theorem AdjustFitness_young (P : Parameters) (s : Species G) (hne : s.m_Individuals ≠ [])
    (hpos : ∀ g ∈ s.m_Individuals, 0 ≤ g.GetFitness)
    (hyoung : s.m_Age < P.YoungAgeTreshold) (hold : s.m_Age ≤ P.OldAgeTreshold)
    (hstag : s.m_GensNoImprovement ≤ P.SpeciesDropoffAge) :
    ∃ s1, AdjustFitness P s = some s1
      ∧ s1.m_Individuals.length = s.m_Individuals.length
      ∧ ∀ (i : Nat) (g : Genome G), s.m_Individuals[i]? = some g →
          (0 < g.GetFitness → s1.m_Individuals[i]? = some (g.SetAdjFitness
            ((g.GetFitness * P.YoungAgeFitnessBoost) / (s.m_Individuals.length : ℚ))))
          ∧ (g.GetFitness = 0 → s1.m_Individuals[i]? = some (g.SetAdjFitness
            ((1 / 10000 * P.YoungAgeFitnessBoost) / (s.m_Individuals.length : ℚ)))) := by
  obtain ⟨inds, hres, hlen, hidx⟩ := AdjustFitness_spec P s hne hpos
  refine ⟨_, hres, hlen, ?_⟩
  intro i g hg
  have hgens : ¬ gensWhenProcessed s i > P.SpeciesDropoffAge :=
    not_lt.mpr (le_trans (recordAfter_snd_le _ _) hstag)
  have hnotold : ¬ s.m_Age > P.OldAgeTreshold := not_lt.mpr hold
  have key := hidx i g hg
  constructor
  · intro hf
    have hf2 : ¬ g.GetFitness ≤ 0 := not_le.mpr hf
    simpa [sharedFitness, hyoung, hnotold, hgens, hf2] using key
  · intro hf
    simpa [sharedFitness, hyoung, hnotold, hgens, hf] using key

/-- Witness for the amended C2: the young species with fitnesses 3 and 0, its stagnation
counter put at 10. -/
theorem AdjustFitness_young_witness :
    ∃ s1, AdjustFitness sampleParameters { youngSpecies with m_GensNoImprovement := 10 } = some s1
      ∧ s1.m_Individuals.length = youngSpecies.m_Individuals.length
      ∧ ∀ (i : Nat) (g : Genome Nat), youngSpecies.m_Individuals[i]? = some g →
          (0 < g.GetFitness → s1.m_Individuals[i]? = some (g.SetAdjFitness
            ((g.GetFitness * sampleParameters.YoungAgeFitnessBoost)
              / (youngSpecies.m_Individuals.length : ℚ))))
          ∧ (g.GetFitness = 0 → s1.m_Individuals[i]? = some (g.SetAdjFitness
            ((1 / 10000 * sampleParameters.YoungAgeFitnessBoost)
              / (youngSpecies.m_Individuals.length : ℚ)))) :=
  AdjustFitness_young sampleParameters { youngSpecies with m_GensNoImprovement := 10 }
    (by simp [youngSpecies, sampleSpecies])
    (by simp [youngSpecies, sampleSpecies, sampleGenome, Genome.GetFitness])
    (by decide) (by decide) (by decide)

/-- C3 as stated fails on the species whose only member has raw fitness 0 and whose best
fitness is 0: the maximum of the previous best and the raw fitnesses is 0 and no raw
fitness exceeds the best, yet `AdjustFitness` leaves `m_BestFitness = 0.0001` and resets
`m_GensNoImprovement` from 5 to 0. -/
theorem AdjustFitness_record_counterexample :
    zeroFitnessSpecies.m_Individuals.map Genome.GetFitness = [0]
      ∧ zeroFitnessSpecies.m_BestFitness = 0
      ∧ zeroFitnessSpecies.m_GensNoImprovement = 5
      ∧ List.foldl max zeroFitnessSpecies.m_BestFitness
          (zeroFitnessSpecies.m_Individuals.map Genome.GetFitness) = 0
      ∧ (AdjustFitness sampleParameters zeroFitnessSpecies).map
          (fun s => (s.m_BestFitness, s.m_GensNoImprovement)) = some (1 / 10000, 0) := by
  norm_num [AdjustFitness, AdjustFitnessLoop, zeroFitnessSpecies, sampleSpecies,
    sampleGenome, sampleParameters, clampFitness, updateRecord,
    applyModifiers, Genome.GetFitness, Genome.SetAdjFitness, Genome.GetAdjFitness]

/-- C3, amended: on a non-empty species of non-negative raw fitnesses `AdjustFitness`
returns; afterwards `m_BestFitness` is the maximum of its previous value and the members'
clamped fitnesses (the raw fitness, 0.0001 for a member of raw fitness 0), so it never
decreases; and `m_GensNoImprovement` is 0 if some member's clamped fitness exceeded the
`m_BestFitness` held when that member was processed, and is unchanged otherwise. A
positive raw fitness is its own clamped fitness. -/
theorem AdjustFitness_record (P : Parameters) (s : Species G) (hne : s.m_Individuals ≠ [])
    (hpos : ∀ g ∈ s.m_Individuals, 0 ≤ g.GetFitness) :
    ∃ s1, AdjustFitness P s = some s1
      ∧ s1.m_BestFitness = List.foldl max s.m_BestFitness
          (s.m_Individuals.map (fun g => clampFitness g.GetFitness))
      ∧ s.m_BestFitness ≤ s1.m_BestFitness
      ∧ (∀ g ∈ s.m_Individuals, clampFitness g.GetFitness ≤ s1.m_BestFitness)
      ∧ (s1.m_BestFitness = s.m_BestFitness
          ∨ ∃ g ∈ s.m_Individuals, s1.m_BestFitness = clampFitness g.GetFitness)
      ∧ ((∃ (i : Nat) (g : Genome G), s.m_Individuals[i]? = some g
            ∧ clampFitness g.GetFitness > bestWhenProcessed s i)
          → s1.m_GensNoImprovement = 0)
      ∧ ((¬ ∃ (i : Nat) (g : Genome G), s.m_Individuals[i]? = some g
            ∧ clampFitness g.GetFitness > bestWhenProcessed s i)
          → s1.m_GensNoImprovement = s.m_GensNoImprovement)
      ∧ (∀ f : ℚ, 0 < f → clampFitness f = f)
      ∧ clampFitness 0 = 1 / 10000 := by
  obtain ⟨inds, hres, -, -⟩ := AdjustFitness_spec P s hne hpos
  refine ⟨_, hres, ?_, ?_, ?_, ?_, ?_, ?_, ?_, ?_⟩
  · exact recordAfter_fst_eq_foldl s.m_Individuals (s.m_BestFitness, s.m_GensNoImprovement)
  · exact recordAfter_fst_ge s.m_Individuals (s.m_BestFitness, s.m_GensNoImprovement)
  · exact fun g hg => recordAfter_fst_ub s.m_Individuals _ g hg
  · exact recordAfter_fst_attained s.m_Individuals (s.m_BestFitness, s.m_GensNoImprovement)
  · exact (recordAfter_snd s.m_Individuals (s.m_BestFitness, s.m_GensNoImprovement)).1
  · exact (recordAfter_snd s.m_Individuals (s.m_BestFitness, s.m_GensNoImprovement)).2
  · intro f hf
    simp [clampFitness, not_le.mpr hf]
  · simp [clampFitness]

/-- Witness for the amended C3: the young species with fitnesses 3 and 0. -/
theorem AdjustFitness_record_witness :
    ∃ s1, AdjustFitness sampleParameters youngSpecies = some s1
      ∧ s1.m_BestFitness = List.foldl max youngSpecies.m_BestFitness
          (youngSpecies.m_Individuals.map (fun g => clampFitness g.GetFitness))
      ∧ youngSpecies.m_BestFitness ≤ s1.m_BestFitness
      ∧ (∀ g ∈ youngSpecies.m_Individuals, clampFitness g.GetFitness ≤ s1.m_BestFitness)
      ∧ (s1.m_BestFitness = youngSpecies.m_BestFitness
          ∨ ∃ g ∈ youngSpecies.m_Individuals, s1.m_BestFitness = clampFitness g.GetFitness)
      ∧ ((∃ (i : Nat) (g : Genome Nat), youngSpecies.m_Individuals[i]? = some g
            ∧ clampFitness g.GetFitness > bestWhenProcessed youngSpecies i)
          → s1.m_GensNoImprovement = 0)
      ∧ ((¬ ∃ (i : Nat) (g : Genome Nat), youngSpecies.m_Individuals[i]? = some g
            ∧ clampFitness g.GetFitness > bestWhenProcessed youngSpecies i)
          → s1.m_GensNoImprovement = youngSpecies.m_GensNoImprovement)
      ∧ (∀ f : ℚ, 0 < f → clampFitness f = f)
      ∧ clampFitness 0 = 1 / 10000 :=
  AdjustFitness_record sampleParameters youngSpecies
    (by simp [youngSpecies, sampleSpecies])
    (by simp [youngSpecies, sampleSpecies, sampleGenome, Genome.GetFitness])

/-! ### `KillWorst` -/

theorem castInt_intCast (z : Int) : castInt (z : ℚ) = z := by
  unfold castInt
  split <;> simp

theorem numParents_eq (P : Parameters) (size : Nat) :
    numParents P size = ⌊P.SurvivalRate * (size : ℚ)⌋ + 1 := by
  unfold numParents
  rw [castInt_intCast, Int.floor_add_one]

theorem numParents_pos (P : Parameters) (size : Nat) (h0 : 0 ≤ P.SurvivalRate) :
    1 ≤ numParents P size := by
  rw [numParents_eq]
  have : 0 ≤ ⌊P.SurvivalRate * (size : ℚ)⌋ :=
    Int.floor_nonneg.mpr (mul_nonneg h0 (Nat.cast_nonneg _))
  omega

theorem numParents_le (P : Parameters) (size : Nat) (hsize : 1 ≤ size)
    (h1 : P.SurvivalRate < 1) : numParents P size ≤ size := by
  rw [numParents_eq]
  have hpos : (0 : ℚ) < (size : ℚ) := by exact_mod_cast hsize
  have hlt : P.SurvivalRate * (size : ℚ) < ((size : Int) : ℚ) := by
    have := mul_lt_mul_of_pos_right h1 hpos
    simpa using this
  have := Int.floor_lt.mpr hlt
  omega

/-- C4: the truncation size is `floor(r * N) + 1` and is at least 1 for every `r >= 0`,
and at most `N` for every `r < 1` and `N >= 1`; but at `r = 1` it is `N + 1`, for example
5 for `N = 4`, and `KillWorst` then promotes `m_Individuals[4]` of a four-member vector:
the promotion loop runs past the end and the model returns `none`. -/
theorem numParents_bounds (P : Parameters) (N : Nat) :
    numParents P N = ⌊P.SurvivalRate * (N : ℚ)⌋ + 1
      ∧ (0 ≤ P.SurvivalRate → 1 ≤ numParents P N)
      ∧ (1 ≤ N → P.SurvivalRate < 1 → numParents P N ≤ N)
      ∧ (P.SurvivalRate = 1 → numParents P N = N + 1)
      ∧ numParents fullSurvivalParameters 4 = 5
      ∧ KillWorst sampleEnv fullSurvivalParameters fourSpecies = none := by
  refine ⟨numParents_eq P N, numParents_pos P N, numParents_le P N, ?_, ?_, ?_⟩
  · intro h
    rw [numParents_eq, h]
    simp
  · rw [numParents_eq]
    norm_num [fullSurvivalParameters]
  · have h5 : numParents fullSurvivalParameters 4 = 5 := by
      rw [numParents_eq]
      norm_num [fullSurvivalParameters]
    norm_num [KillWorst, SortIndividuals, fourSpecies, sampleSpecies, sampleEnv, sampleGenome,
      Genome.Birth, Genome.Adult, Genome.GetFitness, h5, KillWorstAdultLoop]

/-- The promotion loop of `KillWorst`, when it stays inside the vector, flags the next
`k` members as Adult and leaves the rest alone. -/
theorem KillWorstAdultLoop_append (k : Nat) (pre rest : List (Genome G)) (h : k ≤ rest.length) :
    KillWorstAdultLoop k pre.length (pre ++ rest)
      = some (pre ++ (rest.take k).map Genome.Adult ++ rest.drop k) := by
  induction k generalizing pre rest with
  | zero => simp [KillWorstAdultLoop]
  | succ k ih =>
    cases rest with
    | nil => simp at h
    | cons g rest1 =>
      have hk : k ≤ rest1.length := by simpa using h
      have hget : (pre ++ g :: rest1)[pre.length]? = some g := by
        rw [List.getElem?_append_right (le_refl _)]
        simp
      have hset : (pre ++ g :: rest1).set pre.length g.Adult = (pre ++ [g.Adult]) ++ rest1 := by
        simp
      rw [KillWorstAdultLoop, hget]
      simp only
      rw [hset]
      have := ih (pre ++ [g.Adult]) rest1 hk
      simp only [List.length_append, List.length_singleton] at this
      rw [this]
      simp

theorem Birth_Adult (g : Genome G) : g.Adult.Birth = g.Birth := rfl

theorem Birth_Birth (g : Genome G) : g.Birth.Birth = g.Birth := rfl

theorem Adult_GetFitness (g : Genome G) : g.Adult.GetFitness = g.GetFitness := rfl

theorem Birth_GetFitness (g : Genome G) : g.Birth.GetFitness = g.GetFitness := rfl

/-- `KillWorst` in closed form: the first `floor(r * N) + 1` members of the sorted,
all-Baby vector, flagged Adult. -/
theorem KillWorst_eq (E : Env G W) (hE : StdSortContract E) (P : Parameters) (s : Species G)
    (hne : s.m_Individuals ≠ []) (h0 : 0 ≤ P.SurvivalRate) (h1 : P.SurvivalRate < 1) :
    KillWorst E P s
        = some { s with m_Individuals :=
            ((E.sortGenomes (s.m_Individuals.map Genome.Birth)).take
              (numParents P s.m_Individuals.length).toNat).map Genome.Adult }
      ∧ 1 ≤ numParents P s.m_Individuals.length
      ∧ numParents P s.m_Individuals.length ≤ s.m_Individuals.length := by
  have hperm := hE.genomes_perm (s.m_Individuals.map Genome.Birth)
  have hlen : (E.sortGenomes (s.m_Individuals.map Genome.Birth)).length
      = s.m_Individuals.length := by
    rw [hperm.length_eq, List.length_map]
  have hN : 1 ≤ s.m_Individuals.length := by
    cases hs : s.m_Individuals with
    | nil => exact absurd hs hne
    | cons a l => simp
  have hnp1 := numParents_pos P s.m_Individuals.length h0
  have hnp2 := numParents_le P s.m_Individuals.length hN h1
  refine ⟨?_, hnp1, hnp2⟩
  have hk : (numParents P s.m_Individuals.length).toNat
      ≤ (E.sortGenomes (s.m_Individuals.map Genome.Birth)).length := by
    rw [hlen]; omega
  have hloop := KillWorstAdultLoop_append (numParents P s.m_Individuals.length).toNat []
    (E.sortGenomes (s.m_Individuals.map Genome.Birth)) hk
  simp only [List.length_nil, List.nil_append] at hloop
  have hlen0 : ¬ s.m_Individuals.length = 0 := by omega
  have hnot : ¬ numParents P s.m_Individuals.length ≤ 0 := by omega
  simp only [KillWorst, SortIndividuals, hlen0, if_false, hlen, hnot, hloop]
  congr 2
  rw [List.take_append_of_le_length (by simp [List.length_take, hk])]
  rw [List.take_of_length_le (by simp [List.length_take])]

/-- The fitnesses of a `genome_greater`-sorted permutation are the descending sort of
the original fitnesses. -/
theorem sorted_fitness_eq (l l1 : List (Genome G)) (hperm : l1.Perm l)
    (hsorted : l1.Pairwise (fun a b => genome_greater b a = false)) :
    l1.map Genome.GetFitness
      = (l.map Genome.GetFitness).insertionSort (fun a b => a ≥ b) := by
  have hs1 : (l1.map Genome.GetFitness).Sorted (fun a b : ℚ => a ≥ b) := by
    rw [List.Sorted, List.pairwise_map]
    refine hsorted.imp ?_
    intro a b hab
    simpa [genome_greater] using hab
  have hs2 := List.sorted_insertionSort (fun a b : ℚ => a ≥ b) (l.map Genome.GetFitness)
  have hp : (l1.map Genome.GetFitness).Perm
      ((l.map Genome.GetFitness).insertionSort (fun a b => a ≥ b)) :=
    (hperm.map _).trans (List.perm_insertionSort _ _).symm
  exact List.eq_of_perm_of_sorted hp hs1 hs2

/-- `KillWorst` with the exact truncation size: for a non-empty species of `N` members and
a survival rate `0 <= r < 1`, under the contract of `std::sort`, it returns and changes
only the member vector; the `kept` members number exactly `floor(r * N) + 1`, are in
descending fitness order and are all flagged Adult; together with the `discarded` ones
they are the original members (lifecycle flag apart); no discarded member is fitter than
a kept one; and the kept fitnesses are the first `floor(r * N) + 1` entries of the
descending sort of the original fitnesses. -/
theorem KillWorst_keeps_best (E : Env G W) (hE : StdSortContract E) (P : Parameters)
    (s : Species G) (hne : s.m_Individuals ≠ []) (h0 : 0 ≤ P.SurvivalRate)
    (h1 : P.SurvivalRate < 1) :
    ∃ kept discarded : List (Genome G),
      KillWorst E P s = some { s with m_Individuals := kept }
      ∧ (kept.length : Int) = ⌊P.SurvivalRate * (s.m_Individuals.length : ℚ)⌋ + 1
      ∧ kept.Pairwise (fun a b => a.GetFitness ≥ b.GetFitness)
      ∧ (∀ g ∈ kept, g.IsAdult = true)
      ∧ (kept.map Genome.Birth ++ discarded).Perm (s.m_Individuals.map Genome.Birth)
      ∧ (∀ g ∈ kept, ∀ d ∈ discarded, d.GetFitness ≤ g.GetFitness)
      ∧ kept.map Genome.GetFitness
          = ((s.m_Individuals.map Genome.GetFitness).insertionSort (fun a b => a ≥ b)).take
              kept.length := by
  obtain ⟨hkw, hnp1, hnp2⟩ := KillWorst_eq E hE P s hne h0 h1
  have hperm := hE.genomes_perm (s.m_Individuals.map Genome.Birth)
  have hsorted := hE.genomes_sorted (s.m_Individuals.map Genome.Birth)
  have hlen : (E.sortGenomes (s.m_Individuals.map Genome.Birth)).length
      = s.m_Individuals.length := by
    rw [hperm.length_eq, List.length_map]
  generalize hl1 : E.sortGenomes (s.m_Individuals.map Genome.Birth) = l1 at *
  generalize hk : (numParents P s.m_Individuals.length).toNat = k at *
  have hkle : k ≤ l1.length := by rw [hlen, ← hk]; omega
  have hklen : ((l1.take k).map Genome.Adult).length = k := by
    simp [List.length_take, hkle]
  have hge : l1.Pairwise (fun a b : Genome G => a.GetFitness ≥ b.GetFitness) := by
    refine hsorted.imp ?_
    intro a b hab
    simpa [genome_greater] using hab
  have hbirth : ∀ g ∈ l1, g.Birth = g := by
    intro g hg
    have hmem := hperm.subset hg
    obtain ⟨x, -, hx⟩ := List.mem_map.mp hmem
    rw [← hx]
    rfl
  refine ⟨(l1.take k).map Genome.Adult, l1.drop k, hkw, ?_, ?_, ?_, ?_, ?_, ?_⟩
  · rw [hklen, ← hk, ← numParents_eq]
    omega
  · rw [List.pairwise_map]
    exact (hge.sublist (List.take_sublist k l1)).imp (fun h => h)
  · intro g hg
    obtain ⟨x, -, hx⟩ := List.mem_map.mp hg
    rw [← hx]
    rfl
  · have hmap : ((l1.take k).map Genome.Adult).map Genome.Birth = l1.take k := by
      rw [List.map_map]
      conv_rhs => rw [← List.map_id (l1.take k)]
      apply List.map_congr_left
      intro g hg
      simp only [Function.comp, id, Birth_Adult]
      exact hbirth g (List.mem_of_mem_take hg)
    rw [hmap, List.take_append_drop]
    exact hperm
  · intro g hg d hd
    obtain ⟨x, hx, hxg⟩ := List.mem_map.mp hg
    rw [← hxg, Adult_GetFitness]
    have hsplit := hge
    rw [← List.take_append_drop k l1, List.pairwise_append] at hsplit
    exact hsplit.2.2 x hx d hd
  · rw [hklen, List.map_map]
    have : (Genome.GetFitness ∘ Genome.Adult : Genome G → ℚ) = Genome.GetFitness := rfl
    rw [this, List.map_take, sorted_fitness_eq _ l1 hperm hsorted, List.map_map]
    have : (Genome.GetFitness ∘ Genome.Birth : Genome G → ℚ) = Genome.GetFitness := rfl
    rw [this]

/-- The insertion sorts of `sampleEnv` meet the contract of `std::sort`. -/
theorem sampleEnv_contract : StdSortContract sampleEnv where
  genomes_perm := fun l => List.perm_insertionSort _ l
  genomes_sorted := fun l => by
    haveI : IsTotal (Genome Nat) (fun a b => a.GetFitness ≥ b.GetFitness) :=
      ⟨fun a b => le_total b.GetFitness a.GetFitness⟩
    haveI : IsTrans (Genome Nat) (fun a b => a.GetFitness ≥ b.GetFitness) :=
      ⟨fun _ _ _ hab hbc => le_trans hbc hab⟩
    have h := List.sorted_insertionSort (fun a b : Genome Nat => a.GetFitness ≥ b.GetFitness) l
    refine List.Pairwise.imp ?_ h
    intro a b hab
    simpa [genome_greater] using hab
  mutations_perm := fun l => List.perm_insertionSort _ l
  mutations_sorted := fun l => by
    haveI : IsTotal Mutation (fun a b => a.Probability ≥ b.Probability) :=
      ⟨fun a b => le_total b.Probability a.Probability⟩
    haveI : IsTrans Mutation (fun a b => a.Probability ≥ b.Probability) :=
      ⟨fun _ _ _ hab hbc => le_trans hbc hab⟩
    have h := List.sorted_insertionSort (fun a b : Mutation => a.Probability ≥ b.Probability) l
    refine List.Pairwise.imp ?_ h
    intro a b hab
    simpa [MutationBigger] using hab

/-- With the exact truncation size and survival rate 0.5 the members of fitness 10, 7, 3,
1 are cut to 10, 7, 3, all Adult, also when they are stored out of order. -/
theorem KillWorst_keeps_best_witness :
    (KillWorst sampleEnv sampleParameters fourSpecies).map
        (fun s => s.m_Individuals.map (fun g => (g.GetFitness, g.IsAdult)))
      = some [(10, true), (7, true), (3, true)]
    ∧ (KillWorst sampleEnv sampleParameters shuffledSpecies).map
        (fun s => s.m_Individuals.map (fun g => (g.GetFitness, g.IsAdult)))
      = some [(10, true), (7, true), (3, true)]
    ∧ ∃ kept discarded : List (Genome Nat),
      KillWorst sampleEnv sampleParameters fourSpecies
        = some { fourSpecies with m_Individuals := kept }
      ∧ (kept.length : Int)
        = ⌊sampleParameters.SurvivalRate * (fourSpecies.m_Individuals.length : ℚ)⌋ + 1
      ∧ kept.Pairwise (fun a b => a.GetFitness ≥ b.GetFitness)
      ∧ (∀ g ∈ kept, g.IsAdult = true)
      ∧ (kept.map Genome.Birth ++ discarded).Perm (fourSpecies.m_Individuals.map Genome.Birth)
      ∧ (∀ g ∈ kept, ∀ d ∈ discarded, d.GetFitness ≤ g.GetFitness)
      ∧ kept.map Genome.GetFitness
          = ((fourSpecies.m_Individuals.map Genome.GetFitness).insertionSort
              (fun a b => a ≥ b)).take kept.length := by
  have h3 : numParents sampleParameters 4 = 3 := by
    rw [numParents_eq]
    norm_num [sampleParameters]
  have h3n : Int.toNat 3 = 3 := rfl
  refine ⟨?_, ?_, KillWorst_keeps_best sampleEnv sampleEnv_contract sampleParameters fourSpecies
    (by simp [fourSpecies, sampleSpecies]) (by norm_num [sampleParameters])
    (by norm_num [sampleParameters])⟩
  · norm_num [KillWorst, SortIndividuals, fourSpecies, sampleSpecies, sampleEnv, sampleGenome,
      Genome.Birth, Genome.Adult, Genome.GetFitness, Genome.IsAdult, h3, h3n, KillWorstAdultLoop]
  · norm_num [KillWorst, SortIndividuals, shuffledSpecies, sampleSpecies, sampleEnv, sampleGenome,
      Genome.Birth, Genome.Adult, Genome.GetFitness, Genome.IsAdult, h3, h3n, KillWorstAdultLoop]

/-! ### `KillOldParents` -/

theorem uintInc_uintDec (i : Nat) (h : i < 2 ^ 32) : uintInc (uintDec i) = i := by
  unfold uintInc uintDec
  omega

theorem uintInc_eq (i : Nat) (h : i + 1 < 2 ^ 32) : uintInc i = i + 1 := by
  unfold uintInc
  omega

/-- The erase loop from index `i`, on a vector shorter than `2 ^ 32` and with one unit of
fuel for each member from `i` on and one for the exit test: the members before `i` stay,
of the others the non-adults stay. -/
theorem KillOldParentsLoop_eq (fuel i : Nat) (inds : List (Genome G))
    (hlen : inds.length < 2 ^ 32) (hi : i ≤ inds.length) (hfuel : inds.length - i < fuel) :
    KillOldParentsLoop fuel i inds = some (inds.take i ++ retainNonAdults (inds.drop i)) := by
  induction fuel generalizing i inds with
  | zero => omega
  | succ fuel ih =>
    rw [KillOldParentsLoop]
    rcases Nat.lt_or_ge i inds.length with hlt | hge
    · rw [List.getElem?_eq_getElem hlt]
      simp only
      have hdrop : inds.drop i = inds[i] :: inds.drop (i + 1) := List.drop_eq_getElem_cons hlt
      by_cases hadult : (inds[i]).IsAdult = true
      · rw [if_pos hadult, uintInc_uintDec i (by omega)]
        have hlen2 : (inds.eraseIdx i).length = inds.length - 1 := List.length_eraseIdx_of_lt hlt
        rw [ih i (inds.eraseIdx i) (by omega) (by omega) (by omega)]
        have herase : inds.eraseIdx i = inds.take i ++ inds.drop (i + 1) :=
          List.eraseIdx_eq_take_drop_succ inds i
        have htake : (inds.eraseIdx i).take i = inds.take i := by
          rw [herase, List.take_append_of_le_length (by simp [List.length_take]; omega)]
          simp [List.take_take]
        have hdrop2 : (inds.eraseIdx i).drop i = inds.drop (i + 1) := by
          rw [herase, List.drop_append_of_le_length (by simp [List.length_take]; omega)]
          simp [List.drop_take]
        rw [htake, hdrop2]
        congr 2
        unfold retainNonAdults
        conv_rhs => rw [hdrop, List.filter_cons]
        simp only [hadult, Bool.not_true, Bool.false_eq_true, if_false]
      · rw [if_neg hadult, uintInc_eq i (by omega)]
        rw [ih (i + 1) inds hlen (by omega) (by omega)]
        have hb : (inds[i]).IsAdult = false := by simpa using hadult
        unfold retainNonAdults
        conv_rhs => rw [hdrop, List.filter_cons]
        rw [List.take_succ, List.getElem?_eq_getElem hlt]
        simp only [hb, Bool.not_false, if_true, Option.toList, List.append_assoc,
          List.singleton_append]
    · rw [List.getElem?_eq_none hge]
      simp only
      rw [List.take_of_length_le hge, List.drop_of_length_le hge]
      simp [retainNonAdults]

/-- C6: on a member vector shorter than `2 ^ 32` (the range of the `unsigned int` index)
and with more fuel than members, the erase loop of `KillOldParents` returns and changes
only the member vector, which becomes the filter/retain pass `retainNonAdults`: the
members not flagged Adult, in their original relative order. No Adult remains and every
non-Adult member is still there. -/
theorem KillOldParents_retains (s : Species G) (fuel : Nat)
    (hlen : s.m_Individuals.length < 2 ^ 32) (hfuel : s.m_Individuals.length < fuel) :
    KillOldParents fuel s = some { s with m_Individuals := retainNonAdults s.m_Individuals }
      ∧ retainNonAdults s.m_Individuals = s.m_Individuals.filter (fun g => !g.IsAdult)
      ∧ (retainNonAdults s.m_Individuals).Sublist s.m_Individuals
      ∧ (∀ g ∈ retainNonAdults s.m_Individuals, g.IsAdult = false)
      ∧ (∀ g ∈ s.m_Individuals, g.IsAdult = false → g ∈ retainNonAdults s.m_Individuals)
      ∧ (retainNonAdults s.m_Individuals).length
          = s.m_Individuals.countP (fun g => !g.IsAdult) := by
  refine ⟨?_, rfl, ?_, ?_, ?_, ?_⟩
  · have h := KillOldParentsLoop_eq fuel 0 s.m_Individuals hlen (Nat.zero_le _) (by omega)
    simp only [List.take_zero, List.nil_append, List.drop_zero] at h
    simp only [KillOldParents, h]
  · exact List.filter_sublist _
  · intro g hg
    have := (List.mem_filter.mp hg).2
    simpa using this
  · intro g hg hb
    exact List.mem_filter.mpr ⟨hg, by simp [hb]⟩
  · simp [retainNonAdults, List.countP_eq_length_filter]

/-- Witness for C6: adults at indices 0, 1 and 3 are erased, the babies at 2 and 4 stay. -/
theorem KillOldParents_retains_witness :
    (KillOldParents 6 mixedSpecies).map (fun s => s.m_Individuals.map Genome.GetID) = some [3, 5]
    ∧ KillOldParents 6 mixedSpecies
        = some { mixedSpecies with m_Individuals := retainNonAdults mixedSpecies.m_Individuals }
    ∧ retainNonAdults mixedSpecies.m_Individuals
        = mixedSpecies.m_Individuals.filter (fun g => !g.IsAdult)
    ∧ (retainNonAdults mixedSpecies.m_Individuals).Sublist mixedSpecies.m_Individuals
    ∧ (∀ g ∈ retainNonAdults mixedSpecies.m_Individuals, g.IsAdult = false)
    ∧ (∀ g ∈ mixedSpecies.m_Individuals, g.IsAdult = false →
        g ∈ retainNonAdults mixedSpecies.m_Individuals)
    ∧ (retainNonAdults mixedSpecies.m_Individuals).length
        = mixedSpecies.m_Individuals.countP (fun g => !g.IsAdult) :=
  ⟨by
    norm_num [KillOldParents, KillOldParentsLoop, mixedSpecies, sampleSpecies, sampleGenome,
      Genome.Adult, Genome.IsAdult, Genome.GetID, uintInc, uintDec],
   KillOldParents_retains mixedSpecies 6
    (by norm_num [mixedSpecies, sampleSpecies])
    (by norm_num [mixedSpecies, sampleSpecies])⟩

/-! ### `Reproduce` -/

theorem totalGenomes_cons (sp : Species G) (l : List (Species G)) :
    totalGenomes (sp :: l) = sp.m_Individuals.length + totalGenomes l := by
  simp [totalGenomes]

theorem totalGenomes_append (l1 l2 : List (Species G)) :
    totalGenomes (l1 ++ l2) = totalGenomes l1 + totalGenomes l2 := by
  simp [totalGenomes]

/-- A successful search adds the baby to exactly one species of the list. -/
theorem placeLoop_total (E : Env G W) (b : Genome G) (l l1 : List (Species G))
    (h : placeLoop E b l = some l1) : totalGenomes l1 = totalGenomes l + 1 := by
  induction l generalizing l1 with
  | nil => simp [placeLoop] at h
  | cons sp rest ih =>
    rw [placeLoop] at h
    split at h
    · simp only [Option.some.injEq] at h
      subst h
      simp [totalGenomes_cons, Species.AddIndividual]
      omega
    · cases hrest : placeLoop E b rest with
      | none => simp [hrest] at h
      | some rest1 =>
        simp only [hrest, Option.some.injEq] at h
        subst h
        rw [totalGenomes_cons, totalGenomes_cons, ih rest1 hrest]
        omega

/-- A successful search keeps every genome the list held and holds the baby. -/
theorem placeLoop_mem (E : Env G W) (b : Genome G) (l l1 : List (Species G))
    (h : placeLoop E b l = some l1) :
    (∃ sp ∈ l1, b ∈ sp.m_Individuals)
      ∧ ∀ (g : Genome G), (∃ sp ∈ l, g ∈ sp.m_Individuals) → ∃ sp ∈ l1, g ∈ sp.m_Individuals := by
  induction l generalizing l1 with
  | nil => simp [placeLoop] at h
  | cons sp rest ih =>
    rw [placeLoop] at h
    split at h
    · simp only [Option.some.injEq] at h
      subst h
      constructor
      · exact ⟨_, List.mem_cons_self _ _, by simp [Species.AddIndividual]⟩
      · rintro g ⟨x, hx, hg⟩
        rcases List.mem_cons.mp hx with hx | hx
        · subst hx
          exact ⟨_, List.mem_cons_self _ _, by simp [Species.AddIndividual, hg]⟩
        · exact ⟨x, List.mem_cons_of_mem _ hx, hg⟩
    · cases hrest : placeLoop E b rest with
      | none => simp [hrest] at h
      | some rest1 =>
        simp only [hrest, Option.some.injEq] at h
        subst h
        obtain ⟨⟨y, hy, hby⟩, hkeep⟩ := ih rest1 hrest
        constructor
        · exact ⟨y, List.mem_cons_of_mem _ hy, hby⟩
        · rintro g ⟨x, hx, hg⟩
          rcases List.mem_cons.mp hx with hx | hx
          · subst hx
            exact ⟨_, List.mem_cons_self _ _, hg⟩
          · obtain ⟨z, hz, hgz⟩ := hkeep g ⟨x, hx, hg⟩
            exact ⟨z, List.mem_cons_of_mem _ hz, hgz⟩

/-- What `pushNewSpecies` does to the population context. -/
theorem pushNewSpecies_spec (E : Env G W) (b : Genome G) (pop : Population G) (w : W) :
    totalGenomes (pushNewSpecies E b pop w).1.m_TempSpecies = totalGenomes pop.m_TempSpecies + 1
      ∧ (pushNewSpecies E b pop w).1.m_Species = pop.m_Species
      ∧ (pushNewSpecies E b pop w).1.m_NextGenomeID = pop.m_NextGenomeID
      ∧ (pushNewSpecies E b pop w).1.m_NextSpeciesID = pop.m_NextSpeciesID + 1
      ∧ (pushNewSpecies E b pop w).1.m_SearchMode = pop.m_SearchMode
      ∧ (∃ sp ∈ (pushNewSpecies E b pop w).1.m_TempSpecies, b ∈ sp.m_Individuals)
      ∧ ∀ (g : Genome G), (∃ sp ∈ pop.m_TempSpecies, g ∈ sp.m_Individuals) →
          ∃ sp ∈ (pushNewSpecies E b pop w).1.m_TempSpecies, g ∈ sp.m_Individuals := by
  refine ⟨?_, rfl, rfl, rfl, rfl, ?_, ?_⟩
  · simp [pushNewSpecies, Population.IncrementNextSpeciesID, totalGenomes_append, totalGenomes,
      Species.Species]
  · refine ⟨(Species.Species E b pop.GetNextSpeciesID w).1, ?_, ?_⟩
    · simp [pushNewSpecies, Population.IncrementNextSpeciesID]
    · simp [Species.Species]
  · rintro g ⟨sp, hsp, hg⟩
    refine ⟨sp, ?_, hg⟩
    simp [pushNewSpecies, Population.IncrementNextSpeciesID, hsp]

/-- What the placement step does to the population context: one genome more in the
next-generation list, the baby among its genomes, every genome it held kept; the live
species list, the genome-ID counter and the search phase untouched; the species-ID
counter not decreased. -/
theorem placeBaby_spec (E : Env G W) (b : Genome G) (pop : Population G) (w : W) :
    totalGenomes (placeBaby E b pop w).1.m_TempSpecies = totalGenomes pop.m_TempSpecies + 1
      ∧ (placeBaby E b pop w).1.m_Species = pop.m_Species
      ∧ (placeBaby E b pop w).1.m_NextGenomeID = pop.m_NextGenomeID
      ∧ pop.m_NextSpeciesID ≤ (placeBaby E b pop w).1.m_NextSpeciesID
      ∧ (placeBaby E b pop w).1.m_SearchMode = pop.m_SearchMode
      ∧ (∃ sp ∈ (placeBaby E b pop w).1.m_TempSpecies, b ∈ sp.m_Individuals)
      ∧ ∀ (g : Genome G), (∃ sp ∈ pop.m_TempSpecies, g ∈ sp.m_Individuals) →
          ∃ sp ∈ (placeBaby E b pop w).1.m_TempSpecies, g ∈ sp.m_Individuals := by
  obtain ⟨p1, p2, p3, p4, p5, p6, p7⟩ := pushNewSpecies_spec E b pop w
  unfold placeBaby
  split
  · exact ⟨p1, p2, p3, by omega, p5, p6, p7⟩
  · cases hloop : placeLoop E b pop.m_TempSpecies with
    | none =>
      simp only []
      exact ⟨p1, p2, p3, by omega, p5, p6, p7⟩
    | some temp =>
      obtain ⟨hb, hkeep⟩ := placeLoop_mem E b _ _ hloop
      exact ⟨placeLoop_total E b _ _ hloop, rfl, rfl, le_refl _, rfl, hb, hkeep⟩

/-- The fields finalisation gives to a baby. -/
theorem finalizeBaby_eq (E : Env G W) (pop : Population G) (g : Genome G) :
    finalizeBaby E pop g
      = { m_ID := pop.m_NextGenomeID, m_Fitness := 0, m_AdjustedFitness := 0,
          m_OffspringAmount := 0, m_Evaluated := false, m_Adult := false,
          m_Genes := E.SortGenes g.m_Genes } := rfl

/-- The loop of `Reproduce`: what `count` iterations do to the population context and
which babies they log. -/
theorem ReproduceLoop_spec (E : Env G W) (P : Parameters) (s : Species G) (fuel count : Nat)
    (champ : Bool) (pop : Population G) (w : W) (born : List (Genome G))
    (r : ReproduceResult G W)
    (h : ReproduceLoop E P s fuel count champ pop w born = some r) :
    ∃ new : List (Genome G), r.born = born ++ new ∧ new.length = count
      ∧ totalGenomes r.pop.m_TempSpecies = totalGenomes pop.m_TempSpecies + count
      ∧ r.pop.m_Species = pop.m_Species
      ∧ r.pop.m_NextGenomeID = pop.m_NextGenomeID + count
      ∧ pop.m_NextSpeciesID ≤ r.pop.m_NextSpeciesID
      ∧ r.pop.m_SearchMode = pop.m_SearchMode
      ∧ new.map Genome.GetID = (List.range count).map (fun (k : Nat) => pop.m_NextGenomeID + (k : Int))
      ∧ (∀ b ∈ new, b.m_Fitness = 0 ∧ b.m_AdjustedFitness = 0 ∧ b.m_OffspringAmount = 0
          ∧ b.m_Adult = false ∧ b.m_Evaluated = false)
      ∧ (∀ b ∈ new, ∃ sp ∈ r.pop.m_TempSpecies, b ∈ sp.m_Individuals)
      ∧ (∀ (g : Genome G), (∃ sp ∈ pop.m_TempSpecies, g ∈ sp.m_Individuals) →
          ∃ sp ∈ r.pop.m_TempSpecies, g ∈ sp.m_Individuals) := by
  induction count generalizing champ pop w born with
  | zero =>
    simp only [ReproduceLoop, Option.some.injEq] at h
    subst h
    exact ⟨[], by simp⟩
  | succ count ih =>
    rw [ReproduceLoop] at h
    simp only at h
    split at h
    · exact absurd h (by simp)
    · rename_i t_baby w1 hcand
      obtain ⟨new1, hborn, hlen, htot, hsp, hid, hsid, hmode, hids, hfields, hmem, hkeep⟩ :=
        ih _ _ _ _ h
      obtain ⟨q1, q2, q3, q4, q5, q6, q7⟩ :=
        placeBaby_spec E (finalizeBaby E pop t_baby) pop.IncrementNextGenomeID w1
      refine ⟨finalizeBaby E pop t_baby :: new1, ?_, ?_, ?_, ?_, ?_, ?_, ?_, ?_, ?_, ?_, ?_⟩
      · rw [hborn]; simp
      · simp [hlen]
      · rw [htot, q1]
        simp only [Population.IncrementNextGenomeID]
        omega
      · rw [hsp, q2]; rfl
      · rw [hid, q3]
        simp only [Population.IncrementNextGenomeID]
        push_cast
        omega
      · exact le_trans q4 hsid
      · rw [hmode, q5]; rfl
      · rw [List.range_succ_eq_map, List.map_cons, List.map_cons, List.map_map, hids, q3]
        simp only [Population.IncrementNextGenomeID, finalizeBaby_eq, Genome.GetID]
        congr 1
        · simp
        · apply List.map_congr_left
          intro k _
          simp only [Function.comp, Nat.succ_eq_add_one]
          push_cast
          omega
      · intro b hb
        rcases List.mem_cons.mp hb with hb | hb
        · subst hb
          simp [finalizeBaby_eq]
        · exact hfields b hb
      · intro b hb
        rcases List.mem_cons.mp hb with hb | hb
        · subst hb
          exact hkeep _ q6
        · exact hmem b hb
      · intro g hg
        exact hkeep g (q7 g hg)

theorem Rounded_nonneg (x : ℚ) (h : 0 ≤ x) : 0 ≤ Rounded x := by
  unfold Rounded
  exact Int.floor_nonneg.mpr (by linarith)

/-- `Reproduce` in terms of its loop, for a count that is not negative. -/
theorem Reproduce_eq_loop (E : Env G W) (P : Parameters) (fuel : Nat) (s : Species G)
    (pop : Population G) (w : W) (h : 0 ≤ Rounded s.m_OffspringRqd) :
    Reproduce E P fuel s pop w
      = ReproduceLoop E P s fuel (Rounded s.m_OffspringRqd).toNat false pop w [] := by
  unfold Reproduce
  simp only [Species.GetOffspringRqd]
  by_cases hz : Rounded s.m_OffspringRqd = 0
  · simp [hz, ReproduceLoop]
  · have hneg : ¬ Rounded s.m_OffspringRqd < 0 := by omega
    simp [hz, hneg]

/-- C8: for a non-empty species with `m_OffspringRqd >= 0` and a run on which `Reproduce`
returns, the count `Rounded(m_OffspringRqd)` is the round-half-up of the demand and is
not negative, the next-generation species list holds exactly that many genomes more, and
as many babies were logged. When the count is 0 the result is the unchanged population
context and shared state, whatever the fuel. -/
theorem Reproduce_offspring_count (E : Env G W) (P : Parameters) (fuel : Nat) (s : Species G)
    (pop : Population G) (w : W) (r : ReproduceResult G W)
    (hne : s.m_Individuals ≠ []) (h0 : 0 ≤ s.m_OffspringRqd)
    (hret : Reproduce E P fuel s pop w = some r) :
    0 ≤ Rounded s.m_OffspringRqd
      ∧ ((Rounded s.m_OffspringRqd : Int) : ℚ) ≤ s.m_OffspringRqd + 1 / 2
      ∧ s.m_OffspringRqd + 1 / 2 < ((Rounded s.m_OffspringRqd : Int) : ℚ) + 1
      ∧ totalGenomes r.pop.m_TempSpecies
          = totalGenomes pop.m_TempSpecies + (Rounded s.m_OffspringRqd).toNat
      ∧ r.born.length = (Rounded s.m_OffspringRqd).toNat
      ∧ (Rounded s.m_OffspringRqd = 0 → r.pop = pop ∧ r.world = w ∧ r.born = [])
      ∧ (Rounded s.m_OffspringRqd = 0 →
          ∀ fuel1 : Nat, Reproduce E P fuel1 s pop w = some ⟨pop, w, []⟩) := by
  have hr := Rounded_nonneg s.m_OffspringRqd h0
  have hnonempty : 0 < s.m_Individuals.length := List.length_pos.mpr hne
  rw [Reproduce_eq_loop E P fuel s pop w hr] at hret
  obtain ⟨new, hborn, hlen, htot, -⟩ := ReproduceLoop_spec E P s fuel _ _ _ _ _ _ hret
  refine ⟨hr, Int.floor_le _, Int.lt_floor_add_one _, htot, ?_, ?_, ?_⟩
  · rw [hborn]; simpa using hlen
  · intro hz
    rw [hz] at hret
    simp only [Int.toNat_zero, ReproduceLoop, Option.some.injEq] at hret
    subst hret
    exact ⟨rfl, rfl, rfl⟩
  · intro hz fuel1
    simp [Reproduce, Species.GetOffspringRqd, hz]

/-- C9: for a species whose member 0 is `g0` and whose count is at least 1, `Reproduce`
is the rest of its loop run from the state in which the finalised copy of `g0` has been
placed: the baby is `g0` with a fresh ID, sorted genes and reset fitness and lifecycle
fields, it is placed from the shared state `w` the call started with (nothing was drawn,
mated, mutated or compared to produce it), it is the first baby of every returning run,
and it is the same whatever the environment apart from `SortGenes`, the parameters, the
fuel and the shared state are. -/
theorem Reproduce_champion_first (E : Env G W) (P : Parameters) (fuel : Nat) (s : Species G)
    (pop : Population G) (w : W) (g0 : Genome G)
    (hg0 : s.m_Individuals[0]? = some g0) (hcount : 1 ≤ Rounded s.m_OffspringRqd) :
    Reproduce E P fuel s pop w
        = ReproduceLoop E P s fuel ((Rounded s.m_OffspringRqd).toNat - 1) true
            (placeBaby E (finalizeBaby E pop g0) pop.IncrementNextGenomeID w).1
            (placeBaby E (finalizeBaby E pop g0) pop.IncrementNextGenomeID w).2
            [finalizeBaby E pop g0]
      ∧ finalizeBaby E pop g0
        = { m_ID := pop.m_NextGenomeID, m_Fitness := 0, m_AdjustedFitness := 0,
            m_OffspringAmount := 0, m_Evaluated := false, m_Adult := false,
            m_Genes := E.SortGenes g0.m_Genes }
      ∧ (∃ sp ∈ (placeBaby E (finalizeBaby E pop g0) pop.IncrementNextGenomeID w).1.m_TempSpecies,
          finalizeBaby E pop g0 ∈ sp.m_Individuals)
      ∧ (∀ r : ReproduceResult G W, Reproduce E P fuel s pop w = some r →
          r.born.head? = some (finalizeBaby E pop g0)
            ∧ ∃ sp ∈ r.pop.m_TempSpecies, finalizeBaby E pop g0 ∈ sp.m_Individuals)
      ∧ (∀ (E2 : Env G W) (P2 : Parameters) (fuel2 : Nat) (w2 : W) (r2 : ReproduceResult G W),
          E2.SortGenes = E.SortGenes → Reproduce E2 P2 fuel2 s pop w2 = some r2 →
          r2.born.head? = some (finalizeBaby E pop g0)) := by
  have hunfold : ∀ (E1 : Env G W) (P1 : Parameters) (fuel1 : Nat) (w1 : W),
      Reproduce E1 P1 fuel1 s pop w1
        = ReproduceLoop E1 P1 s fuel1 ((Rounded s.m_OffspringRqd).toNat - 1) true
            (placeBaby E1 (finalizeBaby E1 pop g0) pop.IncrementNextGenomeID w1).1
            (placeBaby E1 (finalizeBaby E1 pop g0) pop.IncrementNextGenomeID w1).2
            [finalizeBaby E1 pop g0] := by
    intro E1 P1 fuel1 w1
    rw [Reproduce_eq_loop E1 P1 fuel1 s pop w1 (by omega)]
    obtain ⟨n, hn⟩ : ∃ n, (Rounded s.m_OffspringRqd).toNat = n + 1 :=
      ⟨(Rounded s.m_OffspringRqd).toNat - 1, by omega⟩
    rw [hn, ReproduceLoop]
    simp [hg0]
  have hhead : ∀ (E1 : Env G W) (P1 : Parameters) (fuel1 : Nat) (w1 : W)
      (r1 : ReproduceResult G W), Reproduce E1 P1 fuel1 s pop w1 = some r1 →
      r1.born.head? = some (finalizeBaby E1 pop g0)
        ∧ ∃ sp ∈ r1.pop.m_TempSpecies, finalizeBaby E1 pop g0 ∈ sp.m_Individuals := by
    intro E1 P1 fuel1 w1 r1 hr1
    rw [hunfold] at hr1
    obtain ⟨new, hborn, -, -, -, -, -, -, -, -, -, hkeep⟩ :=
      ReproduceLoop_spec E1 P1 s fuel1 _ _ _ _ _ _ hr1
    refine ⟨by rw [hborn]; simp, hkeep _ ?_⟩
    exact (placeBaby_spec E1 (finalizeBaby E1 pop g0) pop.IncrementNextGenomeID w1).2.2.2.2.2.1
  refine ⟨hunfold E P fuel w, rfl, ?_, hhead E P fuel w, ?_⟩
  · exact (placeBaby_spec E (finalizeBaby E pop g0) pop.IncrementNextGenomeID w).2.2.2.2.2.1
  · intro E2 P2 fuel2 w2 r2 hsort hr2
    rw [(hhead E2 P2 fuel2 w2 r2 hr2).1]
    simp [finalizeBaby_eq, hsort]

/-- C10: on a run on which `Reproduce` returns, every baby it placed has fitness,
adjusted fitness and offspring amount 0, is a Baby and is not evaluated; the `k`-th baby
carries the ID `m_NextGenomeID + k`, the value of the genome-ID counter when it was
finalised; the counter ends at its starting value plus the number of babies, so it never
decreases; the IDs are pairwise distinct, none is below the counter's starting value and
all are below its final value; and every logged baby is held by a species of the
next-generation list, which grew by as many genomes as babies were logged. -/
theorem Reproduce_babies_finalized (E : Env G W) (P : Parameters) (fuel : Nat) (s : Species G)
    (pop : Population G) (w : W) (r : ReproduceResult G W)
    (hret : Reproduce E P fuel s pop w = some r) :
    (∀ b ∈ r.born, b.m_Fitness = 0 ∧ b.m_AdjustedFitness = 0 ∧ b.m_OffspringAmount = 0
        ∧ b.m_Adult = false ∧ b.m_Evaluated = false)
      ∧ r.born.map Genome.GetID
          = (List.range r.born.length).map (fun (k : Nat) => pop.m_NextGenomeID + (k : Int))
      ∧ r.pop.m_NextGenomeID = pop.m_NextGenomeID + (r.born.length : Int)
      ∧ pop.m_NextGenomeID ≤ r.pop.m_NextGenomeID
      ∧ (r.born.map Genome.GetID).Nodup
      ∧ (∀ b ∈ r.born, pop.m_NextGenomeID ≤ b.GetID ∧ b.GetID < r.pop.m_NextGenomeID)
      ∧ (∀ b ∈ r.born, ∃ sp ∈ r.pop.m_TempSpecies, b ∈ sp.m_Individuals)
      ∧ totalGenomes r.pop.m_TempSpecies = totalGenomes pop.m_TempSpecies + r.born.length := by
  have hcount : 0 ≤ Rounded s.m_OffspringRqd := by
    by_contra hneg
    have hz : ¬ Rounded s.m_OffspringRqd = 0 := by omega
    have hlt : Rounded s.m_OffspringRqd < 0 := by omega
    simp [Reproduce, Species.GetOffspringRqd, hz, hlt] at hret
  rw [Reproduce_eq_loop E P fuel s pop w hcount] at hret
  obtain ⟨new, hborn, hlen, htot, -, hid, -, -, hids, hfields, hmem, -⟩ :=
    ReproduceLoop_spec E P s fuel _ _ _ _ _ _ hret
  have hbn : r.born = new := by rw [hborn]; simp
  rw [hbn, hlen]
  have hidlist : ∀ b ∈ new, ∃ k : Nat, k < (Rounded s.m_OffspringRqd).toNat
      ∧ b.GetID = pop.m_NextGenomeID + (k : Int) := by
    intro b hb
    have hmemid : b.GetID ∈ new.map Genome.GetID := List.mem_map_of_mem _ hb
    rw [hids] at hmemid
    obtain ⟨k, hk, hkid⟩ := List.mem_map.mp hmemid
    exact ⟨k, List.mem_range.mp hk, hkid.symm⟩
  refine ⟨hfields, hids, hid, ?_, ?_, ?_, hmem, htot⟩
  · rw [hid]; omega
  · rw [hids]
    refine List.Nodup.map ?_ (List.nodup_range _)
    intro a b hab
    simp only at hab
    omega
  · intro b hb
    obtain ⟨k, hk, hkid⟩ := hidlist b hb
    rw [hkid, hid]
    omega

set_option maxRecDepth 4000

/-- The sample run returns: `parentSpecies` reproduces into `parentPopulation` with five
passes allowed to each clone-avoidance loop. -/
theorem parentRun_returns :
    (Reproduce sampleEnv sampleParameters 5 parentSpecies parentPopulation 0).isSome = true := by
  with_unfolding_all decide

/-- Witness for C8: with the demand 0.4, which rounds to 0, the call returns the
population context and the shared state unchanged without any fuel; the demand 2.5
rounds to 3 and the sample run places 3 genomes. -/
theorem Reproduce_offspring_count_witness :
    Reproduce sampleEnv sampleParameters 0 { parentSpecies with m_OffspringRqd := 2 / 5 }
        parentPopulation 0 = some ⟨parentPopulation, 0, []⟩
    ∧ ∃ r : ReproduceResult Nat Nat,
      Reproduce sampleEnv sampleParameters 5 parentSpecies parentPopulation 0 = some r
      ∧ 0 ≤ Rounded parentSpecies.m_OffspringRqd
      ∧ ((Rounded parentSpecies.m_OffspringRqd : Int) : ℚ) ≤ parentSpecies.m_OffspringRqd + 1 / 2
      ∧ parentSpecies.m_OffspringRqd + 1 / 2 < ((Rounded parentSpecies.m_OffspringRqd : Int) : ℚ) + 1
      ∧ totalGenomes r.pop.m_TempSpecies
          = totalGenomes parentPopulation.m_TempSpecies + (Rounded parentSpecies.m_OffspringRqd).toNat
      ∧ r.born.length = (Rounded parentSpecies.m_OffspringRqd).toNat
      ∧ (Rounded parentSpecies.m_OffspringRqd = 0 →
          r.pop = parentPopulation ∧ r.world = 0 ∧ r.born = [])
      ∧ (Rounded parentSpecies.m_OffspringRqd = 0 → ∀ fuel1 : Nat,
          Reproduce sampleEnv sampleParameters fuel1 parentSpecies parentPopulation 0
            = some ⟨parentPopulation, 0, []⟩) :=
  match Option.isSome_iff_exists.mp parentRun_returns with
  | ⟨r, hr⟩ =>
    ⟨by norm_num [Reproduce, Species.GetOffspringRqd, Rounded],
      r, hr, Reproduce_offspring_count sampleEnv sampleParameters 5 parentSpecies parentPopulation 0 r
        (by simp [parentSpecies, sampleSpecies]) (by norm_num [parentSpecies]) hr⟩

/-- Witness for C9: in the sample run the first baby is member 0 of `parentSpecies` with
ID 100 and reset fields, placed from the untouched shared state 0. -/
theorem Reproduce_champion_first_witness :
    parentSpecies.m_Individuals[0]? = some (sampleGenome 1 10 (5 / 2)).Adult
      ∧ 1 ≤ Rounded parentSpecies.m_OffspringRqd
      ∧ Reproduce sampleEnv sampleParameters 5 parentSpecies parentPopulation 0
        = ReproduceLoop sampleEnv sampleParameters parentSpecies 5
            ((Rounded parentSpecies.m_OffspringRqd).toNat - 1) true
            (placeBaby sampleEnv
              (finalizeBaby sampleEnv parentPopulation (sampleGenome 1 10 (5 / 2)).Adult)
              parentPopulation.IncrementNextGenomeID 0).1
            (placeBaby sampleEnv
              (finalizeBaby sampleEnv parentPopulation (sampleGenome 1 10 (5 / 2)).Adult)
              parentPopulation.IncrementNextGenomeID 0).2
            [finalizeBaby sampleEnv parentPopulation (sampleGenome 1 10 (5 / 2)).Adult]
      ∧ finalizeBaby sampleEnv parentPopulation (sampleGenome 1 10 (5 / 2)).Adult
        = { m_ID := parentPopulation.m_NextGenomeID, m_Fitness := 0, m_AdjustedFitness := 0,
            m_OffspringAmount := 0, m_Evaluated := false, m_Adult := false,
            m_Genes := sampleEnv.SortGenes (sampleGenome 1 10 (5 / 2)).Adult.m_Genes }
      ∧ (∃ sp ∈ (placeBaby sampleEnv
            (finalizeBaby sampleEnv parentPopulation (sampleGenome 1 10 (5 / 2)).Adult)
            parentPopulation.IncrementNextGenomeID 0).1.m_TempSpecies,
          finalizeBaby sampleEnv parentPopulation (sampleGenome 1 10 (5 / 2)).Adult
            ∈ sp.m_Individuals)
      ∧ (∀ r : ReproduceResult Nat Nat,
          Reproduce sampleEnv sampleParameters 5 parentSpecies parentPopulation 0 = some r →
          r.born.head?
              = some (finalizeBaby sampleEnv parentPopulation (sampleGenome 1 10 (5 / 2)).Adult)
            ∧ ∃ sp ∈ r.pop.m_TempSpecies,
                finalizeBaby sampleEnv parentPopulation (sampleGenome 1 10 (5 / 2)).Adult
                  ∈ sp.m_Individuals)
      ∧ (∀ (E2 : Env Nat Nat) (P2 : Parameters) (fuel2 : Nat) (w2 : Nat)
          (r2 : ReproduceResult Nat Nat),
          E2.SortGenes = sampleEnv.SortGenes →
          Reproduce E2 P2 fuel2 parentSpecies parentPopulation w2 = some r2 →
          r2.born.head?
            = some (finalizeBaby sampleEnv parentPopulation (sampleGenome 1 10 (5 / 2)).Adult)) :=
  ⟨rfl, by norm_num [Rounded, parentSpecies],
    Reproduce_champion_first sampleEnv sampleParameters 5 parentSpecies parentPopulation 0
      (sampleGenome 1 10 (5 / 2)).Adult rfl (by norm_num [Rounded, parentSpecies])⟩

/-- Witness for C10: the babies of the sample run. -/
theorem Reproduce_babies_finalized_witness :
    ∃ r : ReproduceResult Nat Nat,
      Reproduce sampleEnv sampleParameters 5 parentSpecies parentPopulation 0 = some r
      ∧ (∀ b ∈ r.born, b.m_Fitness = 0 ∧ b.m_AdjustedFitness = 0 ∧ b.m_OffspringAmount = 0
          ∧ b.m_Adult = false ∧ b.m_Evaluated = false)
      ∧ r.born.map Genome.GetID
          = (List.range r.born.length).map
              (fun (k : Nat) => parentPopulation.m_NextGenomeID + (k : Int))
      ∧ r.pop.m_NextGenomeID = parentPopulation.m_NextGenomeID + (r.born.length : Int)
      ∧ parentPopulation.m_NextGenomeID ≤ r.pop.m_NextGenomeID
      ∧ (r.born.map Genome.GetID).Nodup
      ∧ (∀ b ∈ r.born,
          parentPopulation.m_NextGenomeID ≤ b.GetID ∧ b.GetID < r.pop.m_NextGenomeID)
      ∧ (∀ b ∈ r.born, ∃ sp ∈ r.pop.m_TempSpecies, b ∈ sp.m_Individuals)
      ∧ totalGenomes r.pop.m_TempSpecies
          = totalGenomes parentPopulation.m_TempSpecies + r.born.length :=
  match Option.isSome_iff_exists.mp parentRun_returns with
  | ⟨r, hr⟩ =>
    ⟨r, hr, Reproduce_babies_finalized sampleEnv sampleParameters 5 parentSpecies
      parentPopulation 0 r hr⟩

/-- The sample run in figures: three babies with the IDs 100, 101, 102 and the gene
numbers 1, 7, 13, three genomes in the next-generation list, the genome-ID counter
at 103. -/
theorem parentRun_values :
    (Reproduce sampleEnv sampleParameters 5 parentSpecies parentPopulation 0).map
        (fun r => (r.born.map (fun b => (b.m_ID, b.m_Genes)), totalGenomes r.pop.m_TempSpecies,
          r.pop.m_NextGenomeID))
      = some ([(100, 1), (101, 7), (102, 13)], 3, 103) := by
  with_unfolding_all decide

/-! ### Placement and clone avoidance in `Reproduce` -/

theorem placeLoop_none (E : Env G W) (b : Genome G) (l : List (Species G))
    (h : ∀ x ∈ l, E.IsCompatibleWith b x.GetRepresentative = false) :
    placeLoop E b l = none := by
  induction l with
  | nil => rfl
  | cons sp rest ih =>
    have h1 : E.IsCompatibleWith b sp.GetRepresentative = false := h sp (List.mem_cons_self _ _)
    have h2 := ih (fun x hx => h x (List.mem_cons_of_mem _ hx))
    simp [placeLoop, h1, h2]

theorem placeLoop_first (E : Env G W) (b : Genome G) (pre post : List (Species G))
    (sp : Species G) (hpre : ∀ x ∈ pre, E.IsCompatibleWith b x.GetRepresentative = false)
    (hsp : E.IsCompatibleWith b sp.GetRepresentative = true) :
    placeLoop E b (pre ++ sp :: post) = some (pre ++ sp.AddIndividual b :: post) := by
  induction pre with
  | nil => simp [placeLoop, hsp]
  | cons x rest ih =>
    have h1 : E.IsCompatibleWith b x.GetRepresentative = false := hpre x (List.mem_cons_self _ _)
    have h2 := ih (fun y hy => hpre y (List.mem_cons_of_mem _ hy))
    simp [placeLoop, h1, h2]

/-- Every species list either has no compatible representative or splits at the first
compatible one. -/
theorem first_compatible_split (E : Env G W) (b : Genome G) (l : List (Species G)) :
    (∀ x ∈ l, E.IsCompatibleWith b x.GetRepresentative = false)
      ∨ ∃ (pre : List (Species G)) (sp : Species G) (post : List (Species G)),
          l = pre ++ sp :: post
            ∧ (∀ x ∈ pre, E.IsCompatibleWith b x.GetRepresentative = false)
            ∧ E.IsCompatibleWith b sp.GetRepresentative = true := by
  induction l with
  | nil => left; simp
  | cons sp rest ih =>
    by_cases hsp : E.IsCompatibleWith b sp.GetRepresentative = true
    · right
      exact ⟨[], sp, rest, rfl, by simp, hsp⟩
    · have hf : E.IsCompatibleWith b sp.GetRepresentative = false := by simpa using hsp
      rcases ih with hall | ⟨pre, x, post, hl, hpre, hx⟩
      · left
        intro y hy
        rcases List.mem_cons.mp hy with hy | hy
        · rw [hy]; exact hf
        · exact hall y hy
      · right
        refine ⟨sp :: pre, x, post, by rw [hl]; rfl, ?_, hx⟩
        intro y hy
        rcases List.mem_cons.mp hy with hy | hy
        · rw [hy]; exact hf
        · exact hpre y hy

/-- C11: the placement step of `Reproduce`, for every finalised baby `b` and every
next-generation list. If the list splits as `pre ++ sp :: post` with no compatible
representative in `pre` and a compatible one in `sp`, the baby is appended to the members
of `sp` and nothing else changes: representatives, IDs and members of all species, both
counters and the shared state stay as they were. If no representative is compatible
(the empty list included), one species built by the constructor from `b` and the current
species-ID counter is appended (ID the counter value, only member `b`, representative
`b`) and the species-ID counter is advanced by one; the species already in the list are
untouched. One of the two cases always applies. -/
theorem placeBaby_first_compatible (E : Env G W) (b : Genome G) (pop : Population G) (w : W) :
    (∀ (pre : List (Species G)) (sp : Species G) (post : List (Species G)),
        pop.m_TempSpecies = pre ++ sp :: post →
        (∀ x ∈ pre, E.IsCompatibleWith b x.GetRepresentative = false) →
        E.IsCompatibleWith b sp.GetRepresentative = true →
        placeBaby E b pop w
          = ({ pop with m_TempSpecies :=
                pre ++ { sp with m_Individuals := sp.m_Individuals ++ [b] } :: post }, w))
      ∧ ((∀ x ∈ pop.m_TempSpecies, E.IsCompatibleWith b x.GetRepresentative = false) →
          placeBaby E b pop w
              = ({ pop with
                    m_TempSpecies :=
                      pop.m_TempSpecies ++ [(Species.Species E b pop.m_NextSpeciesID w).1]
                    m_NextSpeciesID := pop.m_NextSpeciesID + 1 },
                  (Species.Species E b pop.m_NextSpeciesID w).2)
            ∧ (Species.Species E b pop.m_NextSpeciesID w).1.m_ID = pop.m_NextSpeciesID
            ∧ (Species.Species E b pop.m_NextSpeciesID w).1.m_Individuals = [b]
            ∧ (Species.Species E b pop.m_NextSpeciesID w).1.m_Representative = b)
      ∧ ((∀ x ∈ pop.m_TempSpecies, E.IsCompatibleWith b x.GetRepresentative = false)
          ∨ ∃ (pre : List (Species G)) (sp : Species G) (post : List (Species G)),
              pop.m_TempSpecies = pre ++ sp :: post
                ∧ (∀ x ∈ pre, E.IsCompatibleWith b x.GetRepresentative = false)
                ∧ E.IsCompatibleWith b sp.GetRepresentative = true) := by
  refine ⟨?_, ?_, first_compatible_split E b pop.m_TempSpecies⟩
  · intro pre sp post hl hpre hsp
    have hloop := placeLoop_first E b pre post sp hpre hsp
    have hlen : ¬ (pre ++ sp :: post).length = 0 := by simp
    simp only [placeBaby, hl, hloop, if_neg hlen]
    rfl
  · intro hall
    refine ⟨?_, rfl, rfl, rfl⟩
    have hloop := placeLoop_none E b pop.m_TempSpecies hall
    unfold placeBaby
    split
    · rfl
    · rw [hloop]
      rfl

/-- A successful search adds no genome but the baby. -/
theorem placeLoop_held (E : Env G W) (b : Genome G) (l l1 : List (Species G))
    (h : placeLoop E b l = some l1) (g : Genome G)
    (hg : ∃ sp ∈ l1, g ∈ sp.m_Individuals) : g = b ∨ ∃ sp ∈ l, g ∈ sp.m_Individuals := by
  induction l generalizing l1 with
  | nil => simp [placeLoop] at h
  | cons sp rest ih =>
    rw [placeLoop] at h
    split at h
    · simp only [Option.some.injEq] at h
      subst h
      obtain ⟨x, hx, hgx⟩ := hg
      rcases List.mem_cons.mp hx with hx | hx
      · subst hx
        simp only [Species.AddIndividual, List.mem_append, List.mem_singleton] at hgx
        rcases hgx with hgx | hgx
        · exact Or.inr ⟨sp, List.mem_cons_self _ _, hgx⟩
        · exact Or.inl hgx
      · exact Or.inr ⟨x, List.mem_cons_of_mem _ hx, hgx⟩
    · cases hrest : placeLoop E b rest with
      | none => simp [hrest] at h
      | some rest1 =>
        simp only [hrest, Option.some.injEq] at h
        subst h
        obtain ⟨x, hx, hgx⟩ := hg
        rcases List.mem_cons.mp hx with hx | hx
        · subst hx
          exact Or.inr ⟨_, List.mem_cons_self _ _, hgx⟩
        · rcases ih rest1 hrest ⟨x, hx, hgx⟩ with h1 | ⟨y, hy, hgy⟩
          · exact Or.inl h1
          · exact Or.inr ⟨y, List.mem_cons_of_mem _ hy, hgy⟩

/-- The placement step adds no genome but the baby to the next-generation list. -/
theorem placeBaby_held (E : Env G W) (b : Genome G) (pop : Population G) (w : W) (g : Genome G)
    (hg : ∃ sp ∈ (placeBaby E b pop w).1.m_TempSpecies, g ∈ sp.m_Individuals) :
    g = b ∨ ∃ sp ∈ pop.m_TempSpecies, g ∈ sp.m_Individuals := by
  have hpush : (∃ sp ∈ (pushNewSpecies E b pop w).1.m_TempSpecies, g ∈ sp.m_Individuals) →
      g = b ∨ ∃ sp ∈ pop.m_TempSpecies, g ∈ sp.m_Individuals := by
    rintro ⟨sp, hsp, hgsp⟩
    simp only [pushNewSpecies, Population.IncrementNextSpeciesID, List.mem_append,
      List.mem_singleton] at hsp
    rcases hsp with hsp | hsp
    · exact Or.inr ⟨sp, hsp, hgsp⟩
    · subst hsp
      simp only [Species.Species, List.mem_singleton] at hgsp
      exact Or.inl hgsp
  unfold placeBaby at hg
  split at hg
  · exact hpush hg
  · cases hloop : placeLoop E b pop.m_TempSpecies with
    | none =>
      rw [hloop] at hg
      exact hpush hg
    | some temp =>
      rw [hloop] at hg
      exact placeLoop_held E b _ _ hloop g hg

/-- The clone test is negative exactly when every genome held is at distance at least
`0.000001`. -/
theorem isCloneOfOffspring_false (E : Env G W) (t_baby : Genome G) (temp : List (Species G)) :
    isCloneOfOffspring E t_baby temp = false
      ↔ ∀ sp ∈ temp, ∀ g ∈ sp.m_Individuals, 1 / 1000000 ≤ E.CompatibilityDistance t_baby g := by
  simp [isCloneOfOffspring]

/-- A candidate that leaves the clone-avoidance loop passed the clone test. -/
theorem ReproduceRetry_not_clone (E : Env G W) (P : Parameters) (s : Species G)
    (pop : Population G) (fuel : Nat) (clone : Bool) (w : W) (cand : Genome G) (w1 : W)
    (h : ReproduceRetry E P s pop fuel clone w = some (cand, w1)) :
    ∀ sp ∈ pop.m_TempSpecies, ∀ g ∈ sp.m_Individuals,
      1 / 1000000 ≤ E.CompatibilityDistance cand g := by
  induction fuel generalizing clone w with
  | zero => simp [ReproduceRetry] at h
  | succ fuel ih =>
    rw [ReproduceRetry] at h
    split at h
    · exact absurd h (by simp)
    · rename_i t_baby w2 hatt
      split at h
      · exact ih _ _ h
      · rename_i hnot
        simp only [Option.some.injEq, Prod.mk.injEq] at h
        obtain ⟨h1, -⟩ := h
        subst h1
        exact (isCloneOfOffspring_false E _ _).mp (by simpa using hnot)

/-- A candidate too close to a genome already held is dropped: the loop goes round again
from the state the attempt left, with the clone flag set. -/
theorem ReproduceRetry_clone (E : Env G W) (P : Parameters) (s : Species G)
    (pop : Population G) (fuel : Nat) (clone : Bool) (w : W) (cand : Genome G) (w1 : W)
    (hatt : ReproduceAttempt E P s pop clone w = some (cand, w1))
    (hclose : ∃ sp ∈ pop.m_TempSpecies, ∃ g ∈ sp.m_Individuals,
      E.CompatibilityDistance cand g < 1 / 1000000) :
    ReproduceRetry E P s pop (fuel + 1) clone w = ReproduceRetry E P s pop fuel true w1 := by
  have hclone : isCloneOfOffspring E cand pop.m_TempSpecies = true := by
    by_contra hne
    have hf : isCloneOfOffspring E cand pop.m_TempSpecies = false := by simpa using hne
    obtain ⟨sp, hsp, g, hg, hlt⟩ := hclose
    exact absurd ((isCloneOfOffspring_false E _ _).mp hf sp hsp g hg) (not_le.mpr hlt)
  rw [ReproduceRetry, hatt]
  simp [hclone]

theorem finalizeBaby_congr (E : Env G W) (p1 p2 : Population G) (g : Genome G)
    (h : p1.m_NextGenomeID = p2.m_NextGenomeID) : finalizeBaby E p1 g = finalizeBaby E p2 g := by
  simp [finalizeBaby_eq, h]

/-- The loop of `Reproduce` after the champion: every baby it logs comes from a candidate
that was at distance at least `0.000001` from every genome the next-generation list held
at the start and from every baby logged before it. -/
theorem ReproduceLoop_no_clones (E : Env G W) (P : Parameters) (s : Species G)
    (fuel count : Nat) (pop : Population G) (w : W) (born : List (Genome G))
    (r : ReproduceResult G W)
    (h : ReproduceLoop E P s fuel count true pop w born = some r) :
    ∃ new : List (Genome G), r.born = born ++ new
      ∧ ∀ (k : Nat) (b : Genome G), new[k]? = some b →
          ∃ cand : Genome G,
            b = finalizeBaby E { pop with m_NextGenomeID := pop.m_NextGenomeID + (k : Int) } cand
            ∧ (∀ sp ∈ pop.m_TempSpecies, ∀ g ∈ sp.m_Individuals,
                1 / 1000000 ≤ E.CompatibilityDistance cand g)
            ∧ (∀ (j : Nat) (bj : Genome G), j < k → new[j]? = some bj →
                1 / 1000000 ≤ E.CompatibilityDistance cand bj) := by
  induction count generalizing pop w born with
  | zero =>
    simp only [ReproduceLoop, Option.some.injEq] at h
    subst h
    exact ⟨[], by simp, by simp⟩
  | succ count ih =>
    rw [ReproduceLoop] at h
    simp only [Bool.true_eq_false, if_false] at h
    split at h
    · exact absurd h (by simp)
    · rename_i t_baby w1 hcand
      obtain ⟨new1, hborn, hnew⟩ := ih _ _ _ h
      obtain ⟨-, -, q3, -, -, q6, q7⟩ :=
        placeBaby_spec E (finalizeBaby E pop t_baby) pop.IncrementNextGenomeID w1
      have hfar := ReproduceRetry_not_clone E P s pop fuel false w t_baby w1 hcand
      refine ⟨finalizeBaby E pop t_baby :: new1, by rw [hborn]; simp, ?_⟩
      intro k b hk
      cases k with
      | zero =>
        simp only [List.getElem?_cons_zero, Option.some.injEq] at hk
        refine ⟨t_baby, ?_, hfar, ?_⟩
        · rw [← hk]
          exact finalizeBaby_congr E _ _ _ (by simp)
        · intro j bj hj
          omega
      | succ k1 =>
        simp only [List.getElem?_cons_succ] at hk
        obtain ⟨cand, hb, hheld, hearlier⟩ := hnew k1 b hk
        refine ⟨cand, ?_, ?_, ?_⟩
        · rw [hb]
          apply finalizeBaby_congr
          rw [q3]
          simp only [Population.IncrementNextGenomeID]
          push_cast
          omega
        · intro sp hsp g hg
          obtain ⟨sp1, hsp1, hg1⟩ := q7 g ⟨sp, hsp, hg⟩
          exact hheld sp1 hsp1 g hg1
        · intro j bj hj hbj
          cases j with
          | zero =>
            simp only [List.getElem?_cons_zero, Option.some.injEq] at hbj
            subst hbj
            obtain ⟨sp1, hsp1, hg1⟩ := q6
            exact hheld sp1 hsp1 _ hg1
          | succ j1 =>
            simp only [List.getElem?_cons_succ] at hbj
            exact hearlier j1 bj (by omega) hbj

/-- The genomes the next-generation list holds after the loop of `Reproduce` are the ones
it held before and the logged babies. -/
theorem ReproduceLoop_held (E : Env G W) (P : Parameters) (s : Species G)
    (fuel count : Nat) (champ : Bool) (pop : Population G) (w : W) (born : List (Genome G))
    (r : ReproduceResult G W)
    (h : ReproduceLoop E P s fuel count champ pop w born = some r) (g : Genome G)
    (hg : ∃ sp ∈ r.pop.m_TempSpecies, g ∈ sp.m_Individuals) :
    (∃ sp ∈ pop.m_TempSpecies, g ∈ sp.m_Individuals) ∨ g ∈ r.born := by
  induction count generalizing champ pop w born with
  | zero =>
    simp only [ReproduceLoop, Option.some.injEq] at h
    subst h
    exact Or.inl hg
  | succ count ih =>
    have hspec := ReproduceLoop_spec E P s fuel _ _ _ _ _ _ h
    rw [ReproduceLoop] at h
    simp only at h
    split at h
    · exact absurd h (by simp)
    · rename_i t_baby w1 hcand
      obtain ⟨new1, hborn1, -⟩ := ReproduceLoop_spec E P s fuel _ _ _ _ _ _ h
      rcases ih _ _ _ _ h with hheld | hin
      · rcases placeBaby_held E _ _ _ g hheld with hb | hold
        · right
          rw [hborn1, hb]
          simp
        · exact Or.inl hold
      · exact Or.inr hin

/-- `Reproduce` with a count of at least 1: the finalised member 0 is placed, then the
loop runs the remaining passes. -/
theorem Reproduce_first_step (E : Env G W) (P : Parameters) (fuel : Nat) (s : Species G)
    (pop : Population G) (w : W) (g0 : Genome G)
    (hg0 : s.m_Individuals[0]? = some g0) (hcount : 1 ≤ Rounded s.m_OffspringRqd) :
    Reproduce E P fuel s pop w
      = ReproduceLoop E P s fuel ((Rounded s.m_OffspringRqd).toNat - 1) true
          (placeBaby E (finalizeBaby E pop g0) pop.IncrementNextGenomeID w).1
          (placeBaby E (finalizeBaby E pop g0) pop.IncrementNextGenomeID w).2
          [finalizeBaby E pop g0] := by
  rw [Reproduce_eq_loop E P fuel s pop w (by omega)]
  obtain ⟨n, hn⟩ : ∃ n, (Rounded s.m_OffspringRqd).toNat = n + 1 :=
    ⟨(Rounded s.m_OffspringRqd).toNat - 1, by omega⟩
  rw [hn, ReproduceLoop]
  simp [hg0]

/-- C12: on a run on which `Reproduce` returns, every logged baby other than the first
is the finalisation of a candidate that passed the clone test: the candidate was at
compatibility distance at least `0.000001` from every genome the next-generation list
held when the call started and from every baby placed before it in the call; those are
all the genomes the list held at that moment, since the genomes held at the end are the
ones held at the start and the logged babies. When the distance does not look at what
finalisation changes (ID, gene order, fitness and lifecycle fields) the same bounds hold
for the placed baby itself. A candidate at distance below `0.000001` from a genome held
is dropped and the loop goes round again with the clone flag set. -/
theorem Reproduce_no_clones (E : Env G W) (P : Parameters) (fuel : Nat) (s : Species G)
    (pop : Population G) (w : W) (r : ReproduceResult G W)
    (hret : Reproduce E P fuel s pop w = some r) :
    (∀ (k : Nat) (b : Genome G), 1 ≤ k → r.born[k]? = some b →
        ∃ cand : Genome G,
          b = finalizeBaby E { pop with m_NextGenomeID := pop.m_NextGenomeID + (k : Int) } cand
          ∧ (∀ sp ∈ pop.m_TempSpecies, ∀ g ∈ sp.m_Individuals,
              1 / 1000000 ≤ E.CompatibilityDistance cand g)
          ∧ (∀ (j : Nat) (bj : Genome G), j < k → r.born[j]? = some bj →
              1 / 1000000 ≤ E.CompatibilityDistance cand bj)
          ∧ ((∀ (p : Population G) (x y : Genome G),
                E.CompatibilityDistance (finalizeBaby E p x) y = E.CompatibilityDistance x y) →
              (∀ sp ∈ pop.m_TempSpecies, ∀ g ∈ sp.m_Individuals,
                1 / 1000000 ≤ E.CompatibilityDistance b g)
              ∧ (∀ (j : Nat) (bj : Genome G), j < k → r.born[j]? = some bj →
                1 / 1000000 ≤ E.CompatibilityDistance b bj)))
      ∧ (∀ g : Genome G, (∃ sp ∈ r.pop.m_TempSpecies, g ∈ sp.m_Individuals)
          ↔ ((∃ sp ∈ pop.m_TempSpecies, g ∈ sp.m_Individuals) ∨ g ∈ r.born))
      ∧ (∀ (pop1 : Population G) (fuel1 : Nat) (clone : Bool) (w0 : W) (cand : Genome G) (w1 : W),
          ReproduceAttempt E P s pop1 clone w0 = some (cand, w1) →
          (∃ sp ∈ pop1.m_TempSpecies, ∃ g ∈ sp.m_Individuals,
            E.CompatibilityDistance cand g < 1 / 1000000) →
          ReproduceRetry E P s pop1 (fuel1 + 1) clone w0
            = ReproduceRetry E P s pop1 fuel1 true w1) := by
  have hcount : 0 ≤ Rounded s.m_OffspringRqd := by
    by_contra hneg
    have hz : ¬ Rounded s.m_OffspringRqd = 0 := by omega
    have hlt : Rounded s.m_OffspringRqd < 0 := by omega
    simp [Reproduce, Species.GetOffspringRqd, hz, hlt] at hret
  refine ⟨?_, ?_, ?_⟩
  · intro k b hk hb
    have hpos : 1 ≤ Rounded s.m_OffspringRqd := by
      by_contra hlt
      have hz : Rounded s.m_OffspringRqd = 0 := by omega
      simp [Reproduce, Species.GetOffspringRqd, hz] at hret
      rw [← hret] at hb
      simp at hb
    cases hs : s.m_Individuals[0]? with
    | none =>
      rw [Reproduce_eq_loop E P fuel s pop w hcount] at hret
      obtain ⟨n, hn⟩ : ∃ n, (Rounded s.m_OffspringRqd).toNat = n + 1 :=
        ⟨(Rounded s.m_OffspringRqd).toNat - 1, by omega⟩
      rw [hn, ReproduceLoop] at hret
      simp [hs] at hret
    | some g0 =>
      rw [Reproduce_first_step E P fuel s pop w g0 hs hpos] at hret
      obtain ⟨new, hborn, hnew⟩ := ReproduceLoop_no_clones E P s fuel _ _ _ _ r hret
      obtain ⟨-, -, q3, -, -, q6, q7⟩ :=
        placeBaby_spec E (finalizeBaby E pop g0) pop.IncrementNextGenomeID w
      obtain ⟨k1, rfl⟩ : ∃ k1, k = k1 + 1 := ⟨k - 1, by omega⟩
      have hbk : new[k1]? = some b := by
        rw [hborn] at hb
        simpa using hb
      obtain ⟨cand, hfin, hheld, hearlier⟩ := hnew k1 b hbk
      have hheld0 : ∀ sp ∈ pop.m_TempSpecies, ∀ g ∈ sp.m_Individuals,
          1 / 1000000 ≤ E.CompatibilityDistance cand g := by
        intro sp hsp g hg
        obtain ⟨sp1, hsp1, hg1⟩ := q7 g ⟨sp, hsp, hg⟩
        exact hheld sp1 hsp1 g hg1
      have hearlier0 : ∀ (j : Nat) (bj : Genome G), j < k1 + 1 → r.born[j]? = some bj →
          1 / 1000000 ≤ E.CompatibilityDistance cand bj := by
        intro j bj hj hbj
        rw [hborn] at hbj
        cases j with
        | zero =>
          simp only [List.singleton_append, List.getElem?_cons_zero, Option.some.injEq] at hbj
          subst hbj
          obtain ⟨sp1, hsp1, hg1⟩ := q6
          exact hheld sp1 hsp1 _ hg1
        | succ j1 =>
          simp only [List.singleton_append, List.getElem?_cons_succ] at hbj
          exact hearlier j1 bj (by omega) hbj
      have hfin0 : b = finalizeBaby E
          { pop with m_NextGenomeID := pop.m_NextGenomeID + ((k1 + 1 : Nat) : Int) } cand := by
        rw [hfin]
        apply finalizeBaby_congr
        rw [q3]
        simp only [Population.IncrementNextGenomeID]
        push_cast
        omega
      refine ⟨cand, hfin0, hheld0, hearlier0, ?_⟩
      intro hinv
      constructor
      · intro sp hsp g hg
        rw [hfin0, hinv]
        exact hheld0 sp hsp g hg
      · intro j bj hj hbj
        rw [hfin0, hinv]
        exact hearlier0 j bj hj hbj
  · intro g
    have hloop := hret
    rw [Reproduce_eq_loop E P fuel s pop w hcount] at hloop
    obtain ⟨new, hborn, -, -, -, -, -, -, -, -, hmem, hkeep⟩ :=
      ReproduceLoop_spec E P s fuel _ _ _ _ _ _ hloop
    constructor
    · exact ReproduceLoop_held E P s fuel _ _ _ _ _ r hloop g
    · rintro (hold | hin)
      · exact hkeep g hold
      · rw [hborn] at hin
        exact hmem g (by simpa using hin)
  · intro pop1 fuel1 clone w0 cand w1 hatt hclose
    exact ReproduceRetry_clone E P s pop1 fuel1 clone w0 cand w1 hatt hclose

/-- Witness for C12: the sample run, whose environment measures the distance on the
gene numbers alone. -/
theorem Reproduce_no_clones_witness :
    ∃ r : ReproduceResult Nat Nat,
      Reproduce sampleEnv sampleParameters 5 parentSpecies parentPopulation 0 = some r
      ∧ (∀ (k : Nat) (b : Genome Nat), 1 ≤ k → r.born[k]? = some b →
          ∃ cand : Genome Nat,
            b = finalizeBaby sampleEnv
                { parentPopulation with
                    m_NextGenomeID := parentPopulation.m_NextGenomeID + (k : Int) } cand
            ∧ (∀ sp ∈ parentPopulation.m_TempSpecies, ∀ g ∈ sp.m_Individuals,
                1 / 1000000 ≤ sampleEnv.CompatibilityDistance cand g)
            ∧ (∀ (j : Nat) (bj : Genome Nat), j < k → r.born[j]? = some bj →
                1 / 1000000 ≤ sampleEnv.CompatibilityDistance cand bj)
            ∧ ((∀ (p : Population Nat) (x y : Genome Nat),
                  sampleEnv.CompatibilityDistance (finalizeBaby sampleEnv p x) y
                    = sampleEnv.CompatibilityDistance x y) →
                (∀ sp ∈ parentPopulation.m_TempSpecies, ∀ g ∈ sp.m_Individuals,
                  1 / 1000000 ≤ sampleEnv.CompatibilityDistance b g)
                ∧ (∀ (j : Nat) (bj : Genome Nat), j < k → r.born[j]? = some bj →
                  1 / 1000000 ≤ sampleEnv.CompatibilityDistance b bj)))
      ∧ (∀ (p : Population Nat) (x y : Genome Nat),
          sampleEnv.CompatibilityDistance (finalizeBaby sampleEnv p x) y
            = sampleEnv.CompatibilityDistance x y) :=
  match Option.isSome_iff_exists.mp parentRun_returns with
  | ⟨r, hr⟩ =>
    ⟨r, hr,
      (Reproduce_no_clones sampleEnv sampleParameters 5 parentSpecies parentPopulation 0 r hr).1,
      fun _ _ _ => rfl⟩

/-! ### The roulette wheel -/

theorem totalLoop_eq (v : List ℚ) (acc : ℚ) : totalLoop v acc = acc + v.sum := by
  induction v generalizing acc with
  | nil => simp [totalLoop]
  | cons p rest ih => simp [totalLoop, ih, add_assoc]

/-- The walk of a roulette wheel whose marble does not exceed the full sum stops after
`j` steps inside the vector, at the first point where the running sum reaches the
marble. -/
theorem rouletteWalk_spec (t_marble : ℚ) (rest : List ℚ) (t_spin : ℚ) (t_chosen_one : Nat)
    (h : t_marble ≤ t_spin + rest.sum) :
    ∃ j : Nat, j ≤ rest.length
      ∧ rouletteWalk t_marble rest t_spin t_chosen_one = some (t_chosen_one + j)
      ∧ t_marble ≤ t_spin + (rest.take j).sum
      ∧ ∀ i : Nat, i < j → t_spin + (rest.take i).sum < t_marble := by
  induction rest generalizing t_spin t_chosen_one with
  | nil =>
    have hnot : ¬ t_spin < t_marble := by simpa using h
    exact ⟨0, le_refl _, by simp [rouletteWalk, hnot], by simpa using h, by simp⟩
  | cons p rest ih =>
    by_cases hlt : t_spin < t_marble
    · obtain ⟨j, hj, hwalk, hreach, hbefore⟩ :=
        ih (t_spin + p) (t_chosen_one + 1) (by simpa [add_assoc] using h)
      refine ⟨j + 1, by simpa using hj, ?_, ?_, ?_⟩
      · rw [rouletteWalk, if_pos hlt, hwalk]
        congr 1
        omega
      · simpa [List.take_succ_cons, add_assoc] using hreach
      · intro i hi
        cases i with
        | zero => simpa using hlt
        | succ i1 =>
          have := hbefore i1 (by omega)
          simpa [List.take_succ_cons, add_assoc] using this
    · refine ⟨0, Nat.zero_le _, by simp [rouletteWalk, hlt], ?_, by simp⟩
      simpa using not_lt.mp hlt

/-- A roulette wheel over a non-empty vector `v` whose marble does not exceed the sum of
`v` stops at an index `k` inside `v`: the least `k` whose cumulative sum over the entries
`0..k` reaches the marble. -/
theorem roulette_spec (v : List ℚ) (t_marble : ℚ) (hne : v ≠ []) (h : t_marble ≤ v.sum) :
    ∃ k : Nat, k < v.length ∧ roulette v t_marble = some k
      ∧ t_marble ≤ (v.take (k + 1)).sum
      ∧ ∀ i : Nat, i < k → (v.take (i + 1)).sum < t_marble := by
  cases v with
  | nil => exact absurd rfl hne
  | cons p rest =>
    obtain ⟨j, hj, hwalk, hreach, hbefore⟩ :=
      rouletteWalk_spec t_marble rest p 0 (by simpa using h)
    refine ⟨j, by simpa using Nat.lt_succ_of_le hj, ?_, ?_, ?_⟩
    · simpa [roulette] using hwalk
    · simpa [List.take_succ_cons] using hreach
    · intro i hi
      simpa [List.take_succ_cons] using hbefore i hi

theorem scaled_le_total (u total : ℚ) (hu : u ≤ 1) (ht : 0 ≤ total) : u * total ≤ total := by
  nlinarith

/-! ### `GetIndividual` -/

theorem vectorAt_mem {α : Type} (v : List α) (i : Int) (x : α) (h : vectorAt v i = some x) :
    x ∈ v := by
  unfold vectorAt at h
  split at h
  · exact List.getElem?_mem h
  · exact absurd h (by simp)

/-- Whatever `GetIndividual` returns is an evaluated member of the species. -/
theorem GetIndividual_mem (E : Env G W) (P : Parameters) (s : Species G) (w : W)
    (g : Genome G) (w1 : W) (h : GetIndividual E P s w = some (g, w1)) :
    g ∈ s.m_Individuals ∧ g.IsEvaluated = true := by
  have key : g ∈ s.m_Individuals.filter (fun g => g.IsEvaluated) := by
    unfold GetIndividual at h
    simp only at h
    split at h
    · exact absurd h (by simp)
    · split at h
      · exact absurd h (by simp)
      · split at h
        · split at h
          · exact absurd h (by simp)
          · rename_i x hx
            simp only [Option.some.injEq, Prod.mk.injEq] at h
            rw [← h.1]
            exact List.getElem?_mem hx
        · split at h
          · split at h
            · exact absurd h (by simp)
            · rename_i x hx
              simp only [Option.some.injEq, Prod.mk.injEq] at h
              rw [← h.1]
              exact vectorAt_mem _ _ _ hx
          · split at h
            · exact absurd h (by simp)
            · split at h
              · exact absurd h (by simp)
              · rename_i x hx
                simp only [Option.some.injEq, Prod.mk.injEq] at h
                rw [← h.1]
                exact vectorAt_mem _ _ _ hx
  have := List.mem_filter.mp key
  exact ⟨this.1, by simpa using this.2⟩

theorem Rounded_unit (u : ℚ) (h0 : 0 ≤ u) (h1 : u ≤ 1) : Rounded u = 0 ∨ Rounded u = 1 := by
  unfold Rounded
  by_cases h : u < 1 / 2
  · left
    rw [Int.floor_eq_iff]
    constructor <;> push_cast <;> linarith
  · right
    rw [Int.floor_eq_iff]
    constructor <;> push_cast <;> linarith

/-- C17: what holds of `GetIndividual` and where it breaks. With no evaluated member it
fails; with exactly one it returns that member without a draw; with exactly two and a
draw in `[0,1]` it returns one of the two; and whatever it returns is an evaluated
member. But with three evaluated members, truncation selection and survival rate 0.7
the truncation size is 3, `RandInt(0, 3)` may return 3, and the read `t_Evaluated[3]` is
outside the pool: the call fails although the species has evaluated members. -/
theorem GetIndividual_evaluated (E : Env G W) (P : Parameters) (s : Species G) (w : W) :
    (s.m_Individuals.filter (fun g => g.IsEvaluated) = [] → GetIndividual E P s w = none)
      ∧ (∀ g : Genome G, s.m_Individuals.filter (fun g => g.IsEvaluated) = [g] →
          GetIndividual E P s w = some (g, w))
      ∧ (∀ g1 g2 : Genome G, s.m_Individuals.filter (fun g => g.IsEvaluated) = [g1, g2] →
          0 ≤ (E.RandFloat w).1 → (E.RandFloat w).1 ≤ 1 →
          GetIndividual E P s w = some (g1, (E.RandFloat w).2)
            ∨ GetIndividual E P s w = some (g2, (E.RandFloat w).2))
      ∧ (∀ (g : Genome G) (w1 : W), GetIndividual E P s w = some (g, w1) →
          g ∈ s.m_Individuals ∧ g.IsEvaluated = true)
      ∧ (evaluatedThree.m_Individuals.filter (fun g => g.IsEvaluated)).length = 3
      ∧ numParents truncationParameters 3 = 3
      ∧ GetIndividualChosen sampleEnv truncationParameters
          (evaluatedThree.m_Individuals.filter (fun g => g.IsEvaluated)) 2 = some (3, 4)
      ∧ GetIndividual sampleEnv truncationParameters evaluatedThree 2 = none := by
  refine ⟨?_, ?_, ?_, GetIndividual_mem E P s w, ?_, ?_, ?_, ?_⟩
  · intro h
    simp [GetIndividual, h]
  · intro g h
    have hne : ¬ s.m_Individuals.length = 0 := by
      intro h0
      rw [List.length_eq_zero.mp h0] at h
      simp at h
    simp [GetIndividual, h, hne]
  · intro g1 g2 h h0 h1
    have hne : ¬ s.m_Individuals.length = 0 := by
      intro hz
      rw [List.length_eq_zero.mp hz] at h
      simp at h
    rcases Rounded_unit _ h0 h1 with hr | hr
    · left
      simp [GetIndividual, h, hne, hr, vectorAt]
    · right
      simp [GetIndividual, h, hne, hr, vectorAt]
  · with_unfolding_all decide
  · rw [numParents_eq]
    norm_num [truncationParameters, sampleParameters]
  · with_unfolding_all decide
  · with_unfolding_all decide

/-- C18: with truncation selection and a positive truncation size the index
`GetIndividual` picks is whatever `RandInt(0, t_num_parents)` returns, the upper end
`t_num_parents` included. For three evaluated members and survival rate 0.7 the size is 3
and the draw 3 gives the index 3, which is not below the pool size 3, and
`GetIndividual` reads outside the pool. For four evaluated members of fitness 10, 7, 3, 1
and survival rate 0.5 the size is 3 and the draw 3 gives the index 3, which is inside the
pool but not among the top 3: the member of fitness 1 is returned. -/
theorem GetIndividual_truncation_index (E : Env G W) (P : Parameters)
    (t_Evaluated : List (Genome G)) (w : W) :
    (P.RouletteWheelSelection = false → 0 < numParents P t_Evaluated.length →
        GetIndividualChosen E P t_Evaluated w
          = some (E.RandInt 0 (numParents P t_Evaluated.length) (E.RandFloat w).2))
      ∧ numParents truncationParameters 3 = 3
      ∧ sampleEnv.RandInt 0 3 3 = (3, 4)
      ∧ GetIndividualChosen sampleEnv truncationParameters
          (evaluatedThree.m_Individuals.filter (fun g => g.IsEvaluated)) 2 = some (3, 4)
      ∧ (evaluatedThree.m_Individuals.filter (fun g => g.IsEvaluated)).length = 3
      ∧ GetIndividual sampleEnv truncationParameters evaluatedThree 2 = none
      ∧ numParents sampleParameters 4 = 3
      ∧ GetIndividualChosen sampleEnv sampleParameters
          (fourSpecies.m_Individuals.filter (fun g => g.IsEvaluated)) 2 = some (3, 4)
      ∧ (GetIndividual sampleEnv sampleParameters fourSpecies 2).map
          (fun r => r.1.GetFitness) = some 1 := by
  refine ⟨?_, ?_, ?_, ?_, ?_, ?_, ?_, ?_, ?_⟩
  · intro htrunc hpos
    have hnot : ¬ numParents P t_Evaluated.length ≤ 0 := not_le.mpr hpos
    simp [GetIndividualChosen, htrunc, hnot]
  · rw [numParents_eq]
    norm_num [truncationParameters, sampleParameters]
  · with_unfolding_all decide
  · with_unfolding_all decide
  · with_unfolding_all decide
  · with_unfolding_all decide
  · rw [numParents_eq]
    norm_num [sampleParameters]
  · with_unfolding_all decide
  · with_unfolding_all decide

/-- The scan of `GetLeader`: when no member beats the running maximum the index is kept;
otherwise the scan ends at the first position of the greatest fitness. -/
theorem GetLeaderLoop_spec (l : List (Genome G)) (i : Nat) (mx : ℚ) (idx : Int) :
    ((∀ g ∈ l, g.GetFitness ≤ mx) → GetLeaderLoop l i mx idx = idx)
      ∧ ((∃ g ∈ l, mx < g.GetFitness) →
          ∃ (k : Nat) (g : Genome G), l[k]? = some g
            ∧ GetLeaderLoop l i mx idx = ((i + k : Nat) : Int)
            ∧ mx < g.GetFitness
            ∧ (∀ x ∈ l, x.GetFitness ≤ g.GetFitness)
            ∧ ∀ (j : Nat) (x : Genome G), j < k → l[j]? = some x →
                x.GetFitness < g.GetFitness) := by
  induction l generalizing i mx idx with
  | nil => simp [GetLeaderLoop]
  | cons a rest ih =>
    constructor
    · intro hall
      have ha : ¬ mx < a.GetFitness := not_lt.mpr (hall a (List.mem_cons_self _ _))
      rw [GetLeaderLoop, if_neg ha]
      exact (ih (i + 1) mx idx).1 (fun g hg => hall g (List.mem_cons_of_mem _ hg))
    · rintro ⟨g0, hg0, hlt0⟩
      by_cases ha : mx < a.GetFitness
      · rw [GetLeaderLoop, if_pos ha]
        by_cases hrest : ∃ g ∈ rest, a.GetFitness < g.GetFitness
        · obtain ⟨k, g, hk, hloop, hgt, hmax, hfirst⟩ := (ih (i + 1) a.GetFitness i).2 hrest
          refine ⟨k + 1, g, by simpa using hk, ?_, lt_trans ha hgt, ?_, ?_⟩
          · rw [hloop]
            push_cast
            omega
          · intro x hx
            rcases List.mem_cons.mp hx with hx | hx
            · rw [hx]; exact le_of_lt hgt
            · exact hmax x hx
          · intro j x hj hx
            cases j with
            | zero =>
              simp only [List.getElem?_cons_zero, Option.some.injEq] at hx
              rw [← hx]; exact hgt
            | succ j1 =>
              simp only [List.getElem?_cons_succ] at hx
              exact hfirst j1 x (by omega) hx
        · have hall : ∀ g ∈ rest, g.GetFitness ≤ a.GetFitness := by
            intro g hg
            by_contra hgt
            exact hrest ⟨g, hg, not_le.mp hgt⟩
          refine ⟨0, a, by simp, ?_, ha, ?_, ?_⟩
          · rw [(ih (i + 1) a.GetFitness i).1 hall]
            simp
          · intro x hx
            rcases List.mem_cons.mp hx with hx | hx
            · rw [hx]
            · exact hall x hx
          · intro j x hj
            omega
      · rw [GetLeaderLoop, if_neg ha]
        have hrest : ∃ g ∈ rest, mx < g.GetFitness := by
          rcases List.mem_cons.mp hg0 with h | h
          · rw [h] at hlt0
            exact absurd hlt0 ha
          · exact ⟨g0, h, hlt0⟩
        obtain ⟨k, g, hk, hloop, hgt, hmax, hfirst⟩ := (ih (i + 1) mx idx).2 hrest
        have hag : a.GetFitness < g.GetFitness := lt_of_le_of_lt (not_lt.mp ha) hgt
        refine ⟨k + 1, g, by simpa using hk, ?_, hgt, ?_, ?_⟩
        · rw [hloop]
          push_cast
          omega
        · intro x hx
          rcases List.mem_cons.mp hx with hx | hx
          · rw [hx]; exact le_of_lt hag
          · exact hmax x hx
        · intro j x hj hx
          cases j with
          | zero =>
            simp only [List.getElem?_cons_zero, Option.some.injEq] at hx
            rw [← hx]; exact hag
          | succ j1 =>
            simp only [List.getElem?_cons_succ] at hx
            exact hfirst j1 x (by omega) hx

/-- C16: what `GetLeader` returns and where it breaks. It returns the representative
when the species has no members, and when some member has raw fitness above -99999999
it returns the member at the lowest index among those whose raw fitness is maximal over
all members (no member is fitter and every earlier member is strictly less fit); with
the fitnesses 3, 10, 10, 7 that is the member at index 1. But the scan starts from the
constant -99999999 and not from the first member: when the species has members and none
has raw fitness above that constant, no member beats the running maximum, the index
stays -1 and `ASSERT(t_leader_idx != -1)` fails. The species whose only member has raw
fitness -100000000 has a most fit member at index 0, and `GetLeader` does not return
it. -/
theorem GetLeader_first_max (s : Species G) :
    (s.m_Individuals = [] → GetLeader s = some s.m_Representative)
      ∧ ((∃ g ∈ s.m_Individuals, -99999999 < g.GetFitness) →
          ∃ (k : Nat) (g : Genome G), s.m_Individuals[k]? = some g
            ∧ GetLeader s = some g
            ∧ (∀ x ∈ s.m_Individuals, x.GetFitness ≤ g.GetFitness)
            ∧ ∀ (j : Nat) (x : Genome G), j < k → s.m_Individuals[j]? = some x →
                x.GetFitness < g.GetFitness)
      ∧ (s.m_Individuals ≠ [] → (∀ g ∈ s.m_Individuals, g.GetFitness ≤ -99999999) →
          GetLeader s = none)
      ∧ GetLeader tiedSpecies = some (sampleGenome 2 10 0)
      ∧ sunkSpecies.m_Individuals = [sampleGenome 1 (-100000000) 0]
      ∧ (∀ x ∈ sunkSpecies.m_Individuals,
          x.GetFitness ≤ (sampleGenome 1 (-100000000) 0).GetFitness)
      ∧ GetLeaderLoop sunkSpecies.m_Individuals 0 (-99999999) (-1) = -1
      ∧ GetLeader sunkSpecies = none := by
  refine ⟨?_, ?_, ?_, ?_, rfl, ?_, ?_, ?_⟩
  · intro h
    simp [GetLeader, h]
  · rintro ⟨g0, hg0, hlt0⟩
    have hne : ¬ s.m_Individuals.length = 0 := by
      intro h
      rw [List.length_eq_zero.mp h] at hg0
      simp at hg0
    obtain ⟨k, g, hk, hloop, -, hmax, hfirst⟩ :=
      (GetLeaderLoop_spec s.m_Individuals 0 (-99999999) (-1)).2 ⟨g0, hg0, hlt0⟩
    refine ⟨k, g, hk, ?_, hmax, hfirst⟩
    have hidx : ¬ (((0 + k : Nat) : Int) = -1) := by omega
    simp only [GetLeader, hne, if_false, hloop, hidx]
    simp [vectorAt, hk]
  · intro hne hall
    have hlen : ¬ s.m_Individuals.length = 0 := by
      intro h
      exact hne (List.length_eq_zero.mp h)
    have hloop := (GetLeaderLoop_spec s.m_Individuals 0 (-99999999) (-1)).1 hall
    simp [GetLeader, hlen, hloop]
  · norm_num [tiedSpecies, sampleSpecies, sampleGenome, GetLeader, GetLeaderLoop,
      Genome.GetFitness, vectorAt]
  · intro x hx
    simp only [sunkSpecies, sampleSpecies, List.mem_singleton] at hx
    rw [hx]
  · norm_num [sunkSpecies, sampleSpecies, sampleGenome, GetLeaderLoop, Genome.GetFitness]
  · norm_num [sunkSpecies, sampleSpecies, sampleGenome, GetLeader, GetLeaderLoop,
      Genome.GetFitness]

/-! ### `CalculateAverageFitness` -/

theorem CalculateAverageFitnessLoop_eq (l : List (Genome G)) (t : ℚ) (n : Int) :
    CalculateAverageFitnessLoop l t n
      = (t + ((l.filter (fun g => g.m_Evaluated)).map Genome.GetFitness).sum,
          n + ((l.filter (fun g => g.m_Evaluated)).length : Int)) := by
  induction l generalizing t n with
  | nil => simp [CalculateAverageFitnessLoop]
  | cons g rest ih =>
    by_cases hg : g.m_Evaluated = true
    · rw [CalculateAverageFitnessLoop, if_pos hg, ih]
      simp [hg, add_assoc]
      omega
    · rw [CalculateAverageFitnessLoop, if_neg hg, ih]
      simp [hg]

/-- `CalculateAverageFitness` in closed form. -/
theorem CalculateAverageFitness_eq (t : Species G) :
    CalculateAverageFitness t
      = { t with m_AverageFitness :=
            if (t.m_Individuals.filter (fun g => g.m_Evaluated)).length = 0 then 0
            else ((t.m_Individuals.filter (fun g => g.m_Evaluated)).map Genome.GetFitness).sum
              / ((t.m_Individuals.filter (fun g => g.m_Evaluated)).length : ℚ) } := by
  unfold CalculateAverageFitness
  simp only [CalculateAverageFitnessLoop_eq, zero_add]
  by_cases hnil : (t.m_Individuals.filter (fun g => g.m_Evaluated)).length = 0
  · simp [hnil]
  · have hpos : 0 < (t.m_Individuals.filter (fun g => g.m_Evaluated)).length := by omega
    have hgt : ((t.m_Individuals.filter (fun g => g.m_Evaluated)).length : Int) > 0 := by
      exact_mod_cast hpos
    simp only [hgt, if_true, hnil, if_false]
    norm_cast

/-- C20: `CalculateAverageFitness` changes only `m_AverageFitness`, which becomes the sum
of the raw fitness of the evaluated members divided by their number, and exactly 0 when
no member is evaluated; the value does not depend on the `m_AverageFitness` held before,
so a second call changes nothing. For the fitnesses 10, 7, 3, 1 with the second member
not evaluated the average is 14/3. -/
theorem CalculateAverageFitness_mean (s : Species G) (x : ℚ) :
    CalculateAverageFitness s
        = { s with m_AverageFitness :=
              if (s.m_Individuals.filter (fun g => g.m_Evaluated)).length = 0 then 0
              else ((s.m_Individuals.filter (fun g => g.m_Evaluated)).map Genome.GetFitness).sum
                / ((s.m_Individuals.filter (fun g => g.m_Evaluated)).length : ℚ) }
      ∧ (s.m_Individuals.filter (fun g => g.m_Evaluated) = [] →
          (CalculateAverageFitness s).m_AverageFitness = 0)
      ∧ (CalculateAverageFitness { s with m_AverageFitness := x }).m_AverageFitness
          = (CalculateAverageFitness s).m_AverageFitness
      ∧ CalculateAverageFitness (CalculateAverageFitness s) = CalculateAverageFitness s
      ∧ (CalculateAverageFitness partlyEvaluatedSpecies).m_AverageFitness = 14 / 3 := by
  refine ⟨CalculateAverageFitness_eq s, ?_, ?_, ?_, ?_⟩
  · intro hnil
    rw [CalculateAverageFitness_eq s]
    simp [hnil]
  · rw [CalculateAverageFitness_eq, CalculateAverageFitness_eq]
  · rw [CalculateAverageFitness_eq s, CalculateAverageFitness_eq]
  · rw [CalculateAverageFitness_eq]
    norm_num [partlyEvaluatedSpecies, sampleSpecies, sampleGenome, Genome.ResetEvaluated,
      Genome.GetFitness]

/-! ### `MutateGenome` -/

theorem zeroProbability_nonneg (i : Nat) (ms : List Mutation)
    (h : ∀ m ∈ ms, 0 ≤ m.Probability) : ∀ m ∈ zeroProbability i ms, 0 ≤ m.Probability := by
  induction ms generalizing i with
  | nil => simp [zeroProbability]
  | cons a rest ih =>
    cases i with
    | zero =>
      intro m hm
      simp only [zeroProbability, List.mem_cons] at hm
      rcases hm with hm | hm
      · rw [hm]
      · exact h m (List.mem_cons_of_mem _ hm)
    | succ i1 =>
      intro m hm
      simp only [zeroProbability, List.mem_cons] at hm
      rcases hm with hm | hm
      · rw [hm]; exact h a (List.mem_cons_self _ _)
      · exact ih i1 (fun x hx => h x (List.mem_cons_of_mem _ hx)) m hm

theorem maskMutations_nonneg (mode : SearchMode) (clone : Bool) (ms : List Mutation)
    (h : ∀ m ∈ ms, 0 ≤ m.Probability) :
    ∀ m ∈ maskMutations mode clone ms, 0 ≤ m.Probability := by
  unfold maskMutations
  simp only
  split <;> split <;>
    first
      | exact h
      | exact zeroProbability_nonneg _ _ (zeroProbability_nonneg _ _ h)
      | exact zeroProbability_nonneg _ _ (zeroProbability_nonneg _ _
          (zeroProbability_nonneg _ _ (zeroProbability_nonneg _ _ h)))

/-- After the masking of the Simplifying phase or of the clone flag, add-node and
add-link have probability 0. -/
theorem maskMutations_add_zero (P : Parameters) (mode : SearchMode) (clone : Bool)
    (h : mode = SearchMode.SIMPLIFYING ∨ clone = true) :
    ∀ m ∈ maskMutations mode clone (initialMutations P),
      m.MutationType = MutationTypes.ADD_NODE ∨ m.MutationType = MutationTypes.ADD_LINK →
      m.Probability = 0 := by
  intro m hm ht
  cases mode <;> cases clone <;>
    simp [maskMutations, initialMutations, zeroProbability] at h hm <;>
    rcases hm with hm | hm | hm | hm | hm | hm | hm | hm | hm | hm <;>
    subst hm <;> simp at ht ⊢

/-- After the masking of the Complexifying phase or of the clone flag, remove-node and
remove-link have probability 0. -/
theorem maskMutations_remove_zero (P : Parameters) (mode : SearchMode) (clone : Bool)
    (h : mode = SearchMode.COMPLEXIFYING ∨ clone = true) :
    ∀ m ∈ maskMutations mode clone (initialMutations P),
      m.MutationType = MutationTypes.REMOVE_NODE ∨ m.MutationType = MutationTypes.REMOVE_LINK →
      m.Probability = 0 := by
  intro m hm ht
  cases mode <;> cases clone <;>
    simp [maskMutations, initialMutations, zeroProbability] at h hm <;>
    rcases hm with hm | hm | hm | hm | hm | hm | hm | hm | hm | hm <;>
    subst hm <;> simp at ht ⊢

/-- In a vector sorted by `MutationBigger` whose probabilities are not negative and sum
to a positive number, the first entry has positive probability. -/
theorem sorted_head_positive (ms : List Mutation)
    (hsorted : ms.Pairwise (fun a b => MutationBigger b a = false))
    (hnonneg : ∀ m ∈ ms, 0 ≤ m.Probability)
    (hsum : 0 < (ms.map Mutation.Probability).sum) :
    ∃ (m : Mutation) (rest : List Mutation), ms = m :: rest ∧ 0 < m.Probability := by
  cases ms with
  | nil => simp at hsum
  | cons a rest =>
    refine ⟨a, rest, rfl, ?_⟩
    by_contra hle
    have ha : a.Probability = 0 :=
      le_antisymm (not_lt.mp hle) (hnonneg a (List.mem_cons_self _ _))
    have hrest : ∀ x ∈ rest, x.Probability = 0 := by
      intro x hx
      have hle2 : x.Probability ≤ a.Probability := by
        have := (List.pairwise_cons.mp hsorted).1 x hx
        simpa [MutationBigger] using this
      exact le_antisymm (by rw [ha] at hle2; exact hle2) (hnonneg x (List.mem_cons_of_mem _ hx))
    have hzero : ((a :: rest).map Mutation.Probability).sum = 0 := by
      apply List.sum_eq_zero
      intro p hp
      obtain ⟨x, hx, rfl⟩ := List.mem_map.mp hp
      rcases List.mem_cons.mp hx with h | h
      · rw [h]; exact ha
      · exact hrest x h
    rw [hzero] at hsum
    exact lt_irrefl _ hsum

/-- When the masked probabilities are not negative and sum to a positive number and the
draw is at most 1, `MutateGenome` chooses, under the contract of `std::sort`, an entry
of the masked vector at an index inside it, and that entry has positive probability; so
it chooses none of the operators the masking set to 0. -/
theorem chooseMutation_positive (E : Env G W) (hE : StdSortContract E) (P : Parameters)
    (clone : Bool) (mode : SearchMode) (w : W)
    (hprob : ∀ m ∈ initialMutations P, 0 ≤ m.Probability)
    (hu1 : (E.RandFloat w).1 ≤ 1)
    (htotal :
      0 < ((maskMutations mode clone (initialMutations P)).map Mutation.Probability).sum) :
    ∃ (k : Nat) (m : Mutation),
      k < (E.sortMutations (maskMutations mode clone (initialMutations P))).length
      ∧ (E.sortMutations (maskMutations mode clone (initialMutations P)))[k]? = some m
      ∧ m ∈ maskMutations mode clone (initialMutations P)
      ∧ 0 < m.Probability
      ∧ chooseMutation E P clone mode w = some (m.MutationType, (E.RandFloat w).2) := by
  have hperm := hE.mutations_perm (maskMutations mode clone (initialMutations P))
  have hsorted := hE.mutations_sorted (maskMutations mode clone (initialMutations P))
  have hnn := maskMutations_nonneg mode clone (initialMutations P) hprob
  generalize hM : E.sortMutations (maskMutations mode clone (initialMutations P)) = M at *
  have hnnM : ∀ m ∈ M, 0 ≤ m.Probability := fun m hm => hnn m (hperm.subset hm)
  have hsumM : (M.map Mutation.Probability).sum
      = ((maskMutations mode clone (initialMutations P)).map Mutation.Probability).sum :=
    (hperm.map _).sum_eq
  have hpos : 0 < (M.map Mutation.Probability).sum := by rw [hsumM]; exact htotal
  have hne : M.map Mutation.Probability ≠ [] := by
    intro h
    rw [h] at hpos
    simp at hpos
  obtain ⟨k, hk, hroulette, hreach, hbefore⟩ :=
    roulette_spec (M.map Mutation.Probability)
      ((E.RandFloat w).1 * (M.map Mutation.Probability).sum) hne
      (scaled_le_total _ _ hu1 (le_of_lt hpos))
  have hk2 : k < M.length := by simpa using hk
  have hchoose : chooseMutation E P clone mode w
      = some ((M[k]).MutationType, (E.RandFloat w).2) := by
    simp [chooseMutation, hM, totalLoop_eq, hroulette, List.getElem?_eq_getElem hk2]
  refine ⟨k, M[k], hk2, List.getElem?_eq_getElem hk2, hperm.subset (List.getElem_mem _), ?_,
    hchoose⟩
  cases k with
  | zero =>
    obtain ⟨m0, rest, hMeq, hm0⟩ := sorted_head_positive M hsorted hnnM hpos
    subst hMeq
    simpa using hm0
  | succ k1 =>
    have hprev := hbefore k1 (Nat.lt_succ_self _)
    have hsplit : ((M.map Mutation.Probability).take (k1 + 1 + 1)).sum
        = ((M.map Mutation.Probability).take (k1 + 1)).sum + (M[k1 + 1]).Probability := by
      rw [List.take_succ (n := k1 + 1)]
      simp [List.getElem?_eq_getElem hk2]
    rw [hsplit] at hreach
    linarith

/-- Under the contract of `std::sort`, with non-negative probabilities whose masked sum
is positive and a draw of at most 1, the operator `MutateGenome` chooses is not add-node
or add-link in the Simplifying phase or with the clone flag set, and not remove-node or
remove-link in the Complexifying phase or with the clone flag set. -/
theorem chooseMutation_respects_mask (E : Env G W) (hE : StdSortContract E) (P : Parameters)
    (clone : Bool) (mode : SearchMode) (w : W)
    (hprob : ∀ m ∈ initialMutations P, 0 ≤ m.Probability)
    (hu1 : (E.RandFloat w).1 ≤ 1)
    (htotal :
      0 < ((maskMutations mode clone (initialMutations P)).map Mutation.Probability).sum) :
    ∃ t : MutationTypes, chooseMutation E P clone mode w = some (t, (E.RandFloat w).2)
      ∧ (mode = SearchMode.SIMPLIFYING ∨ clone = true →
          t ≠ MutationTypes.ADD_NODE ∧ t ≠ MutationTypes.ADD_LINK)
      ∧ (mode = SearchMode.COMPLEXIFYING ∨ clone = true →
          t ≠ MutationTypes.REMOVE_NODE ∧ t ≠ MutationTypes.REMOVE_LINK) := by
  obtain ⟨k, m, -, -, hmem, hpos, hchoose⟩ :=
    chooseMutation_positive E hE P clone mode w hprob hu1 htotal
  refine ⟨m.MutationType, hchoose, ?_, ?_⟩
  · intro h
    constructor
    · intro ht
      have := maskMutations_add_zero P mode clone h m hmem (Or.inl ht)
      rw [this] at hpos
      exact lt_irrefl _ hpos
    · intro ht
      have := maskMutations_add_zero P mode clone h m hmem (Or.inr ht)
      rw [this] at hpos
      exact lt_irrefl _ hpos
  · intro h
    constructor
    · intro ht
      have := maskMutations_remove_zero P mode clone h m hmem (Or.inl ht)
      rw [this] at hpos
      exact lt_irrefl _ hpos
    · intro ht
      have := maskMutations_remove_zero P mode clone h m hmem (Or.inr ht)
      rw [this] at hpos
      exact lt_irrefl _ hpos

/-- C13: where the code departs from the claim. When add-node is the only operator with
a positive probability, the masking of the Simplifying phase leaves ten probabilities
of 0; the total and the marble are 0, the walk stops at index 0, and the sort, which
does not move equal entries, has left add-node there: `MutateGenome` chooses add-node in
the Simplifying phase and applies `Mutate_AddNeuron`. The same happens with the clone
flag set in the Complexifying phase. -/
theorem MutateGenome_masked_selection :
    (maskMutations SearchMode.SIMPLIFYING false (initialMutations onlyAddNodeParameters)).map
        Mutation.Probability = [0, 0, 0, 0, 0, 0, 0, 0, 0, 0]
      ∧ (sampleEnv.sortMutations
            (maskMutations SearchMode.SIMPLIFYING false
              (initialMutations onlyAddNodeParameters)))[0]?.map Mutation.MutationType
          = some MutationTypes.ADD_NODE
      ∧ chooseMutation sampleEnv onlyAddNodeParameters false SearchMode.SIMPLIFYING 0
          = some (MutationTypes.ADD_NODE, 1)
      ∧ MutateGenome sampleEnv onlyAddNodeParameters false simplifyingPopulation
          (sampleGenome 3 0 0) 0
          = some (sampleEnv.Mutate_AddNeuron (sampleGenome 3 0 0) 1)
      ∧ chooseMutation sampleEnv onlyAddNodeParameters true SearchMode.COMPLEXIFYING 0
          = some (MutationTypes.ADD_NODE, 1) := by
  refine ⟨?_, ?_, ?_, ?_, ?_⟩ <;> with_unfolding_all decide

/-- The `do ... while` of the remove-link case entered with `t_tries = n + 1` makes at
most `n` attempts. -/
theorem RemoveLinkLoop_eq (E : Env G W) (t_baby : Genome G) (n : Nat) (w : W) :
    RemoveLinkLoop E t_baby (n + 1) w = firstGoodAttempt E t_baby n w := by
  induction n generalizing w with
  | zero => simp [RemoveLinkLoop, firstGoodAttempt]
  | succ n ih =>
    rw [RemoveLinkLoop, firstGoodAttempt]
    by_cases hbad : E.NumLinks (E.Mutate_RemoveLink t_baby w).1 = 0
        ∨ E.HasDeadEnds (E.Mutate_RemoveLink t_baby w).1 = true
    · have hnot : ¬ (E.NumLinks (E.Mutate_RemoveLink t_baby w).1 ≠ 0
          ∧ E.HasDeadEnds (E.Mutate_RemoveLink t_baby w).1 = false) := by
        rintro ⟨h1, h2⟩
        rcases hbad with h | h
        · exact h1 h
        · rw [h2] at h
          exact absurd h (by simp)
      rw [if_pos hbad, if_neg hnot, ih]
    · have hgood : E.NumLinks (E.Mutate_RemoveLink t_baby w).1 ≠ 0
          ∧ E.HasDeadEnds (E.Mutate_RemoveLink t_baby w).1 = false := by
        constructor
        · intro h
          exact hbad (Or.inl h)
        · cases hd : E.HasDeadEnds (E.Mutate_RemoveLink t_baby w).1 with
          | false => rfl
          | true => exact absurd (Or.inr hd) hbad
      rw [if_neg hbad, if_pos hgood]

/-- The result of `n` speculative attempts is the unmutated input or an attempt with at
least one link and no dead ends. -/
theorem firstGoodAttempt_cases (E : Env G W) (t_baby : Genome G) (n : Nat) (w : W) :
    (firstGoodAttempt E t_baby n w).1 = t_baby
      ∨ (∃ w0 : W, firstGoodAttempt E t_baby n w = E.Mutate_RemoveLink t_baby w0
          ∧ E.NumLinks (E.Mutate_RemoveLink t_baby w0).1 ≠ 0
          ∧ E.HasDeadEnds (E.Mutate_RemoveLink t_baby w0).1 = false) := by
  induction n generalizing w with
  | zero => left; rfl
  | succ n ih =>
    rw [firstGoodAttempt]
    split
    · rename_i hgood
      right
      exact ⟨w, rfl, hgood.1, hgood.2⟩
    · exact ih _

/-- When every attempt fails, the result of `n` speculative attempts is the unmutated
input. -/
theorem firstGoodAttempt_all_fail (E : Env G W) (t_baby : Genome G) (n : Nat) (w : W)
    (hfail : ∀ w0 : W, E.NumLinks (E.Mutate_RemoveLink t_baby w0).1 = 0
      ∨ E.HasDeadEnds (E.Mutate_RemoveLink t_baby w0).1 = true) :
    (firstGoodAttempt E t_baby n w).1 = t_baby := by
  induction n generalizing w with
  | zero => rfl
  | succ n ih =>
    rw [firstGoodAttempt]
    split
    · rename_i hgood
      rcases hfail w with h | h
      · exact absurd h hgood.1
      · rw [hgood.2] at h
        exact absurd h (by simp)
    · exact ih _

/-- C14 as stated fails. In the sample environment remove-link takes 5 from the gene
number, which is also the link count; on a genome with gene number 3 every attempt
leaves no link. With remove-link chosen, `MutateGenome` then returns the unmutated
input, gene number 3, not the last attempt, gene number 0; the shared state shows that
127 attempts were made after the draw of the marble, not 128. -/
theorem MutateGenome_remove_link_counterexample :
    chooseMutation sampleEnv onlyRemoveLinkParameters false SearchMode.SIMPLIFYING 0
        = some (MutationTypes.REMOVE_LINK, 1)
      ∧ (sampleEnv.Mutate_RemoveLink (sampleGenome 3 0 0) 1).1.m_Genes = 0
      ∧ MutateGenome sampleEnv onlyRemoveLinkParameters false simplifyingPopulation
          (sampleGenome 3 0 0) 0 = some (sampleGenome 3 0 0, 128) := by
  have hsel : chooseMutation sampleEnv onlyRemoveLinkParameters false SearchMode.SIMPLIFYING 0
      = some (MutationTypes.REMOVE_LINK, 1) := by
    with_unfolding_all decide
  refine ⟨hsel, rfl, ?_⟩
  have hloop : ∀ (n w : Nat),
      firstGoodAttempt sampleEnv (sampleGenome 3 0 0) n w = (sampleGenome 3 0 0, w + n) := by
    intro n
    induction n with
    | zero => intro w; rfl
    | succ n ih =>
      intro w
      rw [firstGoodAttempt]
      have hbad : ¬ (sampleEnv.NumLinks (sampleEnv.Mutate_RemoveLink (sampleGenome 3 0 0) w).1 ≠ 0
          ∧ sampleEnv.HasDeadEnds (sampleEnv.Mutate_RemoveLink (sampleGenome 3 0 0) w).1
            = false) := by
        simp [sampleEnv, sampleGenome]
      simp only [hbad, if_false]
      rw [show (sampleEnv.Mutate_RemoveLink (sampleGenome 3 0 0) w).2 = w + 1 from rfl, ih]
      congr 1
      omega
  have hpop : simplifyingPopulation.GetSearchMode = SearchMode.SIMPLIFYING := rfl
  simp only [MutateGenome, hpop, hsel, applyMutation]
  rw [RemoveLinkLoop_eq, hloop]

/-- C14, amended: when `MutateGenome` chooses remove-link it applies `Mutate_RemoveLink`
to a fresh copy of the input genome up to 127 times; the result is the first attempt
that has at least one link and no dead ends, or, when all 127 attempts fail, the
unmutated input. So the result is always the input itself or an attempt that passed both
tests, and it is the input whenever no attempt can pass. -/
theorem MutateGenome_remove_link (E : Env G W) (P : Parameters) (clone : Bool)
    (pop : Population G) (t_baby : Genome G) (w w1 : W)
    (hsel : chooseMutation E P clone pop.GetSearchMode w
      = some (MutationTypes.REMOVE_LINK, w1)) :
    MutateGenome E P clone pop t_baby w = some (firstGoodAttempt E t_baby 127 w1)
      ∧ ((firstGoodAttempt E t_baby 127 w1).1 = t_baby
          ∨ (∃ w0 : W, firstGoodAttempt E t_baby 127 w1 = E.Mutate_RemoveLink t_baby w0
              ∧ E.NumLinks (E.Mutate_RemoveLink t_baby w0).1 ≠ 0
              ∧ E.HasDeadEnds (E.Mutate_RemoveLink t_baby w0).1 = false))
      ∧ ((E.NumLinks (E.Mutate_RemoveLink t_baby w1).1 ≠ 0
            ∧ E.HasDeadEnds (E.Mutate_RemoveLink t_baby w1).1 = false) →
          firstGoodAttempt E t_baby 127 w1 = E.Mutate_RemoveLink t_baby w1)
      ∧ ((∀ w0 : W, E.NumLinks (E.Mutate_RemoveLink t_baby w0).1 = 0
            ∨ E.HasDeadEnds (E.Mutate_RemoveLink t_baby w0).1 = true) →
          (firstGoodAttempt E t_baby 127 w1).1 = t_baby) := by
  refine ⟨?_, firstGoodAttempt_cases E t_baby 127 w1, ?_, firstGoodAttempt_all_fail E t_baby 127 w1⟩
  · simp only [MutateGenome, hsel, applyMutation]
    rw [RemoveLinkLoop_eq]
  · intro hgood
    rw [firstGoodAttempt]
    simp [hgood]

/-- Witness for the amended C14: on a genome with gene number 20 the first attempt
leaves 15 links and is the result. -/
theorem MutateGenome_remove_link_witness :
    MutateGenome sampleEnv onlyRemoveLinkParameters false simplifyingPopulation
        (sampleGenome 20 0 0) 0
      = some ({ sampleGenome 20 0 0 with m_Genes := 15 }, 2)
    ∧ MutateGenome sampleEnv onlyRemoveLinkParameters false simplifyingPopulation
        (sampleGenome 20 0 0) 0
      = some (firstGoodAttempt sampleEnv (sampleGenome 20 0 0) 127 1)
    ∧ ((firstGoodAttempt sampleEnv (sampleGenome 20 0 0) 127 1).1 = sampleGenome 20 0 0
        ∨ (∃ w0 : Nat, firstGoodAttempt sampleEnv (sampleGenome 20 0 0) 127 1
              = sampleEnv.Mutate_RemoveLink (sampleGenome 20 0 0) w0
            ∧ sampleEnv.NumLinks (sampleEnv.Mutate_RemoveLink (sampleGenome 20 0 0) w0).1 ≠ 0
            ∧ sampleEnv.HasDeadEnds (sampleEnv.Mutate_RemoveLink (sampleGenome 20 0 0) w0).1
              = false))
    ∧ ((sampleEnv.NumLinks (sampleEnv.Mutate_RemoveLink (sampleGenome 20 0 0) 1).1 ≠ 0
          ∧ sampleEnv.HasDeadEnds (sampleEnv.Mutate_RemoveLink (sampleGenome 20 0 0) 1).1
            = false) →
        firstGoodAttempt sampleEnv (sampleGenome 20 0 0) 127 1
          = sampleEnv.Mutate_RemoveLink (sampleGenome 20 0 0) 1)
    ∧ ((∀ w0 : Nat,
          sampleEnv.NumLinks (sampleEnv.Mutate_RemoveLink (sampleGenome 20 0 0) w0).1 = 0
          ∨ sampleEnv.HasDeadEnds (sampleEnv.Mutate_RemoveLink (sampleGenome 20 0 0) w0).1
            = true) →
        (firstGoodAttempt sampleEnv (sampleGenome 20 0 0) 127 1).1 = sampleGenome 20 0 0) :=
  ⟨by with_unfolding_all decide,
    MutateGenome_remove_link sampleEnv onlyRemoveLinkParameters false simplifyingPopulation
      (sampleGenome 20 0 0) 0 1 (by with_unfolding_all decide)⟩

/-! ### The mating and mutation policy of `Reproduce` and `ReproduceOne` -/

theorem GetRandomIndividual_mem (E : Env G W) (s : Species G) (w : W) (g : Genome G) (w1 : W)
    (hne : s.m_Individuals.length ≠ 0) (h : GetRandomIndividual E s w = some (g, w1)) :
    g ∈ s.m_Individuals := by
  unfold GetRandomIndividual at h
  rw [if_neg hne] at h
  simp only at h
  split at h
  · exact absurd h (by simp)
  · rename_i x hx
    simp only [Option.some.injEq, Prod.mk.injEq] at h
    rw [← h.1]
    exact vectorAt_mem _ _ _ hx

theorem GetRandomIndividual_Mate (E : Env G W)
    (mate2 : Genome G → Genome G → Bool → Bool → W → Genome G × W) (s : Species G) (w : W) :
    GetRandomIndividual { E with Mate := mate2 } s w = GetRandomIndividual E s w := rfl

theorem GetIndividual_Mate (E : Env G W)
    (mate2 : Genome G → Genome G → Bool → Bool → W → Genome G × W) (P : Parameters)
    (s : Species G) (w : W) :
    GetIndividual { E with Mate := mate2 } P s w = GetIndividual E P s w := rfl

theorem RemoveLinkLoop_Mate (E : Env G W)
    (mate2 : Genome G → Genome G → Bool → Bool → W → Genome G × W) (b : Genome G) (n : Nat)
    (w : W) :
    RemoveLinkLoop { E with Mate := mate2 } b n w = RemoveLinkLoop E b n w := by
  induction n using Nat.strong_induction_on generalizing w with
  | _ n ih =>
    match n with
    | 0 => rfl
    | 1 => rfl
    | k + 2 =>
      rw [RemoveLinkLoop, RemoveLinkLoop]
      simp only
      rw [ih (k + 1) (by omega)]

theorem MutateGenome_Mate (E : Env G W)
    (mate2 : Genome G → Genome G → Bool → Bool → W → Genome G × W) (P : Parameters)
    (clone : Bool) (pop : Population G) (b : Genome G) (w : W) :
    MutateGenome { E with Mate := mate2 } P clone pop b w = MutateGenome E P clone pop b w := by
  have hchoose : chooseMutation { E with Mate := mate2 } P clone pop.GetSearchMode w
      = chooseMutation E P clone pop.GetSearchMode w := rfl
  unfold MutateGenome
  rw [hchoose]
  split
  · rfl
  · rename_i t w1 _
    cases t <;> simp only [applyMutation, RemoveLinkLoop_Mate]

theorem placeBaby_Mate (E : Env G W)
    (mate2 : Genome G → Genome G → Bool → Bool → W → Genome G × W) (b : Genome G)
    (pop : Population G) (w : W) :
    placeBaby { E with Mate := mate2 } b pop w = placeBaby E b pop w := by
  have hloop : ∀ l : List (Species G),
      placeLoop { E with Mate := mate2 } b l = placeLoop E b l := by
    intro l
    induction l with
    | nil => rfl
    | cons sp rest ih =>
      rw [placeLoop, placeLoop, ih]
  unfold placeBaby
  rw [hloop]
  rfl

/-- The first half of a pass of `Reproduce` in the Simplifying phase: the mother, flagged
unmated; the crossover draw is still consumed when the species has several members. -/
theorem ReproduceMateOrCopy_simplifying (E : Env G W) (P : Parameters) (s : Species G)
    (pop : Population G) (w : W) (hmode : pop.GetSearchMode = SearchMode.SIMPLIFYING) :
    ReproduceMateOrCopy E P s pop w
      = if s.NumMembers = 0 then none
        else
          match GetRandomIndividual E s w with
          | none => none
          | some (t_mom, w1) =>
            some ((t_mom, false), if s.NumMembers = 1 then w1 else (E.RandFloat w1).2) := by
  unfold ReproduceMateOrCopy
  by_cases h0 : s.NumMembers = 0
  · simp [h0]
  · by_cases h1 : s.NumMembers = 1
    · simp only [h0, h1, if_false, if_true]
    · simp only [h0, h1, if_false, hmode, ne_eq, not_true_eq_false, and_false]

/-- The first half of `ReproduceOne` in the Simplifying phase. -/
theorem ReproduceOneMateOrCopy_simplifying (E : Env G W) (P : Parameters) (s : Species G)
    (pop : Population G) (w : W) (hmode : pop.GetSearchMode = SearchMode.SIMPLIFYING) :
    ReproduceOneMateOrCopy E P s pop w
      = if s.NumMembers = 0 then none
        else
          match GetIndividual E P s w with
          | none => none
          | some (t_mom, w1) =>
            some ((t_mom, false), if s.NumMembers = 1 then w1 else (E.RandFloat w1).2) := by
  unfold ReproduceOneMateOrCopy
  by_cases h0 : s.NumMembers = 0
  · simp [h0]
  · by_cases h1 : s.NumMembers = 1
    · simp only [h0, h1, if_false, if_true]
    · simp only [h0, h1, if_false, hmode, ne_eq, not_true_eq_false, and_false]

theorem ReproduceAttempt_Mate (E : Env G W)
    (mate2 : Genome G → Genome G → Bool → Bool → W → Genome G × W) (P : Parameters)
    (s : Species G) (pop : Population G) (clone : Bool) (w : W)
    (hmode : pop.GetSearchMode = SearchMode.SIMPLIFYING) :
    ReproduceAttempt { E with Mate := mate2 } P s pop clone w
      = ReproduceAttempt E P s pop clone w := by
  unfold ReproduceAttempt
  rw [ReproduceMateOrCopy_simplifying _ P s pop w hmode,
    ReproduceMateOrCopy_simplifying E P s pop w hmode]
  simp only [GetRandomIndividual_Mate, MutateGenome_Mate]

theorem ReproduceRetry_Mate (E : Env G W)
    (mate2 : Genome G → Genome G → Bool → Bool → W → Genome G × W) (P : Parameters)
    (s : Species G) (pop : Population G) (fuel : Nat) (clone : Bool) (w : W)
    (hmode : pop.GetSearchMode = SearchMode.SIMPLIFYING) :
    ReproduceRetry { E with Mate := mate2 } P s pop fuel clone w
      = ReproduceRetry E P s pop fuel clone w := by
  induction fuel generalizing clone w with
  | zero => rfl
  | succ fuel ih =>
    rw [ReproduceRetry, ReproduceRetry, ReproduceAttempt_Mate E mate2 P s pop clone w hmode]
    split
    · rfl
    · rename_i t_baby w1 _
      have hclone : isCloneOfOffspring { E with Mate := mate2 } t_baby pop.m_TempSpecies
          = isCloneOfOffspring E t_baby pop.m_TempSpecies := rfl
      rw [hclone, ih]

theorem ReproduceLoop_Mate (E : Env G W)
    (mate2 : Genome G → Genome G → Bool → Bool → W → Genome G × W) (P : Parameters)
    (s : Species G) (fuel count : Nat) (champ : Bool) (pop : Population G) (w : W)
    (born : List (Genome G)) (hmode : pop.GetSearchMode = SearchMode.SIMPLIFYING) :
    ReproduceLoop { E with Mate := mate2 } P s fuel count champ pop w born
      = ReproduceLoop E P s fuel count champ pop w born := by
  induction count generalizing champ pop w born with
  | zero => rfl
  | succ count ih =>
    rw [ReproduceLoop, ReproduceLoop]
    simp only [ReproduceRetry_Mate E mate2 P s pop fuel false w hmode]
    split
    · rfl
    · rename_i t_baby w1 _
      have hfin : finalizeBaby { E with Mate := mate2 } pop t_baby = finalizeBaby E pop t_baby :=
        rfl
      rw [hfin, placeBaby_Mate]
      apply ih
      have := (placeBaby_spec E (finalizeBaby E pop t_baby) pop.IncrementNextGenomeID w1).2.2.2.2.1
      simp only [Population.GetSearchMode] at hmode ⊢
      rw [this]
      exact hmode

/-- What the flag `t_mated` of `Reproduce` means: an unmated candidate is a member of the
species, a mated one is what `Mate` returned. -/
theorem ReproduceMateOrCopy_flag (E : Env G W) (P : Parameters) (s : Species G)
    (pop : Population G) (w : W) (b : Genome G) (mated : Bool) (w1 : W)
    (h : ReproduceMateOrCopy E P s pop w = some ((b, mated), w1)) :
    (mated = false → b ∈ s.m_Individuals)
      ∧ (mated = true → ∃ (mom dad : Genome G) (a i : Bool) (w0 : W),
          mom ∈ s.m_Individuals ∧ (b, w1) = E.Mate mom dad a i w0) := by
  unfold ReproduceMateOrCopy at h
  split at h
  · exact absurd h (by simp)
  · rename_i h0
    have hne : s.m_Individuals.length ≠ 0 := h0
    split at h
    · split at h
      · exact absurd h (by simp)
      · rename_i x wx hx
        simp only [Option.some.injEq, Prod.mk.injEq] at h
        obtain ⟨⟨hb, hm⟩, -⟩ := h
        subst hb hm
        exact ⟨fun _ => GetRandomIndividual_mem E s w _ _ hne hx, fun hc => absurd hc (by simp)⟩
    · split at h
      · exact absurd h (by simp)
      · rename_i mom wm hmom
        have hmem := GetRandomIndividual_mem E s w _ _ hne hmom
        simp only at h
        split at h
        · split at h
          · exact absurd h (by simp)
          · rename_i dad inter wd hdad
            split at h
            · simp only [Option.some.injEq, Prod.mk.injEq] at h
              obtain ⟨⟨hb, hm⟩, hw⟩ := h
              subst hm
              refine ⟨fun hc => absurd hc (by simp), fun _ => ⟨mom, dad, false, inter, (E.RandFloat wd).2, hmem, ?_⟩⟩
              rw [← hb, ← hw]
            · simp only [Option.some.injEq, Prod.mk.injEq] at h
              obtain ⟨⟨hb, hm⟩, hw⟩ := h
              subst hm
              refine ⟨fun hc => absurd hc (by simp), fun _ => ⟨mom, dad, true, inter, (E.RandFloat wd).2, hmem, ?_⟩⟩
              rw [← hb, ← hw]
        · simp only [Option.some.injEq, Prod.mk.injEq] at h
          obtain ⟨⟨hb, hm⟩, -⟩ := h
          subst hb hm
          exact ⟨fun _ => hmem, fun hc => absurd hc (by simp)⟩

/-- What the flag `t_mated` of `ReproduceOne` means: an unmated candidate is an evaluated
member of the species, a mated one is what `Mate` returned. -/
theorem ReproduceOneMateOrCopy_flag (E : Env G W) (P : Parameters) (s : Species G)
    (pop : Population G) (w : W) (b : Genome G) (mated : Bool) (w1 : W)
    (h : ReproduceOneMateOrCopy E P s pop w = some ((b, mated), w1)) :
    (mated = false → b ∈ s.m_Individuals ∧ b.IsEvaluated = true)
      ∧ (mated = true → ∃ (mom dad : Genome G) (a i : Bool) (w0 : W),
          mom ∈ s.m_Individuals ∧ (b, w1) = E.Mate mom dad a i w0) := by
  unfold ReproduceOneMateOrCopy at h
  split at h
  · exact absurd h (by simp)
  · split at h
    · split at h
      · exact absurd h (by simp)
      · rename_i x wx hx
        simp only [Option.some.injEq, Prod.mk.injEq] at h
        obtain ⟨⟨hb, hm⟩, -⟩ := h
        subst hb hm
        exact ⟨fun _ => GetIndividual_mem E P s w _ _ hx, fun hc => absurd hc (by simp)⟩
    · split at h
      · exact absurd h (by simp)
      · rename_i mom wm hmom
        have hmem := GetIndividual_mem E P s w _ _ hmom
        simp only at h
        split at h
        · split at h
          · exact absurd h (by simp)
          · rename_i dad inter wd hdad
            split at h
            · simp only [Option.some.injEq, Prod.mk.injEq] at h
              obtain ⟨⟨hb, hm⟩, hw⟩ := h
              subst hm
              refine ⟨fun hc => absurd hc (by simp),
                fun _ => ⟨mom, dad, false, inter, (E.RandFloat wd).2, hmem.1, ?_⟩⟩
              rw [← hb, ← hw]
            · simp only [Option.some.injEq, Prod.mk.injEq] at h
              obtain ⟨⟨hb, hm⟩, hw⟩ := h
              subst hm
              refine ⟨fun hc => absurd hc (by simp),
                fun _ => ⟨mom, dad, true, inter, (E.RandFloat wd).2, hmem.1, ?_⟩⟩
              rw [← hb, ← hw]
        · simp only [Option.some.injEq, Prod.mk.injEq] at h
          obtain ⟨⟨hb, hm⟩, -⟩ := h
          subst hb hm
          exact ⟨fun _ => hmem, fun hc => absurd hc (by simp)⟩

/-! ### The roulette walk of `MutateGenome` -/

theorem maskMutations_length (P : Parameters) (mode : SearchMode) (clone : Bool) :
    (maskMutations mode clone (initialMutations P)).length = 10 := by
  cases mode <;> cases clone <;> simp [maskMutations, initialMutations, zeroProbability]

/-- C25: under the contract of `std::sort`, with the ten operator probabilities not
negative, their sum after the phase and clone masking positive and the draw in `[0,1]`,
the sorted vector has ten entries, the roulette walk of `MutateGenome` stops at an index
`k < 10` of it, the entry at `k` is an entry of the masked vector with strictly positive
probability, and its operator is the one `MutateGenome` applies. -/
theorem MutateGenome_walk_in_bounds (E : Env G W) (hE : StdSortContract E) (P : Parameters)
    (clone : Bool) (mode : SearchMode) (w : W)
    (hprob : ∀ m ∈ initialMutations P, 0 ≤ m.Probability)
    (_hu0 : 0 ≤ (E.RandFloat w).1) (hu1 : (E.RandFloat w).1 ≤ 1)
    (htotal :
      0 < ((maskMutations mode clone (initialMutations P)).map Mutation.Probability).sum) :
    (E.sortMutations (maskMutations mode clone (initialMutations P))).length = 10
      ∧ ∃ (k : Nat) (m : Mutation), k < 10
        ∧ roulette
            ((E.sortMutations (maskMutations mode clone (initialMutations P))).map
              Mutation.Probability)
            ((E.RandFloat w).1 * totalLoop
              ((E.sortMutations (maskMutations mode clone (initialMutations P))).map
                Mutation.Probability) 0) = some k
        ∧ (E.sortMutations (maskMutations mode clone (initialMutations P)))[k]? = some m
        ∧ m ∈ maskMutations mode clone (initialMutations P)
        ∧ 0 < m.Probability
        ∧ chooseMutation E P clone mode w = some (m.MutationType, (E.RandFloat w).2)
        ∧ ∀ (pop : Population G) (b : Genome G), pop.GetSearchMode = mode →
            MutateGenome E P clone pop b w
              = some (applyMutation E b (E.RandFloat w).2 m.MutationType) := by
  have hperm := hE.mutations_perm (maskMutations mode clone (initialMutations P))
  have hsorted := hE.mutations_sorted (maskMutations mode clone (initialMutations P))
  have hnn := maskMutations_nonneg mode clone (initialMutations P) hprob
  have hlen : (E.sortMutations (maskMutations mode clone (initialMutations P))).length = 10 := by
    rw [hperm.length_eq, maskMutations_length]
  refine ⟨hlen, ?_⟩
  generalize hM : E.sortMutations (maskMutations mode clone (initialMutations P)) = M at *
  have hnnM : ∀ m ∈ M, 0 ≤ m.Probability := fun m hm => hnn m (hperm.subset hm)
  have hsumM : (M.map Mutation.Probability).sum
      = ((maskMutations mode clone (initialMutations P)).map Mutation.Probability).sum :=
    (hperm.map _).sum_eq
  have hpos : 0 < (M.map Mutation.Probability).sum := by rw [hsumM]; exact htotal
  have hne : M.map Mutation.Probability ≠ [] := by
    intro h
    rw [h] at hpos
    simp at hpos
  obtain ⟨k, hk, hroulette, hreach, hbefore⟩ :=
    roulette_spec (M.map Mutation.Probability)
      ((E.RandFloat w).1 * (M.map Mutation.Probability).sum) hne
      (scaled_le_total _ _ hu1 (le_of_lt hpos))
  have hk2 : k < M.length := by simpa using hk
  have hchoose : chooseMutation E P clone mode w
      = some ((M[k]).MutationType, (E.RandFloat w).2) := by
    simp [chooseMutation, hM, totalLoop_eq, hroulette, List.getElem?_eq_getElem hk2]
  refine ⟨k, M[k], by omega, ?_, List.getElem?_eq_getElem hk2,
    hperm.subset (List.getElem_mem _), ?_, hchoose, ?_⟩
  · rw [totalLoop_eq, zero_add]
    exact hroulette
  · cases k with
    | zero =>
      obtain ⟨m0, rest, hMeq, hm0⟩ := sorted_head_positive M hsorted hnnM hpos
      subst hMeq
      simpa using hm0
    | succ k1 =>
      have hprev := hbefore k1 (Nat.lt_succ_self _)
      have hsplit : ((M.map Mutation.Probability).take (k1 + 1 + 1)).sum
          = ((M.map Mutation.Probability).take (k1 + 1)).sum + (M[k1 + 1]).Probability := by
        rw [List.take_succ (n := k1 + 1)]
        simp [List.getElem?_eq_getElem hk2]
      rw [hsplit] at hreach
      linarith
  · intro pop b hmode
    unfold MutateGenome
    rw [hmode, hchoose]

/-- Witness for C25: the sample parameter table in the Complexifying phase, whose masked
probabilities 0.01, 0.03 and 0.9 sum to 0.94, with the draw 0.3. -/
theorem MutateGenome_walk_in_bounds_witness :
    (sampleEnv.sortMutations
        (maskMutations SearchMode.COMPLEXIFYING false (initialMutations sampleParameters))).length
        = 10
      ∧ ∃ (k : Nat) (m : Mutation), k < 10
        ∧ roulette
            ((sampleEnv.sortMutations (maskMutations SearchMode.COMPLEXIFYING false
              (initialMutations sampleParameters))).map Mutation.Probability)
            ((sampleEnv.RandFloat 3).1 * totalLoop
              ((sampleEnv.sortMutations (maskMutations SearchMode.COMPLEXIFYING false
                (initialMutations sampleParameters))).map Mutation.Probability) 0) = some k
        ∧ (sampleEnv.sortMutations (maskMutations SearchMode.COMPLEXIFYING false
            (initialMutations sampleParameters)))[k]? = some m
        ∧ m ∈ maskMutations SearchMode.COMPLEXIFYING false (initialMutations sampleParameters)
        ∧ 0 < m.Probability
        ∧ chooseMutation sampleEnv sampleParameters false SearchMode.COMPLEXIFYING 3
            = some (m.MutationType, (sampleEnv.RandFloat 3).2)
        ∧ ∀ (pop : Population Nat) (b : Genome Nat),
            pop.GetSearchMode = SearchMode.COMPLEXIFYING →
            MutateGenome sampleEnv sampleParameters false pop b 3
              = some (applyMutation sampleEnv b (sampleEnv.RandFloat 3).2 m.MutationType) :=
  MutateGenome_walk_in_bounds sampleEnv sampleEnv_contract sampleParameters false
    SearchMode.COMPLEXIFYING 3
    (by
      intro m hm
      simp only [initialMutations, sampleParameters, List.mem_cons, List.mem_singleton,
        List.not_mem_nil, or_false] at hm
      rcases hm with h | h | h | h | h | h | h | h | h | h <;> rw [h] <;> norm_num)
    (by norm_num [sampleEnv])
    (by norm_num [sampleEnv])
    (by norm_num [maskMutations, initialMutations, sampleParameters, zeroProbability])

/-! ### `operator=` -/

/-- C26: what the assignment `a = b` copies and what it leaves. After it `a` has the ID,
representative, best genome, best-species and worst-species flags, best fitness,
stagnation counter, age, offspring demand, colour and member list of `b`, but
`m_AverageFitness` is not assigned and keeps the value `a` had: `a` equals `b` afterwards
exactly when the two average fitnesses were already equal. For a species of average
fitness 5 assigned from one of average fitness 3 the average fitness after the
assignment is 5, not 3. -/
theorem operator_assign_average (a b : Species G) :
    (a.operator_assign b).m_ID = b.m_ID
      ∧ (a.operator_assign b).m_Representative = b.m_Representative
      ∧ (a.operator_assign b).m_BestGenome = b.m_BestGenome
      ∧ (a.operator_assign b).m_BestFitness = b.m_BestFitness
      ∧ (a.operator_assign b).m_BestSpecies = b.m_BestSpecies
      ∧ (a.operator_assign b).m_WorstSpecies = b.m_WorstSpecies
      ∧ (a.operator_assign b).m_GensNoImprovement = b.m_GensNoImprovement
      ∧ (a.operator_assign b).m_Age = b.m_Age
      ∧ (a.operator_assign b).m_OffspringRqd = b.m_OffspringRqd
      ∧ (a.operator_assign b).m_R = b.m_R
      ∧ (a.operator_assign b).m_G = b.m_G
      ∧ (a.operator_assign b).m_B = b.m_B
      ∧ (a.operator_assign b).m_Individuals = b.m_Individuals
      ∧ (a.operator_assign b).m_AverageFitness = a.m_AverageFitness
      ∧ (a.operator_assign b = b ↔ a.m_AverageFitness = b.m_AverageFitness)
      ∧ a.operator_assign a = a
      ∧ assignedSpecies.m_AverageFitness = 5
      ∧ foreignSpecies.m_AverageFitness = 3
      ∧ (assignedSpecies.operator_assign foreignSpecies).m_AverageFitness = 5
      ∧ (assignedSpecies.operator_assign foreignSpecies).m_ID = foreignSpecies.m_ID
      ∧ (assignedSpecies.operator_assign foreignSpecies).m_Individuals
          = foreignSpecies.m_Individuals
      ∧ assignedSpecies.operator_assign foreignSpecies ≠ foreignSpecies := by
  refine ⟨rfl, rfl, rfl, rfl, rfl, rfl, rfl, rfl, rfl, rfl, rfl, rfl, rfl, rfl, ?_, rfl, rfl, rfl,
    rfl, rfl, rfl, ?_⟩
  · cases a
    cases b
    simp [Species.operator_assign]
  · intro h
    have h2 := congrArg Species.m_AverageFitness h
    have h3 : (5 : ℚ) = 3 := h2
    norm_num at h3

/-! ### The arguments of `Mate` and the choice of the father -/

/-- The father selection of `Reproduce` when the interspecies branch is taken: the father
is what `GetRandomIndividual` returns for the species at the drawn index, and the flag
is `true`. -/
theorem ReproduceDad_interspecies (E : Env G W) (P : Parameters) (s : Species G)
    (pop : Population G) (mom : Genome G) (w : W)
    (h : (E.RandFloat w).1 < P.InterspeciesCrossoverRate ∧ pop.m_Species.length > 1) :
    ReproduceDad E P s pop mom w
      = (vectorAt pop.m_Species
            (E.RandInt 0 ((pop.m_Species.length : Int) - 1) (E.RandFloat w).2).1).bind
          (fun sp =>
            (GetRandomIndividual E sp
              (E.RandInt 0 ((pop.m_Species.length : Int) - 1) (E.RandFloat w).2).2).map
              (fun r => ((r.1, true), r.2))) := by
  unfold ReproduceDad
  simp only [h, and_self, if_true]
  cases vectorAt pop.m_Species
      (E.RandInt 0 ((pop.m_Species.length : Int) - 1) (E.RandFloat w).2).1 with
  | none => rfl
  | some sp =>
    simp only [Option.some_bind]
    cases GetRandomIndividual E sp
        (E.RandInt 0 ((pop.m_Species.length : Int) - 1) (E.RandFloat w).2).2 with
    | none => rfl
    | some r => rfl

/-- The flag `t_interspecies` that the father selection of `Reproduce` returns says
whether the interspecies branch was taken. -/
theorem ReproduceDad_flag (E : Env G W) (P : Parameters) (s : Species G)
    (pop : Population G) (mom : Genome G) (w : W) (dad : Genome G) (inter : Bool) (w1 : W)
    (h : ReproduceDad E P s pop mom w = some ((dad, inter), w1)) :
    inter = true
      ↔ ((E.RandFloat w).1 < P.InterspeciesCrossoverRate ∧ pop.m_Species.length > 1) := by
  unfold ReproduceDad at h
  simp only at h
  split at h
  · rename_i hc
    split at h
    · exact absurd h (by simp)
    · split at h
      · exact absurd h (by simp)
      · simp only [Option.some.injEq, Prod.mk.injEq] at h
        rw [← h.1.2]
        simp [hc]
  · rename_i hc
    split at h
    · exact absurd h (by simp)
    · split at h
      · exact absurd h (by simp)
      · simp only [Option.some.injEq, Prod.mk.injEq] at h
        rw [← h.1.2]
        simp only [Bool.false_eq_true, false_iff]
        exact hc

/-- The flag `t_interspecies` that the father selection of `ReproduceOne` returns says
whether the interspecies branch was taken. -/
theorem ReproduceOneDad_flag (E : Env G W) (P : Parameters) (s : Species G)
    (pop : Population G) (mom : Genome G) (w : W) (dad : Genome G) (inter : Bool) (w1 : W)
    (h : ReproduceOneDad E P s pop mom w = some ((dad, inter), w1)) :
    inter = true
      ↔ ((E.RandFloat w).1 < P.InterspeciesCrossoverRate ∧ pop.m_Species.length > 1) := by
  unfold ReproduceOneDad at h
  simp only at h
  split at h
  · rename_i hc
    split at h
    · exact absurd h (by simp)
    · split at h
      · exact absurd h (by simp)
      · split at h
        · split at h
          · exact absurd h (by simp)
          · simp only [Option.some.injEq, Prod.mk.injEq] at h
            rw [← h.1.2]
            simp [hc]
        · split at h
          · exact absurd h (by simp)
          · simp only [Option.some.injEq, Prod.mk.injEq] at h
            rw [← h.1.2]
            simp [hc]
  · rename_i hc
    split at h
    · exact absurd h (by simp)
    · split at h
      · exact absurd h (by simp)
      · simp only [Option.some.injEq, Prod.mk.injEq] at h
        rw [← h.1.2]
        simp only [Bool.false_eq_true, false_iff]
        exact hc

/-- A candidate of `Reproduce` flagged mated is what one call of `Mate` returned: the
mother is the member drawn first, the father and the third argument are what the father
selection returned, and the second argument is `false` when the crossover-type draw is
below `MultipointCrossoverRate` and `true` otherwise. -/
theorem ReproduceMateOrCopy_mated (E : Env G W) (P : Parameters) (s : Species G)
    (pop : Population G) (w : W) (b : Genome G) (w3 : W)
    (h : ReproduceMateOrCopy E P s pop w = some ((b, true), w3)) :
    ∃ (mom : Genome G) (w1 : W) (dad : Genome G) (inter : Bool) (w2 : W),
      GetRandomIndividual E s w = some (mom, w1)
      ∧ (E.RandFloat w1).1 < P.CrossoverRate
      ∧ pop.GetSearchMode ≠ SearchMode.SIMPLIFYING
      ∧ ReproduceDad E P s pop mom (E.RandFloat w1).2 = some ((dad, inter), w2)
      ∧ (b, w3) = E.Mate mom dad
          (decide (¬ (E.RandFloat w2).1 < P.MultipointCrossoverRate)) inter
          (E.RandFloat w2).2 := by
  unfold ReproduceMateOrCopy at h
  split at h
  · exact absurd h (by simp)
  · split at h
    · split at h
      · exact absurd h (by simp)
      · simp at h
    · split at h
      · exact absurd h (by simp)
      · rename_i mom wm hmom
        simp only at h
        split at h
        · rename_i hc
          split at h
          · exact absurd h (by simp)
          · rename_i dad inter wd hdad
            refine ⟨mom, wm, dad, inter, wd, hmom, hc.1, hc.2, hdad, ?_⟩
            split at h
            · rename_i hlt
              simp only [Option.some.injEq, Prod.mk.injEq, and_true] at h
              simp only [hlt, not_true_eq_false, decide_False]
              rw [← h.1, ← h.2]
            · rename_i hlt
              simp only [Option.some.injEq, Prod.mk.injEq, and_true] at h
              simp only [hlt, not_false_eq_true, decide_True]
              rw [← h.1, ← h.2]
        · simp at h

/-- A candidate of `ReproduceOne` flagged mated is what one call of `Mate` returned, with
the same arguments as in `Reproduce`. -/
theorem ReproduceOneMateOrCopy_mated (E : Env G W) (P : Parameters) (s : Species G)
    (pop : Population G) (w : W) (b : Genome G) (w3 : W)
    (h : ReproduceOneMateOrCopy E P s pop w = some ((b, true), w3)) :
    ∃ (mom : Genome G) (w1 : W) (dad : Genome G) (inter : Bool) (w2 : W),
      GetIndividual E P s w = some (mom, w1)
      ∧ (E.RandFloat w1).1 < P.CrossoverRate
      ∧ pop.GetSearchMode ≠ SearchMode.SIMPLIFYING
      ∧ ReproduceOneDad E P s pop mom (E.RandFloat w1).2 = some ((dad, inter), w2)
      ∧ (b, w3) = E.Mate mom dad
          (decide (¬ (E.RandFloat w2).1 < P.MultipointCrossoverRate)) inter
          (E.RandFloat w2).2 := by
  unfold ReproduceOneMateOrCopy at h
  split at h
  · exact absurd h (by simp)
  · split at h
    · split at h
      · exact absurd h (by simp)
      · simp at h
    · split at h
      · exact absurd h (by simp)
      · rename_i mom wm hmom
        simp only at h
        split at h
        · rename_i hc
          split at h
          · exact absurd h (by simp)
          · rename_i dad inter wd hdad
            refine ⟨mom, wm, dad, inter, wd, hmom, hc.1, hc.2, hdad, ?_⟩
            split at h
            · rename_i hlt
              simp only [Option.some.injEq, Prod.mk.injEq, and_true] at h
              simp only [hlt, not_true_eq_false, decide_False]
              rw [← h.1, ← h.2]
            · rename_i hlt
              simp only [Option.some.injEq, Prod.mk.injEq, and_true] at h
              simp only [hlt, not_false_eq_true, decide_True]
              rw [← h.1, ← h.2]
        · simp at h

/-- When the mating branch of `Reproduce` is taken and the calls it makes return, the
candidate is the result of the call of `Mate` described in
`ReproduceMateOrCopy_mated`. -/
theorem ReproduceMateOrCopy_mating (E : Env G W) (P : Parameters) (s : Species G)
    (pop : Population G) (w : W) (mom : Genome G) (w1 : W) (dad : Genome G) (inter : Bool)
    (w2 : W) (hn0 : s.NumMembers ≠ 0) (hn1 : s.NumMembers ≠ 1)
    (hmom : GetRandomIndividual E s w = some (mom, w1))
    (hcross : (E.RandFloat w1).1 < P.CrossoverRate)
    (hmode : pop.GetSearchMode ≠ SearchMode.SIMPLIFYING)
    (hdad : ReproduceDad E P s pop mom (E.RandFloat w1).2 = some ((dad, inter), w2)) :
    ReproduceMateOrCopy E P s pop w
      = some (((E.Mate mom dad (decide (¬ (E.RandFloat w2).1 < P.MultipointCrossoverRate))
            inter (E.RandFloat w2).2).1, true),
          (E.Mate mom dad (decide (¬ (E.RandFloat w2).1 < P.MultipointCrossoverRate))
            inter (E.RandFloat w2).2).2) := by
  unfold ReproduceMateOrCopy
  simp only [hn0, hn1, if_false, hmom, hcross, hmode, ne_eq, not_false_eq_true, and_self,
    if_true, hdad]
  by_cases hlt : (E.RandFloat w2).1 < P.MultipointCrossoverRate <;> simp [hlt]

/-- When the mating branch of `ReproduceOne` is taken and the calls it makes return, the
candidate is the result of the call of `Mate` described in
`ReproduceOneMateOrCopy_mated`. -/
theorem ReproduceOneMateOrCopy_mating (E : Env G W) (P : Parameters) (s : Species G)
    (pop : Population G) (w : W) (mom : Genome G) (w1 : W) (dad : Genome G) (inter : Bool)
    (w2 : W) (hn0 : s.NumMembers ≠ 0) (hn1 : s.NumMembers ≠ 1)
    (hmom : GetIndividual E P s w = some (mom, w1))
    (hcross : (E.RandFloat w1).1 < P.CrossoverRate)
    (hmode : pop.GetSearchMode ≠ SearchMode.SIMPLIFYING)
    (hdad : ReproduceOneDad E P s pop mom (E.RandFloat w1).2 = some ((dad, inter), w2)) :
    ReproduceOneMateOrCopy E P s pop w
      = some (((E.Mate mom dad (decide (¬ (E.RandFloat w2).1 < P.MultipointCrossoverRate))
            inter (E.RandFloat w2).2).1, true),
          (E.Mate mom dad (decide (¬ (E.RandFloat w2).1 < P.MultipointCrossoverRate))
            inter (E.RandFloat w2).2).2) := by
  unfold ReproduceOneMateOrCopy
  simp only [hn0, hn1, if_false, hmom, hcross, hmode, ne_eq, not_false_eq_true, and_self,
    if_true, hdad]
  by_cases hlt : (E.RandFloat w2).1 < P.MultipointCrossoverRate <;> simp [hlt]

/-- `GetRandomIndividual` returns a member of the species, or its representative when
the species has no members. -/
theorem GetRandomIndividual_mem_or_rep (E : Env G W) (s : Species G) (w : W) (g : Genome G)
    (w1 : W) (h : GetRandomIndividual E s w = some (g, w1)) :
    g ∈ s.m_Individuals ∨ (s.m_Individuals = [] ∧ g = s.m_Representative) := by
  by_cases hne : s.m_Individuals.length = 0
  · right
    unfold GetRandomIndividual at h
    rw [if_pos hne] at h
    simp only [Option.some.injEq, Prod.mk.injEq] at h
    exact ⟨List.length_eq_zero.mp hne, h.1.symm⟩
  · exact Or.inl (GetRandomIndividual_mem E s w g w1 hne h)

/-- Under the contract of `std::sort`, with operator probabilities that are not negative
and a draw of at most 1, `MutateGenome` chooses an operator: the walk does not leave the
vector, also when the masked probabilities are all 0. -/
theorem chooseMutation_returns (E : Env G W) (hE : StdSortContract E) (P : Parameters)
    (clone : Bool) (mode : SearchMode) (w : W)
    (hprob : ∀ m ∈ initialMutations P, 0 ≤ m.Probability)
    (hu1 : (E.RandFloat w).1 ≤ 1) :
    ∃ t : MutationTypes, chooseMutation E P clone mode w = some (t, (E.RandFloat w).2) := by
  have hperm := hE.mutations_perm (maskMutations mode clone (initialMutations P))
  have hnn := maskMutations_nonneg mode clone (initialMutations P) hprob
  have hlen : (E.sortMutations (maskMutations mode clone (initialMutations P))).length = 10 := by
    rw [hperm.length_eq, maskMutations_length]
  generalize hM : E.sortMutations (maskMutations mode clone (initialMutations P)) = M at *
  have hnnM : ∀ m ∈ M, 0 ≤ m.Probability := fun m hm => hnn m (hperm.subset hm)
  have hsum : 0 ≤ (M.map Mutation.Probability).sum := by
    apply List.sum_nonneg
    intro p hp
    obtain ⟨x, hx, rfl⟩ := List.mem_map.mp hp
    exact hnnM x hx
  have hne : M.map Mutation.Probability ≠ [] := by
    intro h
    have := congrArg List.length h
    simp only [List.length_map, List.length_nil] at this
    omega
  obtain ⟨k, hk, hroulette, -, -⟩ :=
    roulette_spec (M.map Mutation.Probability)
      ((E.RandFloat w).1 * (M.map Mutation.Probability).sum) hne
      (scaled_le_total _ _ hu1 hsum)
  have hk2 : k < M.length := by simpa using hk
  exact ⟨(M[k]).MutationType, by
    simp [chooseMutation, hM, totalLoop_eq, hroulette, List.getElem?_eq_getElem hk2]⟩

/-- Under the same conditions `MutateGenome` returns. -/
theorem MutateGenome_returns (E : Env G W) (hE : StdSortContract E) (P : Parameters)
    (clone : Bool) (pop : Population G) (b : Genome G) (w : W)
    (hprob : ∀ m ∈ initialMutations P, 0 ≤ m.Probability)
    (hu1 : (E.RandFloat w).1 ≤ 1) :
    ∃ r : Genome G × W, MutateGenome E P clone pop b w = some r := by
  obtain ⟨t, ht⟩ := chooseMutation_returns E hE P clone pop.GetSearchMode w hprob hu1
  exact ⟨applyMutation E b (E.RandFloat w).2 t, by unfold MutateGenome; rw [ht]⟩

/-- For a species of two members, both evaluated, and a draw in `[0,1]`,
`GetIndividual` returns one of the two after one draw. -/
theorem GetIndividual_pair (E : Env G W) (P : Parameters) (s : Species G) (w : W)
    (g1 g2 : Genome G) (hs : s.m_Individuals = [g1, g2]) (h1 : g1.IsEvaluated = true)
    (h2 : g2.IsEvaluated = true) (hu0 : 0 ≤ (E.RandFloat w).1) (hu1 : (E.RandFloat w).1 ≤ 1) :
    ∃ g : Genome G, g ∈ s.m_Individuals
      ∧ GetIndividual E P s w = some (g, (E.RandFloat w).2) := by
  have hf : [g1, g2].filter (fun g => g.IsEvaluated) = [g1, g2] := by
    simp [List.filter, h1, h2]
  unfold GetIndividual
  simp only [hs, hf, List.length_cons, List.length_nil]
  rcases Rounded_unit _ hu0 hu1 with hr | hr
  · exact ⟨g1, by simp, by simp [hr, vectorAt]⟩
  · exact ⟨g2, by simp, by simp [hr, vectorAt]⟩

/-- When every call of `GetIndividual` on the species returns a member, the loop of
`ReproduceOne` that looks for a father different from the mother returns a member. -/
theorem intraspeciesDadLoopOne_returns (E : Env G W) (P : Parameters) (s : Species G)
    (mom : Genome G)
    (hget : ∀ w : W, ∃ g : Genome G, g ∈ s.m_Individuals
      ∧ GetIndividual E P s w = some (g, (E.RandFloat w).2))
    (n : Nat) (d : Genome G) (w : W) (hd : d ∈ s.m_Individuals) :
    ∃ (dad : Genome G) (w1 : W), dad ∈ s.m_Individuals
      ∧ intraspeciesDadLoopOne E P s mom n d w = some (dad, w1) := by
  induction n generalizing d w with
  | zero =>
    rw [intraspeciesDadLoopOne]
    by_cases hc : mom.GetID = d.GetID ∨ E.CompatibilityDistance mom d = 0
    · exact ⟨d, w, hd, by simp [hc]⟩
    · exact ⟨d, w, hd, by simp [hc]⟩
  | succ n ih =>
    rw [intraspeciesDadLoopOne]
    by_cases hc : mom.GetID = d.GetID ∨ E.CompatibilityDistance mom d = 0
    · obtain ⟨g, hg, hcall⟩ := hget w
      obtain ⟨dad, w1, hdad, hloop⟩ := ih g (E.RandFloat w).2 hg
      exact ⟨dad, w1, hdad, by simp [hc, hcall, hloop]⟩
    · exact ⟨d, w, hd, by simp [hc]⟩

/-- The draw number `j + 1` of a run from `w` is the draw number `j` of the run from
the state the first draw leaves. -/
theorem drawNumber_succ (E : Env G W) (hi : Int) (j : Nat) (w : W) :
    drawNumber E hi (j + 1) w = drawNumber E hi j (E.RandInt 0 hi w).2 := rfl

/-- The loop of `ReproduceOne` that looks for a foreign species, started with
`t_giveup = n`, when every drawn index is inside the species list: it returns draw
number `j` for some `j <= n`, so it makes at most `n + 1` draws; every earlier draw gave a
species of average fitness 0; and draw `j` gave a species of nonzero average fitness
unless `j = n`. -/
theorem foreignSpeciesLoop_spec (E : Env G W) (pop : Population G)
    (hrange : ∀ w : W, ∃ sp : Species G,
      vectorAt pop.m_Species (E.RandInt 0 ((pop.m_Species.length : Int) - 1) w).1 = some sp)
    (n : Nat) (w : W) :
    ∃ (j : Nat) (sp : Species G), j ≤ n
      ∧ foreignSpeciesLoop E pop n w
          = some (drawNumber E ((pop.m_Species.length : Int) - 1) j w)
      ∧ vectorAt pop.m_Species (drawNumber E ((pop.m_Species.length : Int) - 1) j w).1 = some sp
      ∧ (sp.m_AverageFitness ≠ 0 ∨ j = n)
      ∧ ∀ i : Nat, i < j → ∃ sp0 : Species G,
          vectorAt pop.m_Species (drawNumber E ((pop.m_Species.length : Int) - 1) i w).1
            = some sp0 ∧ sp0.m_AverageFitness = 0 := by
  induction n generalizing w with
  | zero =>
    obtain ⟨sp, hsp⟩ := hrange w
    refine ⟨0, sp, le_refl _, ?_, hsp, Or.inr rfl, fun i hi => absurd hi (Nat.not_lt_zero _)⟩
    rw [foreignSpeciesLoop]
    simp only [hsp]
    by_cases hz : sp.m_AverageFitness = 0
    · simp only [hz, if_true]
      rfl
    · simp only [hz, if_false]
      rfl
  | succ n ih =>
    obtain ⟨sp, hsp⟩ := hrange w
    by_cases hz : sp.m_AverageFitness = 0
    · obtain ⟨j, sp1, hj, hloop, hat, hstop, hbefore⟩ :=
        ih (E.RandInt 0 ((pop.m_Species.length : Int) - 1) w).2
      refine ⟨j + 1, sp1, Nat.succ_le_succ hj, ?_, ?_, ?_, ?_⟩
      · rw [foreignSpeciesLoop]
        simp only [hsp, hz, if_true]
        rw [hloop, drawNumber_succ]
      · rw [drawNumber_succ]
        exact hat
      · rcases hstop with h | h
        · exact Or.inl h
        · exact Or.inr (by rw [h])
      · intro i hi
        cases i with
        | zero => exact ⟨sp, hsp, hz⟩
        | succ i1 =>
          rw [drawNumber_succ]
          exact hbefore i1 (Nat.lt_of_succ_lt_succ hi)
    · refine ⟨0, sp, Nat.zero_le _, ?_, hsp, Or.inl hz,
        fun i hi => absurd hi (Nat.not_lt_zero _)⟩
      rw [foreignSpeciesLoop]
      simp only [hsp, hz, if_false]
      rfl

/-- A draw `RandInt(0, size-1)` that stays in its inclusive range is an index of a list of
`size > 0` entries. -/
theorem vectorAt_of_range {α : Type} (v : List α) (i : Int) (h0 : 0 ≤ i)
    (h1 : i ≤ (v.length : Int) - 1) : ∃ x : α, vectorAt v i = some x := by
  have hlt : i.toNat < v.length := by omega
  exact ⟨v[i.toNat], by simp [vectorAt, h0, List.getElem?_eq_getElem hlt]⟩

/-- The generators of the sample environment stay in range: `RandInt(0, hi)` returns a
value from `0` to `hi`. -/
theorem sampleEnv_RandInt_range (hi : Int) (w : Nat) (h : 0 ≤ hi) :
    0 ≤ (sampleEnv.RandInt 0 hi w).1 ∧ (sampleEnv.RandInt 0 hi w).1 ≤ hi := by
  have hpos : (0 : Int) < hi - 0 + 1 := by omega
  have h1 := Int.emod_nonneg (w : Int) (ne_of_gt hpos)
  have h2 := Int.emod_lt_of_pos (w : Int) hpos
  simp only [sampleEnv]
  constructor <;> omega

/-- The float generator of the sample environment returns values in `[0,1)`. -/
theorem sampleEnv_RandFloat_range (w : Nat) :
    0 ≤ (sampleEnv.RandFloat w).1 ∧ (sampleEnv.RandFloat w).1 < 1 := by
  simp only [sampleEnv]
  have h : w % 10 < 10 := Nat.mod_lt _ (by decide)
  have h2 : ((w % 10 : Nat) : ℚ) < 10 := by exact_mod_cast h
  have h3 : (0 : ℚ) ≤ ((w % 10 : Nat) : ℚ) := Nat.cast_nonneg _
  constructor
  · positivity
  · rw [div_lt_one (by norm_num)]
    exact h2

/-- The operator probabilities of the sample parameter table are not negative. -/
theorem sampleParameters_nonneg : ∀ m ∈ initialMutations sampleParameters, 0 ≤ m.Probability := by
  intro m hm
  simp only [initialMutations, sampleParameters, List.mem_cons, List.mem_singleton,
    List.not_mem_nil, or_false] at hm
  rcases hm with h | h | h | h | h | h | h | h | h | h <;> rw [h] <;> norm_num

/-- C24, counterexample: a crossover-type draw below `MultipointCrossoverRate` for which
the second argument of `Mate` is `false`. In the run of `Reproduce` from state 0 the
mother is the member with ID 1, the father the member with ID 4 picked inside the
species, the crossover-type draw is 0.4 < 0.75 and the candidate is
`Mate(mother, father, false, false)`: its gene number is 16, where a second argument
`true` would have given 18. In the run of `ReproduceOne` from state 2 the draw is
0 < 0.75 and the candidate is again `Mate(mother, father, false, false)`. -/
theorem Mate_multipoint_counterexample :
    ReproduceDad recordingEnv sampleParameters fourSpecies parentPopulation
        (sampleGenome 1 10 0) 2 = some ((sampleGenome 4 1 0, false), 4)
      ∧ (recordingEnv.RandFloat 4).1 < sampleParameters.MultipointCrossoverRate
      ∧ ReproduceMateOrCopy recordingEnv sampleParameters fourSpecies parentPopulation 0
          = some (((recordingEnv.Mate (sampleGenome 1 10 0) (sampleGenome 4 1 0) false false
              5).1, true), 6)
      ∧ (recordingEnv.Mate (sampleGenome 1 10 0) (sampleGenome 4 1 0) false false 5).1.m_Genes
          = 16
      ∧ (recordingEnv.Mate (sampleGenome 1 10 0) (sampleGenome 4 1 0) true false 5).1.m_Genes
          = 18
      ∧ ReproduceOneDad recordingEnv sampleParameters fourSpecies parentPopulation
          (sampleGenome 4 1 0) 5 = some ((sampleGenome 2 7 0, false), 10)
      ∧ (recordingEnv.RandFloat 10).1 < sampleParameters.MultipointCrossoverRate
      ∧ ReproduceOneMateOrCopy recordingEnv sampleParameters fourSpecies parentPopulation 2
          = some (((recordingEnv.Mate (sampleGenome 4 1 0) (sampleGenome 2 7 0) false false
              11).1, true), 12)
      ∧ (recordingEnv.Mate (sampleGenome 4 1 0) (sampleGenome 2 7 0) false false 11).1.m_Genes
          = 8 := by
  refine ⟨?_, ?_, ?_, ?_, ?_, ?_, ?_, ?_, ?_⟩ <;> with_unfolding_all decide

/-- C24, amended: whenever `Reproduce` or `ReproduceOne` mates, the candidate is the
result of one call `Mate(father, a, i)` on the mother, where the second argument `a` is
`false` when the crossover-type draw is below `MultipointCrossoverRate` and `true`
otherwise, and the third argument `i` is the flag returned by the father selection,
which is `true` exactly when the interspecies branch was taken. Conversely, when the
mating branch is taken and the selection calls return, the candidate is the result of
that call. -/
theorem Mate_arguments (E : Env G W) (P : Parameters) (s : Species G) (pop : Population G)
    (w : W) :
    (∀ (b : Genome G) (w3 : W), ReproduceMateOrCopy E P s pop w = some ((b, true), w3) →
        ∃ (mom : Genome G) (w1 : W) (dad : Genome G) (inter : Bool) (w2 : W),
          GetRandomIndividual E s w = some (mom, w1)
          ∧ ReproduceDad E P s pop mom (E.RandFloat w1).2 = some ((dad, inter), w2)
          ∧ (b, w3) = E.Mate mom dad
              (decide (¬ (E.RandFloat w2).1 < P.MultipointCrossoverRate)) inter
              (E.RandFloat w2).2
          ∧ (inter = true ↔
              ((E.RandFloat (E.RandFloat w1).2).1 < P.InterspeciesCrossoverRate
                ∧ pop.m_Species.length > 1)))
      ∧ (∀ (b : Genome G) (w3 : W), ReproduceOneMateOrCopy E P s pop w = some ((b, true), w3) →
        ∃ (mom : Genome G) (w1 : W) (dad : Genome G) (inter : Bool) (w2 : W),
          GetIndividual E P s w = some (mom, w1)
          ∧ ReproduceOneDad E P s pop mom (E.RandFloat w1).2 = some ((dad, inter), w2)
          ∧ (b, w3) = E.Mate mom dad
              (decide (¬ (E.RandFloat w2).1 < P.MultipointCrossoverRate)) inter
              (E.RandFloat w2).2
          ∧ (inter = true ↔
              ((E.RandFloat (E.RandFloat w1).2).1 < P.InterspeciesCrossoverRate
                ∧ pop.m_Species.length > 1)))
      ∧ (∀ (mom : Genome G) (w1 : W) (dad : Genome G) (inter : Bool) (w2 : W),
          s.NumMembers ≠ 0 → s.NumMembers ≠ 1 →
          GetRandomIndividual E s w = some (mom, w1) →
          (E.RandFloat w1).1 < P.CrossoverRate →
          pop.GetSearchMode ≠ SearchMode.SIMPLIFYING →
          ReproduceDad E P s pop mom (E.RandFloat w1).2 = some ((dad, inter), w2) →
          ReproduceMateOrCopy E P s pop w
            = some (((E.Mate mom dad
                  (decide (¬ (E.RandFloat w2).1 < P.MultipointCrossoverRate)) inter
                  (E.RandFloat w2).2).1, true),
                (E.Mate mom dad
                  (decide (¬ (E.RandFloat w2).1 < P.MultipointCrossoverRate)) inter
                  (E.RandFloat w2).2).2))
      ∧ (∀ (mom : Genome G) (w1 : W) (dad : Genome G) (inter : Bool) (w2 : W),
          s.NumMembers ≠ 0 → s.NumMembers ≠ 1 →
          GetIndividual E P s w = some (mom, w1) →
          (E.RandFloat w1).1 < P.CrossoverRate →
          pop.GetSearchMode ≠ SearchMode.SIMPLIFYING →
          ReproduceOneDad E P s pop mom (E.RandFloat w1).2 = some ((dad, inter), w2) →
          ReproduceOneMateOrCopy E P s pop w
            = some (((E.Mate mom dad
                  (decide (¬ (E.RandFloat w2).1 < P.MultipointCrossoverRate)) inter
                  (E.RandFloat w2).2).1, true),
                (E.Mate mom dad
                  (decide (¬ (E.RandFloat w2).1 < P.MultipointCrossoverRate)) inter
                  (E.RandFloat w2).2).2))
      ∧ (ReproduceMateOrCopy recordingEnv sampleParameters fourSpecies parentPopulation 0).map
          (fun r => (r.1.1.m_Genes, r.1.2)) = some (16, true)
      ∧ (ReproduceMateOrCopy recordingEnv sampleParameters fourSpecies parentPopulation 4).map
          (fun r => (r.1.1.m_Genes, r.1.2)) = some (18, true)
      ∧ (ReproduceMateOrCopy recordingEnv interspeciesParameters pairSpecies
          twoSpeciesPopulation 0).map (fun r => (r.1.1.m_Genes, r.1.2)) = some (45, true)
      ∧ (ReproduceOneMateOrCopy recordingEnv sampleParameters fourSpecies parentPopulation
          2).map (fun r => (r.1.1.m_Genes, r.1.2)) = some (8, true)
      ∧ (ReproduceOneMateOrCopy recordingEnv sampleParameters fourSpecies parentPopulation
          0).map (fun r => (r.1.1.m_Genes, r.1.2)) = some (18, true) := by
  refine ⟨?_, ?_, ?_, ?_, ?_, ?_, ?_, ?_, ?_⟩
  · intro b w3 h
    obtain ⟨mom, w1, dad, inter, w2, hmom, -, -, hdad, hb⟩ :=
      ReproduceMateOrCopy_mated E P s pop w b w3 h
    exact ⟨mom, w1, dad, inter, w2, hmom, hdad, hb,
      ReproduceDad_flag E P s pop mom _ dad inter w2 hdad⟩
  · intro b w3 h
    obtain ⟨mom, w1, dad, inter, w2, hmom, -, -, hdad, hb⟩ :=
      ReproduceOneMateOrCopy_mated E P s pop w b w3 h
    exact ⟨mom, w1, dad, inter, w2, hmom, hdad, hb,
      ReproduceOneDad_flag E P s pop mom _ dad inter w2 hdad⟩
  · intro mom w1 dad inter w2 hn0 hn1 hmom hcross hmode hdad
    exact ReproduceMateOrCopy_mating E P s pop w mom w1 dad inter w2 hn0 hn1 hmom hcross hmode
      hdad
  · intro mom w1 dad inter w2 hn0 hn1 hmom hcross hmode hdad
    exact ReproduceOneMateOrCopy_mating E P s pop w mom w1 dad inter w2 hn0 hn1 hmom hcross
      hmode hdad
  · with_unfolding_all decide
  · with_unfolding_all decide
  · with_unfolding_all decide
  · with_unfolding_all decide
  · with_unfolding_all decide

/-- C23: the father of the interspecies branch of `Reproduce`, and where it departs from
the claim. When the branch is taken the father is what `GetRandomIndividual` returns for
the species at the index `RandInt(0, size-1)`, a member (or, for an empty species, the
representative) of some species of the population, and `Mate` gets the flag `true`. But
the index is drawn over the whole list, the reproducing species included: for the
population of two species with the reproducing species at index 0, the draw 0 picks the
reproducing species itself, and the father is its member with ID 2, which is not a
member of the other species; in the run from state 1 mother and father are this same
member and `Mate` is called with the interspecies flag set. -/
theorem Reproduce_interspecies_father (E : Env G W) (P : Parameters) (s : Species G)
    (pop : Population G) (mom : Genome G) (w : W) :
    ((E.RandFloat w).1 < P.InterspeciesCrossoverRate ∧ pop.m_Species.length > 1 →
        ReproduceDad E P s pop mom w
          = (vectorAt pop.m_Species
                (E.RandInt 0 ((pop.m_Species.length : Int) - 1) (E.RandFloat w).2).1).bind
              (fun sp =>
                (GetRandomIndividual E sp
                  (E.RandInt 0 ((pop.m_Species.length : Int) - 1) (E.RandFloat w).2).2).map
                  (fun r => ((r.1, true), r.2))))
      ∧ ((E.RandFloat w).1 < P.InterspeciesCrossoverRate ∧ pop.m_Species.length > 1 →
          ∀ (dad : Genome G) (inter : Bool) (w1 : W),
            ReproduceDad E P s pop mom w = some ((dad, inter), w1) →
            inter = true
              ∧ ∃ sp ∈ pop.m_Species, dad ∈ sp.m_Individuals
                  ∨ (sp.m_Individuals = [] ∧ dad = sp.m_Representative))
      ∧ twoSpeciesPopulation.m_Species = [pairSpecies, foreignSpecies]
      ∧ (recordingEnv.RandFloat 1).1 < interspeciesParameters.InterspeciesCrossoverRate
      ∧ twoSpeciesPopulation.m_Species.length > 1
      ∧ (recordingEnv.RandInt 0 ((twoSpeciesPopulation.m_Species.length : Int) - 1) 2).1 = 0
      ∧ vectorAt twoSpeciesPopulation.m_Species 0 = some pairSpecies
      ∧ ReproduceDad recordingEnv interspeciesParameters pairSpecies twoSpeciesPopulation
          (sampleGenome 1 10 0) 1 = some ((sampleGenome 2 7 0, true), 4)
      ∧ sampleGenome 2 7 0 ∈ pairSpecies.m_Individuals
      ∧ sampleGenome 2 7 0 ∉ foreignSpecies.m_Individuals
      ∧ sampleGenome 2 7 0 ≠ foreignSpecies.m_Representative
      ∧ GetRandomIndividual recordingEnv pairSpecies 1 = some (sampleGenome 2 7 0, 2)
      ∧ ReproduceMateOrCopy recordingEnv interspeciesParameters pairSpecies
          twoSpeciesPopulation 1
          = some (((recordingEnv.Mate (sampleGenome 2 7 0) (sampleGenome 2 7 0) false true
              7).1, true), 8) := by
  refine ⟨?_, ?_, ?_, ?_, ?_, ?_, ?_, ?_, ?_, ?_, ?_, ?_, ?_⟩
  · intro h
    exact ReproduceDad_interspecies E P s pop mom w h
  · intro h dad inter w1 hd
    refine ⟨(ReproduceDad_flag E P s pop mom w dad inter w1 hd).mpr h, ?_⟩
    rw [ReproduceDad_interspecies E P s pop mom w h] at hd
    cases hv : vectorAt pop.m_Species
        (E.RandInt 0 ((pop.m_Species.length : Int) - 1) (E.RandFloat w).2).1 with
    | none =>
      rw [hv] at hd
      exact absurd hd (by simp)
    | some sp =>
      rw [hv] at hd
      simp only [Option.some_bind] at hd
      cases hg : GetRandomIndividual E sp
          (E.RandInt 0 ((pop.m_Species.length : Int) - 1) (E.RandFloat w).2).2 with
      | none =>
        rw [hg] at hd
        exact absurd hd (by simp)
      | some r =>
        rw [hg] at hd
        simp only [Option.map_some', Option.some.injEq, Prod.mk.injEq] at hd
        refine ⟨sp, vectorAt_mem _ _ _ hv, ?_⟩
        have hr : GetRandomIndividual E sp
            (E.RandInt 0 ((pop.m_Species.length : Int) - 1) (E.RandFloat w).2).2
            = some (dad, r.2) := by
          rw [hg, ← hd.1.1]
        exact GetRandomIndividual_mem_or_rep E sp _ dad r.2 hr
  · rfl
  · with_unfolding_all decide
  · with_unfolding_all decide
  · with_unfolding_all decide
  · with_unfolding_all decide
  · with_unfolding_all decide
  · with_unfolding_all decide
  · with_unfolding_all decide
  · with_unfolding_all decide
  · with_unfolding_all decide
  · with_unfolding_all decide

/-- The father selection of `ReproduceOne` in the interspecies branch, when every index
`RandInt(0, size-1)` returns is in its range: the loop ends with draw number `j` (counted
from 0) for some `j <= 64`, every earlier draw gave a species of average fitness 0, and
draw `j` gave a species of nonzero average fitness unless `j = 64`. The father is what
`GetIndividual` returns for the species of draw `j` when its average fitness is not 0,
and what `GetIndividual` returns for this species when it is 0; in both cases the flag
`t_interspecies` is `true`. -/
theorem ReproduceOne_foreign_father (E : Env G W) (P : Parameters) (s : Species G)
    (pop : Population G) (mom : Genome G) (w : W)
    (hrange : ∀ (hi : Int) (w0 : W), 0 ≤ hi →
      0 ≤ (E.RandInt 0 hi w0).1 ∧ (E.RandInt 0 hi w0).1 ≤ hi)
    (hbranch : (E.RandFloat w).1 < P.InterspeciesCrossoverRate ∧ pop.m_Species.length > 1) :
    ∃ (j : Nat) (sp : Species G), j ≤ 64
      ∧ (∀ i : Nat, i < j → ∃ sp0 : Species G,
          vectorAt pop.m_Species
              (drawNumber E ((pop.m_Species.length : Int) - 1) i (E.RandFloat w).2).1 = some sp0
            ∧ sp0.m_AverageFitness = 0)
      ∧ vectorAt pop.m_Species
          (drawNumber E ((pop.m_Species.length : Int) - 1) j (E.RandFloat w).2).1 = some sp
      ∧ (sp.m_AverageFitness ≠ 0 ∨ j = 64)
      ∧ foreignSpeciesLoop E pop 64 (E.RandFloat w).2
          = some (drawNumber E ((pop.m_Species.length : Int) - 1) j (E.RandFloat w).2)
      ∧ ReproduceOneDad E P s pop mom w
          = (GetIndividual E P (if sp.m_AverageFitness = 0 then s else sp)
              (drawNumber E ((pop.m_Species.length : Int) - 1) j (E.RandFloat w).2).2).map
              (fun r => ((r.1, true), r.2)) := by
  have hlen : (0 : Int) ≤ (pop.m_Species.length : Int) - 1 := by omega
  have hr : ∀ w0 : W, ∃ sp : Species G,
      vectorAt pop.m_Species (E.RandInt 0 ((pop.m_Species.length : Int) - 1) w0).1 = some sp :=
    fun w0 => vectorAt_of_range _ _ (hrange _ w0 hlen).1 (hrange _ w0 hlen).2
  obtain ⟨j, sp, hj, hloop, hat, hstop, hbefore⟩ :=
    foreignSpeciesLoop_spec E pop hr 64 (E.RandFloat w).2
  refine ⟨j, sp, hj, hbefore, hat, hstop, hloop, ?_⟩
  unfold ReproduceOneDad
  simp only [hbranch, and_self, if_true, hloop, hat]
  by_cases hz : sp.m_AverageFitness = 0
  · simp only [hz, if_true]
    cases GetIndividual E P s
        (drawNumber E ((pop.m_Species.length : Int) - 1) j (E.RandFloat w).2).2 with
    | none => rfl
    | some r => rfl
  · simp only [hz, if_false]
    cases GetIndividual E P sp
        (drawNumber E ((pop.m_Species.length : Int) - 1) j (E.RandFloat w).2).2 with
    | none => rfl
    | some r => rfl

/-! ### The steady-state scenario of `ReproduceOne` -/

/-- C21, counterexample: a species of two evaluated members, crossover rate 1 and a
population of one species, in the Simplifying phase. `ReproduceOne` does not mate: its
candidate is the member with ID 1, flagged unmated, and the result is the same whatever
function stands for `Mate`. -/
theorem ReproduceOne_scenario_counterexample :
    pairSpecies.m_Individuals = [sampleGenome 1 10 0, sampleGenome 2 7 0]
      ∧ (sampleGenome 1 10 0).IsEvaluated = true
      ∧ (sampleGenome 2 7 0).IsEvaluated = true
      ∧ fullCrossoverParameters.CrossoverRate = 1
      ∧ singleSimplifyingPopulation.m_Species = [pairSpecies]
      ∧ singleSimplifyingPopulation.GetSearchMode = SearchMode.SIMPLIFYING
      ∧ ReproduceOneMateOrCopy sampleEnv fullCrossoverParameters pairSpecies
          singleSimplifyingPopulation 0 = some ((sampleGenome 1 10 0, false), 2)
      ∧ (∀ mate2 : Genome Nat → Genome Nat → Bool → Bool → Nat → Genome Nat × Nat,
          ReproduceOne { sampleEnv with Mate := mate2 } fullCrossoverParameters pairSpecies
              singleSimplifyingPopulation 0
            = ReproduceOne sampleEnv fullCrossoverParameters pairSpecies
                singleSimplifyingPopulation 0)
      ∧ (ReproduceOne sampleEnv fullCrossoverParameters pairSpecies
          singleSimplifyingPopulation 0).map (fun r => (r.1.1.m_ID, r.1.1.m_Genes, r.2))
          = some (100, 5, 4) := by
  refine ⟨rfl, rfl, rfl, rfl, rfl, rfl, ?_, ?_, ?_⟩
  · with_unfolding_all decide
  · intro mate2
    unfold ReproduceOne ReproduceOneCandidate
    rw [ReproduceOneMateOrCopy_simplifying _ fullCrossoverParameters pairSpecies
        singleSimplifyingPopulation 0 rfl,
      ReproduceOneMateOrCopy_simplifying sampleEnv fullCrossoverParameters pairSpecies
        singleSimplifyingPopulation 0 rfl]
    simp only [GetIndividual_Mate, MutateGenome_Mate]
    rfl
  · with_unfolding_all decide

/-- C21, amended: for a species with exactly two members, both evaluated, crossover rate
1, a population holding a single species and a search phase other than Simplifying,
under the contract of `std::sort`, with operator probabilities that are not negative and
for every sequence of draws in `[0,1)`, `ReproduceOne` takes the intraspecies-mate path:
mother and father are members of the species, the father selection returns the flag
`false`, and the candidate is `Mate(mother, father, _, false)`. It returns a baby whose ID
is the value of the genome-ID counter before the call and whose evaluated flag is
`false`, and the counter it leaves is one larger. -/
theorem ReproduceOne_scenario (E : Env G W) (hE : StdSortContract E) (P : Parameters)
    (s : Species G) (pop : Population G) (w : W) (g1 g2 : Genome G)
    (hprob : ∀ m ∈ initialMutations P, 0 ≤ m.Probability)
    (hdraw : ∀ w0 : W, 0 ≤ (E.RandFloat w0).1 ∧ (E.RandFloat w0).1 < 1)
    (hcross : P.CrossoverRate = 1)
    (hmode : pop.GetSearchMode ≠ SearchMode.SIMPLIFYING)
    (hsingle : pop.m_Species.length = 1)
    (hs : s.m_Individuals = [g1, g2]) (h1 : g1.IsEvaluated = true)
    (h2 : g2.IsEvaluated = true) :
    ∃ (mom : Genome G) (w1 : W) (dad : Genome G) (w2 : W),
      mom ∈ s.m_Individuals ∧ dad ∈ s.m_Individuals
      ∧ GetIndividual E P s w = some (mom, w1)
      ∧ ReproduceOneDad E P s pop mom (E.RandFloat w1).2 = some ((dad, false), w2)
      ∧ ReproduceOneMateOrCopy E P s pop w
          = some (((E.Mate mom dad
                (decide (¬ (E.RandFloat w2).1 < P.MultipointCrossoverRate)) false
                (E.RandFloat w2).2).1, true),
              (E.Mate mom dad
                (decide (¬ (E.RandFloat w2).1 < P.MultipointCrossoverRate)) false
                (E.RandFloat w2).2).2)
      ∧ ∃ (baby : Genome G) (w3 : W),
          ReproduceOne E P s pop w = some ((baby, pop.IncrementNextGenomeID), w3)
          ∧ baby.GetID = pop.GetNextGenomeID
          ∧ baby.IsEvaluated = false
          ∧ pop.IncrementNextGenomeID.GetNextGenomeID = pop.GetNextGenomeID + 1 := by
  have hget : ∀ w0 : W, ∃ g : Genome G, g ∈ s.m_Individuals
      ∧ GetIndividual E P s w0 = some (g, (E.RandFloat w0).2) :=
    fun w0 => GetIndividual_pair E P s w0 g1 g2 hs h1 h2 (hdraw w0).1 (le_of_lt (hdraw w0).2)
  obtain ⟨mom, hmomMem, hmom⟩ := hget w
  have hn0 : s.NumMembers ≠ 0 := by simp [Species.NumMembers, hs]
  have hn1 : s.NumMembers ≠ 1 := by simp [Species.NumMembers, hs]
  have hcr : (E.RandFloat (E.RandFloat w).2).1 < P.CrossoverRate := by
    rw [hcross]
    exact (hdraw _).2
  -- the father selection
  obtain ⟨d0, hd0Mem, hd0⟩ := hget (E.RandFloat (E.RandFloat (E.RandFloat w).2).2).2
  obtain ⟨dad, w2, hdadMem, hloop⟩ :=
    intraspeciesDadLoopOne_returns E P s mom hget 16 d0
      (E.RandFloat (E.RandFloat (E.RandFloat (E.RandFloat w).2).2).2).2 hd0Mem
  have hnot : ¬ ((E.RandFloat (E.RandFloat (E.RandFloat w).2).2).1
      < P.InterspeciesCrossoverRate ∧ pop.m_Species.length > 1) := by
    intro h
    rw [hsingle] at h
    exact absurd h.2 (by decide)
  have hdad : ReproduceOneDad E P s pop mom (E.RandFloat (E.RandFloat w).2).2
      = some ((dad, false), w2) := by
    unfold ReproduceOneDad
    simp only [hnot, if_false, hd0, hloop]
  have hcand := ReproduceOneMateOrCopy_mating E P s pop w mom (E.RandFloat w).2 dad false w2
    hn0 hn1 hmom hcr hmode hdad
  refine ⟨mom, (E.RandFloat w).2, dad, w2, hmomMem, hdadMem, hmom, hdad, hcand, ?_⟩
  have hcandidate : ∃ r : Genome G × W, ReproduceOneCandidate E P s pop w = some r := by
    unfold ReproduceOneCandidate
    rw [hcand]
    simp only [Bool.true_eq_false, if_false]
    split
    · exact MutateGenome_returns E hE P false pop _ _ hprob (le_of_lt (hdraw _).2)
    · exact ⟨_, rfl⟩
  obtain ⟨r, hr⟩ := hcandidate
  refine ⟨finalizeBaby E pop r.1, r.2, ?_, rfl, rfl, rfl⟩
  unfold ReproduceOne
  rw [hr]

/-- Witness for the amended C21: the species of two evaluated members in the
Complexifying phase, with the generators of the sample environment. -/
theorem ReproduceOne_scenario_witness :
    ∃ (mom : Genome Nat) (w1 : Nat) (dad : Genome Nat) (w2 : Nat),
      mom ∈ pairSpecies.m_Individuals ∧ dad ∈ pairSpecies.m_Individuals
      ∧ GetIndividual sampleEnv fullCrossoverParameters pairSpecies 0 = some (mom, w1)
      ∧ ReproduceOneDad sampleEnv fullCrossoverParameters pairSpecies singlePopulation mom
          (sampleEnv.RandFloat w1).2 = some ((dad, false), w2)
      ∧ ReproduceOneMateOrCopy sampleEnv fullCrossoverParameters pairSpecies singlePopulation 0
          = some (((sampleEnv.Mate mom dad
                (decide (¬ (sampleEnv.RandFloat w2).1
                  < fullCrossoverParameters.MultipointCrossoverRate)) false
                (sampleEnv.RandFloat w2).2).1, true),
              (sampleEnv.Mate mom dad
                (decide (¬ (sampleEnv.RandFloat w2).1
                  < fullCrossoverParameters.MultipointCrossoverRate)) false
                (sampleEnv.RandFloat w2).2).2)
      ∧ ∃ (baby : Genome Nat) (w3 : Nat),
          ReproduceOne sampleEnv fullCrossoverParameters pairSpecies singlePopulation 0
            = some ((baby, singlePopulation.IncrementNextGenomeID), w3)
          ∧ baby.GetID = singlePopulation.GetNextGenomeID
          ∧ baby.IsEvaluated = false
          ∧ singlePopulation.IncrementNextGenomeID.GetNextGenomeID
              = singlePopulation.GetNextGenomeID + 1 :=
  ReproduceOne_scenario sampleEnv sampleEnv_contract fullCrossoverParameters pairSpecies
    singlePopulation 0 (sampleGenome 1 10 0) (sampleGenome 2 7 0)
    sampleParameters_nonneg
    sampleEnv_RandFloat_range
    rfl
    (by decide)
    rfl
    rfl
    rfl
    rfl

/-- C22: the father of the interspecies branch of `ReproduceOne`, and where it departs
from the claim. When every index `RandInt(0, size-1)` returns is in its range, the loop
stops at the first draw that gives a species of nonzero average fitness and the father
is what `GetIndividual` returns for that species; the loop gives up after draw number 64
(counted from 0), that is after 65 draws and not 64, and the father is then what
`GetIndividual` returns for this species; and in both cases the flag `t_interspecies`
is `true`. In a population of two species of average fitness 0 the loop started in
state 1 makes 65 draws and leaves state 66, the father is the member with ID 2 of the
reproducing species, and the candidate is `Mate(mother, father, true, true)`: a father
from the reproducing species is handed to `Mate` with the interspecies flag set. The
draw ranges over all species: in a population whose only species of nonzero average
fitness is the reproducing one, the species the loop settles on is the reproducing
species itself. -/
theorem ReproduceOne_giveup (E : Env G W) (P : Parameters) (s : Species G)
    (pop : Population G) (mom : Genome G) (w : W) :
    ((∀ (hi : Int) (w0 : W), 0 ≤ hi →
          0 ≤ (E.RandInt 0 hi w0).1 ∧ (E.RandInt 0 hi w0).1 ≤ hi) →
        (E.RandFloat w).1 < P.InterspeciesCrossoverRate ∧ pop.m_Species.length > 1 →
        ∃ (j : Nat) (sp : Species G), j ≤ 64
          ∧ (∀ i : Nat, i < j → ∃ sp0 : Species G,
              vectorAt pop.m_Species
                  (drawNumber E ((pop.m_Species.length : Int) - 1) i (E.RandFloat w).2).1
                = some sp0
                ∧ sp0.m_AverageFitness = 0)
          ∧ vectorAt pop.m_Species
              (drawNumber E ((pop.m_Species.length : Int) - 1) j (E.RandFloat w).2).1 = some sp
          ∧ (sp.m_AverageFitness ≠ 0 ∨ j = 64)
          ∧ foreignSpeciesLoop E pop 64 (E.RandFloat w).2
              = some (drawNumber E ((pop.m_Species.length : Int) - 1) j (E.RandFloat w).2)
          ∧ ReproduceOneDad E P s pop mom w
              = (GetIndividual E P (if sp.m_AverageFitness = 0 then s else sp)
                  (drawNumber E ((pop.m_Species.length : Int) - 1) j
                    (E.RandFloat w).2).2).map
                  (fun r => ((r.1, true), r.2)))
      ∧ (∀ sp ∈ zeroAveragePopulation.m_Species, sp.m_AverageFitness = 0)
      ∧ foreignSpeciesLoop recordingEnv zeroAveragePopulation 64 1
          = some (drawNumber recordingEnv 1 64 1)
      ∧ stateAfterDraws recordingEnv 1 65 1 = 66
      ∧ (recordingEnv.RandFloat 0).1 < interspeciesParameters.InterspeciesCrossoverRate
      ∧ GetIndividual recordingEnv interspeciesParameters pairSpecies 66
          = some (sampleGenome 2 7 0, 67)
      ∧ sampleGenome 2 7 0 ∈ pairSpecies.m_Individuals
      ∧ ReproduceOneDad recordingEnv interspeciesParameters pairSpecies zeroAveragePopulation
          (sampleGenome 1 10 0) 0 = some ((sampleGenome 2 7 0, true), 67)
      ∧ ReproduceOneMateOrCopy recordingEnv interspeciesParameters pairSpecies
          zeroAveragePopulation 0
          = some (((recordingEnv.Mate (sampleGenome 1 10 0) (sampleGenome 2 7 0) true true
              70).1, true), 71)
      ∧ (recordingEnv.Mate (sampleGenome 1 10 0) (sampleGenome 2 7 0) true true 70).1
          ≠ (recordingEnv.Mate (sampleGenome 1 10 0) (sampleGenome 2 7 0) true false 70).1
      ∧ ownAveragePopulation.m_Species
          = [assignedSpecies, { foreignSpecies with m_AverageFitness := 0 }]
      ∧ foreignSpeciesLoop recordingEnv ownAveragePopulation 64 1 = some (0, 3)
      ∧ vectorAt ownAveragePopulation.m_Species 0 = some assignedSpecies
      ∧ ReproduceOneDad recordingEnv interspeciesParameters assignedSpecies
          ownAveragePopulation (sampleGenome 1 10 0) 0 = some ((sampleGenome 1 10 0, true), 4)
      ∧ sampleGenome 1 10 0 ∈ assignedSpecies.m_Individuals := by
  refine ⟨?_, ?_, ?_, ?_, ?_, ?_, ?_, ?_, ?_, ?_, rfl, ?_, ?_, ?_, ?_⟩
  · intro hrange hbranch
    exact ReproduceOne_foreign_father E P s pop mom w hrange hbranch
  · intro sp hsp
    simp only [zeroAveragePopulation, List.mem_cons, List.mem_singleton, List.not_mem_nil,
      or_false] at hsp
    rcases hsp with h | h
    · subst h
      rfl
    · subst h
      rfl
  · with_unfolding_all decide
  · with_unfolding_all decide
  · with_unfolding_all decide
  · with_unfolding_all decide
  · with_unfolding_all decide
  · with_unfolding_all decide
  · with_unfolding_all decide
  · with_unfolding_all decide
  · with_unfolding_all decide
  · with_unfolding_all decide
  · with_unfolding_all decide
  · with_unfolding_all decide

/-! ### What `Reproduce` and `ReproduceOne` do with a candidate -/

/-- A candidate that leaves the `do ... while` of `Reproduce` is what one pass of its
body produced. -/
theorem ReproduceRetry_attempt (E : Env G W) (P : Parameters) (s : Species G)
    (pop : Population G) (fuel : Nat) (clone : Bool) (w : W) (cand : Genome G) (w1 : W)
    (h : ReproduceRetry E P s pop fuel clone w = some (cand, w1)) :
    ∃ (clone0 : Bool) (w0 : W), ReproduceAttempt E P s pop clone0 w0 = some (cand, w1) := by
  induction fuel generalizing clone w with
  | zero => simp [ReproduceRetry] at h
  | succ fuel ih =>
    rw [ReproduceRetry] at h
    split at h
    · exact absurd h (by simp)
    · rename_i t_baby w2 hatt
      split at h
      · exact ih _ _ h
      · simp only [Option.some.injEq, Prod.mk.injEq] at h
        obtain ⟨h1, h2⟩ := h
        subst h1 h2
        exact ⟨clone, w, hatt⟩

/-- What one pass of the body of the `do ... while` of `Reproduce` does with its
candidate: an unmated candidate goes to `MutateGenome` without a draw; for a mated one a
float is drawn and the candidate goes to `MutateGenome` exactly when the draw is below
`OverallMutationRate`, and is kept as it is otherwise. -/
theorem ReproduceAttempt_policy (E : Env G W) (P : Parameters) (s : Species G)
    (pop : Population G) (clone : Bool) (w : W) (cand : Genome G) (w1 : W)
    (h : ReproduceAttempt E P s pop clone w = some (cand, w1)) :
    ∃ (c : Genome G) (mated : Bool) (w2 : W),
      ReproduceMateOrCopy E P s pop w = some ((c, mated), w2)
      ∧ (mated = false → MutateGenome E P clone pop c w2 = some (cand, w1))
      ∧ (mated = true → (E.RandFloat w2).1 < P.OverallMutationRate →
          MutateGenome E P clone pop c (E.RandFloat w2).2 = some (cand, w1))
      ∧ (mated = true → ¬ (E.RandFloat w2).1 < P.OverallMutationRate →
          cand = c ∧ w1 = (E.RandFloat w2).2) := by
  unfold ReproduceAttempt at h
  split at h
  · exact absurd h (by simp)
  · rename_i c mated w2 hc
    refine ⟨c, mated, w2, hc, ?_, ?_, ?_⟩
    · intro hm
      simpa [hm] using h
    · intro hm hlt
      simpa [hm, hlt] using h
    · intro hm hge
      simp only [hm, Bool.true_eq_false, if_false, hge, Option.some.injEq,
        Prod.mk.injEq] at h
      exact ⟨h.1.symm, h.2.symm⟩

/-- The same for the mutation step of `ReproduceOne`, whose clone flag is `false`. -/
theorem ReproduceOneCandidate_policy (E : Env G W) (P : Parameters) (s : Species G)
    (pop : Population G) (w : W) (cand : Genome G) (w1 : W)
    (h : ReproduceOneCandidate E P s pop w = some (cand, w1)) :
    ∃ (c : Genome G) (mated : Bool) (w2 : W),
      ReproduceOneMateOrCopy E P s pop w = some ((c, mated), w2)
      ∧ (mated = false → MutateGenome E P false pop c w2 = some (cand, w1))
      ∧ (mated = true → (E.RandFloat w2).1 < P.OverallMutationRate →
          MutateGenome E P false pop c (E.RandFloat w2).2 = some (cand, w1))
      ∧ (mated = true → ¬ (E.RandFloat w2).1 < P.OverallMutationRate →
          cand = c ∧ w1 = (E.RandFloat w2).2) := by
  unfold ReproduceOneCandidate at h
  split at h
  · exact absurd h (by simp)
  · rename_i c mated w2 hc
    refine ⟨c, mated, w2, hc, ?_, ?_, ?_⟩
    · intro hm
      simpa [hm] using h
    · intro hm hlt
      simpa [hm, hlt] using h
    · intro hm hge
      simp only [hm, Bool.true_eq_false, if_false, hge, Option.some.injEq,
        Prod.mk.injEq] at h
      exact ⟨h.1.symm, h.2.symm⟩

/-- The loop of `Reproduce` after the champion: every baby it logs is the finalisation
of the candidate of one pass of the `do ... while`, made in a population context that has
the search phase and the live species of the one the loop started with and the genome-ID
counter advanced by the number of babies logged before. -/
theorem ReproduceLoop_attempts (E : Env G W) (P : Parameters) (s : Species G)
    (fuel count : Nat) (pop : Population G) (w : W) (born : List (Genome G))
    (r : ReproduceResult G W)
    (h : ReproduceLoop E P s fuel count true pop w born = some r) :
    ∃ new : List (Genome G), r.born = born ++ new ∧ new.length = count
      ∧ ∀ (k : Nat) (b : Genome G), new[k]? = some b →
          ∃ (pop1 : Population G) (clone : Bool) (w0 : W) (cand : Genome G) (w1 : W),
            pop1.m_SearchMode = pop.m_SearchMode
            ∧ pop1.m_Species = pop.m_Species
            ∧ pop1.m_NextGenomeID = pop.m_NextGenomeID + (k : Int)
            ∧ ReproduceAttempt E P s pop1 clone w0 = some (cand, w1)
            ∧ b = finalizeBaby E pop1 cand := by
  induction count generalizing pop w born with
  | zero =>
    simp only [ReproduceLoop, Option.some.injEq] at h
    subst h
    exact ⟨[], by simp, rfl, by simp⟩
  | succ count ih =>
    rw [ReproduceLoop] at h
    simp only [Bool.true_eq_false, if_false] at h
    split at h
    · exact absurd h (by simp)
    · rename_i t_baby w1 hcand
      obtain ⟨new1, hborn, hlen, hnew⟩ := ih _ _ _ h
      obtain ⟨-, q2, q3, -, q5, -, -⟩ :=
        placeBaby_spec E (finalizeBaby E pop t_baby) pop.IncrementNextGenomeID w1
      obtain ⟨clone0, w0, hatt⟩ := ReproduceRetry_attempt E P s pop fuel false w t_baby w1 hcand
      refine ⟨finalizeBaby E pop t_baby :: new1, by rw [hborn]; simp, by simp [hlen], ?_⟩
      intro k b hk
      cases k with
      | zero =>
        simp only [List.getElem?_cons_zero, Option.some.injEq] at hk
        exact ⟨pop, clone0, w0, t_baby, w1, rfl, rfl, by simp, hatt, hk.symm⟩
      | succ k1 =>
        simp only [List.getElem?_cons_succ] at hk
        obtain ⟨pop1, clone, w2, cand, w3, hmode, hspecies, hid, hatt1, hb⟩ := hnew k1 b hk
        refine ⟨pop1, clone, w2, cand, w3, ?_, ?_, ?_, hatt1, hb⟩
        · rw [hmode, q5]
          rfl
        · rw [hspecies, q2]
          rfl
        · rw [hid, q3]
          simp only [Population.IncrementNextGenomeID]
          push_cast
          omega

/-- `ReproduceOne` in the Simplifying phase, in closed form: the member `GetIndividual`
selects is handed to `MutateGenome` (after the crossover draw when the species has
several members) and the result is finalised; no other call is made. -/
theorem ReproduceOne_simplifying (E : Env G W) (P : Parameters) (s : Species G)
    (pop : Population G) (w : W) (hmode : pop.GetSearchMode = SearchMode.SIMPLIFYING) :
    ReproduceOne E P s pop w
      = if s.NumMembers = 0 then none
        else
          (GetIndividual E P s w).bind (fun m =>
            (MutateGenome E P false pop m.1
                (if s.NumMembers = 1 then m.2 else (E.RandFloat m.2).2)).map
              (fun r => ((finalizeBaby E pop r.1, pop.IncrementNextGenomeID), r.2))) := by
  unfold ReproduceOne ReproduceOneCandidate
  rw [ReproduceOneMateOrCopy_simplifying E P s pop w hmode]
  by_cases h0 : s.NumMembers = 0
  · simp [h0]
  · simp only [h0, if_false]
    cases hg : GetIndividual E P s w with
    | none => rfl
    | some m =>
      simp only [Option.some_bind, Bool.false_eq_true, if_true]
      cases hm : MutateGenome E P false pop m.1
          (if s.NumMembers = 1 then m.2 else (E.RandFloat m.2).2) with
      | none => simp [hm]
      | some r => simp [hm]

/-- In the Simplifying phase the candidate of a pass of `Reproduce` is the member
`GetRandomIndividual` returned, flagged unmated. -/
theorem ReproduceMateOrCopy_simplifying_member (E : Env G W) (P : Parameters) (s : Species G)
    (pop : Population G) (w : W) (c : Genome G) (mated : Bool) (w2 : W)
    (hmode : pop.GetSearchMode = SearchMode.SIMPLIFYING)
    (h : ReproduceMateOrCopy E P s pop w = some ((c, mated), w2)) :
    mated = false ∧ ∃ wm : W, GetRandomIndividual E s w = some (c, wm) := by
  rw [ReproduceMateOrCopy_simplifying E P s pop w hmode] at h
  split at h
  · exact absurd h (by simp)
  · split at h
    · exact absurd h (by simp)
    · rename_i m wm hm
      simp only [Option.some.injEq, Prod.mk.injEq] at h
      obtain ⟨⟨h1, h2⟩, -⟩ := h
      subst h1
      exact ⟨h2.symm, wm, hm⟩

/-- In the Simplifying phase the candidate of `ReproduceOne` is the member
`GetIndividual` returned, flagged unmated. -/
theorem ReproduceOneMateOrCopy_simplifying_member (E : Env G W) (P : Parameters)
    (s : Species G) (pop : Population G) (w : W) (c : Genome G) (mated : Bool) (w2 : W)
    (hmode : pop.GetSearchMode = SearchMode.SIMPLIFYING)
    (h : ReproduceOneMateOrCopy E P s pop w = some ((c, mated), w2)) :
    mated = false ∧ ∃ wm : W, GetIndividual E P s w = some (c, wm) := by
  rw [ReproduceOneMateOrCopy_simplifying E P s pop w hmode] at h
  split at h
  · exact absurd h (by simp)
  · split at h
    · exact absurd h (by simp)
    · rename_i m wm hm
      simp only [Option.some.injEq, Prod.mk.injEq] at h
      obtain ⟨⟨h1, h2⟩, -⟩ := h
      subst h1
      exact ⟨h2.symm, wm, hm⟩

/-- On a run on which `Reproduce` returns, every logged baby other than the first is the
finalisation of the candidate of one pass of the `do ... while`, made in a population
context with the search phase and the live species of the call and the genome-ID counter
advanced by the number of babies logged before. -/
theorem Reproduce_later_babies (E : Env G W) (P : Parameters) (fuel : Nat) (s : Species G)
    (pop : Population G) (w : W) (r : ReproduceResult G W)
    (hret : Reproduce E P fuel s pop w = some r) (k : Nat) (b : Genome G) (hk : 1 ≤ k)
    (hb : r.born[k]? = some b) :
    ∃ (pop1 : Population G) (clone : Bool) (w0 : W) (cand : Genome G) (w1 : W),
      pop1.m_SearchMode = pop.m_SearchMode
      ∧ pop1.m_Species = pop.m_Species
      ∧ pop1.m_NextGenomeID = pop.m_NextGenomeID + (k : Int)
      ∧ ReproduceAttempt E P s pop1 clone w0 = some (cand, w1)
      ∧ b = finalizeBaby E pop1 cand := by
  have hcount : 0 ≤ Rounded s.m_OffspringRqd := by
    by_contra hneg
    have hz : ¬ Rounded s.m_OffspringRqd = 0 := by omega
    have hlt : Rounded s.m_OffspringRqd < 0 := by omega
    simp [Reproduce, Species.GetOffspringRqd, hz, hlt] at hret
  have hpos : 1 ≤ Rounded s.m_OffspringRqd := by
    by_contra hlt
    have hz : Rounded s.m_OffspringRqd = 0 := by omega
    simp [Reproduce, Species.GetOffspringRqd, hz] at hret
    rw [← hret] at hb
    simp at hb
  cases hs : s.m_Individuals[0]? with
  | none =>
    rw [Reproduce_eq_loop E P fuel s pop w hcount] at hret
    obtain ⟨n, hn⟩ : ∃ n, (Rounded s.m_OffspringRqd).toNat = n + 1 :=
      ⟨(Rounded s.m_OffspringRqd).toNat - 1, by omega⟩
    rw [hn, ReproduceLoop] at hret
    simp [hs] at hret
  | some g0 =>
    rw [Reproduce_first_step E P fuel s pop w g0 hs hpos] at hret
    obtain ⟨new, hborn, -, hnew⟩ := ReproduceLoop_attempts E P s fuel _ _ _ _ r hret
    obtain ⟨-, q2, q3, -, q5, -, -⟩ :=
      placeBaby_spec E (finalizeBaby E pop g0) pop.IncrementNextGenomeID w
    obtain ⟨k1, rfl⟩ : ∃ k1, k = k1 + 1 := ⟨k - 1, by omega⟩
    have hbk : new[k1]? = some b := by
      rw [hborn] at hb
      simpa using hb
    obtain ⟨pop1, clone, w0, cand, w1, hmode, hspecies, hid, hatt, hfin⟩ := hnew k1 b hbk
    refine ⟨pop1, clone, w0, cand, w1, ?_, ?_, ?_, hatt, hfin⟩
    · rw [hmode, q5]
      rfl
    · rw [hspecies, q2]
      rfl
    · rw [hid, q3]
      simp only [Population.IncrementNextGenomeID]
      push_cast
      omega

/-- C15: the mating and mutation policy of `Reproduce` and `ReproduceOne`. In the
Simplifying phase neither function calls `Mate`: replacing `Mate` by any other function
changes nothing in what they return, and the candidate of every pass is the member the
selection call returned, flagged unmated. In every phase a candidate flagged unmated is
a member of the species (an evaluated one in `ReproduceOne`) and a candidate flagged
mated is what `Mate` returned for a mother from the species. An unmated candidate is
handed to `MutateGenome` without a draw; for a mated candidate one float is drawn and it
is handed to `MutateGenome` exactly when the draw is below `OverallMutationRate`,
otherwise it is kept as it is. This is what the two functions return: every baby after
the first that `Reproduce` logs, and the baby `ReproduceOne` returns, is the finalisation
of a candidate treated in this way, and in the Simplifying phase `ReproduceOne` is
`GetIndividual` followed by `MutateGenome` and the finalisation. In the sample
environment the four-member species gives an unmated copy of a member in the
Simplifying phase and a mated candidate in the Complexifying phase, in both functions;
`ReproduceOne` returns the mutated copy in the first case, the mutated mated candidate
when the draw is 0 and the unchanged mated candidate when the draw is 0.4. -/
theorem mating_policy (E : Env G W) (P : Parameters) (s : Species G) (pop : Population G)
    (w : W) (mate2 : Genome G → Genome G → Bool → Bool → W → Genome G × W) :
    (pop.GetSearchMode = SearchMode.SIMPLIFYING → ∀ fuel : Nat,
        Reproduce { E with Mate := mate2 } P fuel s pop w = Reproduce E P fuel s pop w)
      ∧ (pop.GetSearchMode = SearchMode.SIMPLIFYING →
          ReproduceOne { E with Mate := mate2 } P s pop w = ReproduceOne E P s pop w)
      ∧ (pop.GetSearchMode = SearchMode.SIMPLIFYING →
          ∀ (b : Genome G) (mated : Bool) (w1 : W),
            ReproduceMateOrCopy E P s pop w = some ((b, mated), w1) →
            mated = false ∧ b ∈ s.m_Individuals)
      ∧ (pop.GetSearchMode = SearchMode.SIMPLIFYING →
          ∀ (b : Genome G) (mated : Bool) (w1 : W),
            ReproduceOneMateOrCopy E P s pop w = some ((b, mated), w1) →
            mated = false ∧ b ∈ s.m_Individuals ∧ b.IsEvaluated = true)
      ∧ (∀ (b : Genome G) (mated : Bool) (w1 : W),
          ReproduceMateOrCopy E P s pop w = some ((b, mated), w1) →
          (mated = false → b ∈ s.m_Individuals)
            ∧ (mated = true → ∃ (mom dad : Genome G) (a i : Bool) (w0 : W),
                mom ∈ s.m_Individuals ∧ (b, w1) = E.Mate mom dad a i w0))
      ∧ (∀ (b : Genome G) (mated : Bool) (w1 : W),
          ReproduceOneMateOrCopy E P s pop w = some ((b, mated), w1) →
          (mated = false → b ∈ s.m_Individuals ∧ b.IsEvaluated = true)
            ∧ (mated = true → ∃ (mom dad : Genome G) (a i : Bool) (w0 : W),
                mom ∈ s.m_Individuals ∧ (b, w1) = E.Mate mom dad a i w0))
      ∧ (∀ (clone : Bool) (b : Genome G) (w1 : W),
          ReproduceMateOrCopy E P s pop w = some ((b, false), w1) →
          ReproduceAttempt E P s pop clone w = MutateGenome E P clone pop b w1)
      ∧ (∀ (clone : Bool) (b : Genome G) (w1 : W),
          ReproduceMateOrCopy E P s pop w = some ((b, true), w1) →
          ((E.RandFloat w1).1 < P.OverallMutationRate →
              ReproduceAttempt E P s pop clone w
                = MutateGenome E P clone pop b (E.RandFloat w1).2)
            ∧ (¬ (E.RandFloat w1).1 < P.OverallMutationRate →
              ReproduceAttempt E P s pop clone w = some (b, (E.RandFloat w1).2)))
      ∧ (∀ (b : Genome G) (w1 : W),
          ReproduceOneMateOrCopy E P s pop w = some ((b, false), w1) →
          ReproduceOneCandidate E P s pop w = MutateGenome E P false pop b w1)
      ∧ (∀ (b : Genome G) (w1 : W),
          ReproduceOneMateOrCopy E P s pop w = some ((b, true), w1) →
          ((E.RandFloat w1).1 < P.OverallMutationRate →
              ReproduceOneCandidate E P s pop w
                = MutateGenome E P false pop b (E.RandFloat w1).2)
            ∧ (¬ (E.RandFloat w1).1 < P.OverallMutationRate →
              ReproduceOneCandidate E P s pop w = some (b, (E.RandFloat w1).2)))
      ∧ (ReproduceMateOrCopy sampleEnv sampleParameters fourSpecies simplifyingPopulation 0).map
          (fun r => (r.1.1.m_ID, r.1.1.m_Genes, r.1.2, r.2)) = some (1, 1, false, 2)
      ∧ (ReproduceMateOrCopy sampleEnv sampleParameters fourSpecies parentPopulation 0).map
          (fun r => (r.1.1.m_ID, r.1.1.m_Genes, r.1.2, r.2)) = some (1, 10, true, 6)
      ∧ (ReproduceOneMateOrCopy sampleEnv sampleParameters fourSpecies simplifyingPopulation
          0).map (fun r => (r.1.1.m_ID, r.1.1.m_Genes, r.1.2, r.2)) = some (2, 2, false, 3)
      ∧ (ReproduceOneMateOrCopy sampleEnv sampleParameters fourSpecies parentPopulation 0).map
          (fun r => (r.1.1.m_ID, r.1.1.m_Genes, r.1.2, r.2)) = some (2, 15, true, 10)
      ∧ (∀ (fuel : Nat) (r : ReproduceResult G W), Reproduce E P fuel s pop w = some r →
          ∀ (k : Nat) (b : Genome G), 1 ≤ k → r.born[k]? = some b →
            ∃ (pop1 : Population G) (clone : Bool) (w0 : W) (c : Genome G) (mated : Bool)
                (w2 : W) (cand : Genome G) (w1 : W),
              pop1.m_SearchMode = pop.m_SearchMode
              ∧ pop1.m_NextGenomeID = pop.m_NextGenomeID + (k : Int)
              ∧ ReproduceMateOrCopy E P s pop1 w0 = some ((c, mated), w2)
              ∧ b = finalizeBaby E pop1 cand
              ∧ (mated = false →
                  c ∈ s.m_Individuals ∧ MutateGenome E P clone pop1 c w2 = some (cand, w1))
              ∧ (mated = true → (E.RandFloat w2).1 < P.OverallMutationRate →
                  MutateGenome E P clone pop1 c (E.RandFloat w2).2 = some (cand, w1))
              ∧ (mated = true → ¬ (E.RandFloat w2).1 < P.OverallMutationRate → cand = c)
              ∧ (pop.GetSearchMode = SearchMode.SIMPLIFYING →
                  mated = false ∧ ∃ wm : W, GetRandomIndividual E s w0 = some (c, wm)))
      ∧ (∀ (baby : Genome G) (pop2 : Population G) (w3 : W),
          ReproduceOne E P s pop w = some ((baby, pop2), w3) →
          ∃ (c : Genome G) (mated : Bool) (w2 : W) (cand : Genome G),
            ReproduceOneMateOrCopy E P s pop w = some ((c, mated), w2)
            ∧ baby = finalizeBaby E pop cand
            ∧ (mated = false →
                c ∈ s.m_Individuals ∧ MutateGenome E P false pop c w2 = some (cand, w3))
            ∧ (mated = true → (E.RandFloat w2).1 < P.OverallMutationRate →
                MutateGenome E P false pop c (E.RandFloat w2).2 = some (cand, w3))
            ∧ (mated = true → ¬ (E.RandFloat w2).1 < P.OverallMutationRate →
                cand = c ∧ w3 = (E.RandFloat w2).2)
            ∧ (pop.GetSearchMode = SearchMode.SIMPLIFYING →
                mated = false ∧ ∃ wm : W, GetIndividual E P s w = some (c, wm)))
      ∧ (pop.GetSearchMode = SearchMode.SIMPLIFYING →
          ReproduceOne E P s pop w
            = if s.NumMembers = 0 then none
              else
                (GetIndividual E P s w).bind (fun m =>
                  (MutateGenome E P false pop m.1
                      (if s.NumMembers = 1 then m.2 else (E.RandFloat m.2).2)).map
                    (fun r => ((finalizeBaby E pop r.1, pop.IncrementNextGenomeID), r.2))))
      ∧ (∀ (c : Genome G) (w2 : W),
          ReproduceOneMateOrCopy E P s pop w = some ((c, false), w2) →
          ReproduceOne E P s pop w
            = (MutateGenome E P false pop c w2).map
                (fun r => ((finalizeBaby E pop r.1, pop.IncrementNextGenomeID), r.2)))
      ∧ (∀ (c : Genome G) (w2 : W),
          ReproduceOneMateOrCopy E P s pop w = some ((c, true), w2) →
          ((E.RandFloat w2).1 < P.OverallMutationRate →
              ReproduceOne E P s pop w
                = (MutateGenome E P false pop c (E.RandFloat w2).2).map
                    (fun r => ((finalizeBaby E pop r.1, pop.IncrementNextGenomeID), r.2)))
            ∧ (¬ (E.RandFloat w2).1 < P.OverallMutationRate →
              ReproduceOne E P s pop w
                = some ((finalizeBaby E pop c, pop.IncrementNextGenomeID),
                    (E.RandFloat w2).2)))
      ∧ GetIndividual sampleEnv sampleParameters fourSpecies 0 = some (sampleGenome 2 7 0, 2)
      ∧ (MutateGenome sampleEnv sampleParameters false simplifyingPopulation
          (sampleGenome 2 7 0) 3).map (fun r => (r.1.m_Genes, r.2)) = some (7, 5)
      ∧ (ReproduceOne sampleEnv sampleParameters fourSpecies simplifyingPopulation 0).map
          (fun r => (r.1.1.m_ID, r.1.1.m_Genes, r.2)) = some (100, 7, 5)
      ∧ (sampleEnv.RandFloat 10).1 < sampleParameters.OverallMutationRate
      ∧ (ReproduceOne sampleEnv sampleParameters fourSpecies parentPopulation 0).map
          (fun r => (r.1.1.m_ID, r.1.1.m_Genes, r.2)) = some (100, 28, 13)
      ∧ (ReproduceOneMateOrCopy sampleEnv sampleParameters fourSpecies parentPopulation 4).map
          (fun r => (r.1.1.m_ID, r.1.1.m_Genes, r.1.2, r.2)) = some (2, 19, true, 14)
      ∧ ¬ (sampleEnv.RandFloat 14).1 < sampleParameters.OverallMutationRate
      ∧ (ReproduceOne sampleEnv sampleParameters fourSpecies parentPopulation 4).map
          (fun r => (r.1.1.m_ID, r.1.1.m_Genes, r.2)) = some (100, 19, 15)
      ∧ (Reproduce sampleEnv sampleParameters 5 parentSpecies simplifyingPopulation 0).map
          (fun r => (r.born.map (fun g => (g.m_ID, g.m_Genes)), r.world))
          = some ([(100, 1), (101, 7), (102, 13)], 15) := by
  refine ⟨?_, ?_, ?_, ?_, ?_, ?_, ?_, ?_, ?_, ?_, ?_, ?_, ?_, ?_, ?_, ?_, ?_, ?_, ?_, ?_, ?_, ?_, ?_,
    ?_, ?_, ?_, ?_, ?_⟩
  · intro hmode fuel
    unfold Reproduce
    simp only [ReproduceLoop_Mate E mate2 P s fuel _ false pop w [] hmode]
  · intro hmode
    unfold ReproduceOne ReproduceOneCandidate
    rw [ReproduceOneMateOrCopy_simplifying _ P s pop w hmode,
      ReproduceOneMateOrCopy_simplifying E P s pop w hmode]
    simp only [GetIndividual_Mate, MutateGenome_Mate]
    rfl
  · intro hmode b mated w1 h
    have hflag := ReproduceMateOrCopy_flag E P s pop w b mated w1 h
    rw [ReproduceMateOrCopy_simplifying E P s pop w hmode] at h
    have hm : mated = false := by
      split at h
      · exact absurd h (by simp)
      · split at h
        · exact absurd h (by simp)
        · simp only [Option.some.injEq, Prod.mk.injEq] at h
          exact h.1.2.symm
    exact ⟨hm, hflag.1 hm⟩
  · intro hmode b mated w1 h
    have hflag := ReproduceOneMateOrCopy_flag E P s pop w b mated w1 h
    rw [ReproduceOneMateOrCopy_simplifying E P s pop w hmode] at h
    have hm : mated = false := by
      split at h
      · exact absurd h (by simp)
      · split at h
        · exact absurd h (by simp)
        · simp only [Option.some.injEq, Prod.mk.injEq] at h
          exact h.1.2.symm
    exact ⟨hm, hflag.1 hm⟩
  · exact fun b mated w1 h => ReproduceMateOrCopy_flag E P s pop w b mated w1 h
  · exact fun b mated w1 h => ReproduceOneMateOrCopy_flag E P s pop w b mated w1 h
  · intro clone b w1 h
    simp [ReproduceAttempt, h]
  · intro clone b w1 h
    constructor
    · intro hlt
      simp [ReproduceAttempt, h, hlt]
    · intro hge
      simp [ReproduceAttempt, h, hge]
  · intro b w1 h
    simp [ReproduceOneCandidate, h]
  · intro b w1 h
    constructor
    · intro hlt
      simp [ReproduceOneCandidate, h, hlt]
    · intro hge
      simp [ReproduceOneCandidate, h, hge]
  · with_unfolding_all decide
  · with_unfolding_all decide
  · with_unfolding_all decide
  · with_unfolding_all decide
  · intro fuel r hret k b hk hb
    obtain ⟨pop1, clone, w0, cand, w1, hmode, -, hid, hatt, hfin⟩ :=
      Reproduce_later_babies E P fuel s pop w r hret k b hk hb
    obtain ⟨c, mated, w2, hc, hun, hmut, hkeep⟩ :=
      ReproduceAttempt_policy E P s pop1 clone w0 cand w1 hatt
    refine ⟨pop1, clone, w0, c, mated, w2, cand, w1, hmode, hid, hc, hfin, ?_, hmut, ?_, ?_⟩
    · intro hm
      exact ⟨(ReproduceMateOrCopy_flag E P s pop1 w0 c mated w2 hc).1 hm, hun hm⟩
    · intro hm hge
      exact (hkeep hm hge).1
    · intro hsimp
      have hsimp1 : pop1.GetSearchMode = SearchMode.SIMPLIFYING := by
        simp only [Population.GetSearchMode] at hsimp ⊢
        rw [hmode]
        exact hsimp
      exact ReproduceMateOrCopy_simplifying_member E P s pop1 w0 c mated w2 hsimp1 hc
  · intro baby pop2 w3 hret
    unfold ReproduceOne at hret
    split at hret
    · exact absurd hret (by simp)
    · rename_i cand w4 hcand
      simp only [Option.some.injEq, Prod.mk.injEq] at hret
      obtain ⟨⟨hbaby, -⟩, hw⟩ := hret
      subst hw
      obtain ⟨c, mated, w2, hc, hun, hmut, hkeep⟩ :=
        ReproduceOneCandidate_policy E P s pop w cand w4 hcand
      refine ⟨c, mated, w2, cand, hc, hbaby.symm, ?_, hmut, hkeep, ?_⟩
      · intro hm
        exact ⟨((ReproduceOneMateOrCopy_flag E P s pop w c mated w2 hc).1 hm).1, hun hm⟩
      · intro hsimp
        exact ReproduceOneMateOrCopy_simplifying_member E P s pop w c mated w2 hsimp hc
  · intro hsimp
    exact ReproduceOne_simplifying E P s pop w hsimp
  · intro c w2 h
    unfold ReproduceOne ReproduceOneCandidate
    rw [h]
    simp only [if_true]
    cases MutateGenome E P false pop c w2 with
    | none => rfl
    | some r => rfl
  · intro c w2 h
    constructor
    · intro hlt
      unfold ReproduceOne ReproduceOneCandidate
      rw [h]
      simp only [Bool.true_eq_false, if_false, hlt, if_true]
      cases MutateGenome E P false pop c (E.RandFloat w2).2 with
      | none => rfl
      | some r => rfl
    · intro hge
      unfold ReproduceOne ReproduceOneCandidate
      rw [h]
      simp only [Bool.true_eq_false, if_false, hge]
  · with_unfolding_all decide
  · with_unfolding_all decide
  · with_unfolding_all decide
  · with_unfolding_all decide
  · with_unfolding_all decide
  · with_unfolding_all decide
  · with_unfolding_all decide
  · with_unfolding_all decide
  · with_unfolding_all decide

/-! ### Binary64 rounding -/

theorem roundHalfEven_of_lt (q : ℚ) (n : Int) (h1 : (n : ℚ) ≤ q) (h2 : q - n < 1 / 2) :
    roundHalfEven q = n := by
  have hf : ⌊q⌋ = n := by
    rw [Int.floor_eq_iff]
    constructor
    · exact h1
    · linarith
  simp only [roundHalfEven, hf, h2, if_true]

theorem roundHalfEven_of_gt (q : ℚ) (n : Int) (h1 : (n : ℚ) + 1 / 2 < q) (h2 : q < n + 1) :
    roundHalfEven q = n + 1 := by
  have hf : ⌊q⌋ = n := by
    rw [Int.floor_eq_iff]
    constructor
    · linarith
    · exact h2
  have h3 : ¬ q - (n : ℚ) < 1 / 2 := by linarith
  have h4 : 1 / 2 < q - (n : ℚ) := by linarith
  simp only [roundHalfEven, hf, h3, h4, if_false, if_true]

theorem roundHalfEven_tie_even (q : ℚ) (n : Int) (h : q = n + 1 / 2) (he : n % 2 = 0) :
    roundHalfEven q = n := by
  have hf : ⌊q⌋ = n := by
    rw [Int.floor_eq_iff]
    constructor <;> linarith
  have h3 : ¬ q - (n : ℚ) < 1 / 2 := by linarith
  have h4 : ¬ 1 / 2 < q - (n : ℚ) := by linarith
  simp only [roundHalfEven, hf, h3, h4, if_false, he, if_true]

theorem roundHalfEven_tie_odd (q : ℚ) (n : Int) (h : q = n + 1 / 2) (ho : n % 2 = 1) :
    roundHalfEven q = n + 1 := by
  have hf : ⌊q⌋ = n := by
    rw [Int.floor_eq_iff]
    constructor <;> linarith
  have h3 : ¬ q - (n : ℚ) < 1 / 2 := by linarith
  have h4 : ¬ 1 / 2 < q - (n : ℚ) := by linarith
  have h5 : ¬ n % 2 = 0 := by omega
  simp only [roundHalfEven, hf, h3, h4, if_false, h5]

/-- The spacing at `x` from the binade of `x`. -/
theorem quantumExponent_eq (x : ℚ) (k : Int) (h1 : (2 : ℚ) ^ k ≤ |x|)
    (h2 : |x| < (2 : ℚ) ^ (k + 1)) : quantumExponent x = max (k - 52) (-1074) := by
  have hpos : 0 < |x| := lt_of_lt_of_le (zpow_pos (by norm_num) k) h1
  have hlog : Int.log 2 |x| = k := by
    apply le_antisymm
    · have := (Int.lt_zpow_iff_log_lt (b := 2) (by norm_num) hpos).mp h2
      omega
    · exact (Int.zpow_le_iff_le_log (b := 2) (by norm_num) hpos).mp h1
  simp [quantumExponent, hlog]

/-- The value of `toDouble` from the binade of `x` and the rounded quotient. -/
theorem toDouble_eq (x : ℚ) (k e n : Int) (hx : x ≠ 0) (h1 : (2 : ℚ) ^ k ≤ |x|)
    (h2 : |x| < (2 : ℚ) ^ (k + 1)) (he : e = max (k - 52) (-1074))
    (hn : roundHalfEven (x / 2 ^ e) = n) (hfin : |(n : ℚ) * 2 ^ e| < 2 ^ 1024) :
    toDouble x = some ((n : ℚ) * 2 ^ e) := by
  have hq := quantumExponent_eq x k h1 h2
  rw [← he] at hq
  simp only [toDouble, hx, if_false, hq, hn, hfin, if_true]

theorem toDouble_zero : toDouble 0 = some 0 := by
  simp [toDouble]

/-- The decimal 0.3 is rounded to `pointThree`. -/
theorem toDouble_decimal_pointThree : toDouble (3 / 10) = some (pointThree) := by
  have h := toDouble_eq (3 / 10) (-2) (-54) 5404319552844595 (by norm_num [pointThree])
    (by norm_num [pointThree, abs_of_pos]) (by norm_num [pointThree, abs_of_pos]) (by norm_num)
    (roundHalfEven_of_lt _ 5404319552844595 (by norm_num [pointThree]) (by norm_num [pointThree]))
    (by norm_num [abs_of_pos])
  rw [h]
  norm_num [pointThree]

/-- The decimal 0.4 is rounded to `pointFour`. -/
theorem toDouble_decimal_pointFour : toDouble (4 / 10) = some (pointFour) := by
  have h := toDouble_eq (4 / 10) (-2) (-54) 7205759403792794 (by norm_num [pointFour])
    (by norm_num [pointFour, abs_of_pos]) (by norm_num [pointFour, abs_of_pos]) (by norm_num)
    (by rw [roundHalfEven_of_gt _ 7205759403792793 (by norm_num [pointFour]) (by norm_num [pointFour])]; norm_num)
    (by norm_num [abs_of_pos])
  rw [h]
  norm_num [pointFour]

/-- The decimal 0.7 is rounded to `pointSeven`. -/
theorem toDouble_decimal_pointSeven : toDouble (7 / 10) = some (pointSeven) := by
  have h := toDouble_eq (7 / 10) (-1) (-53) 6305039478318694 (by norm_num [pointSeven])
    (by norm_num [pointSeven, abs_of_pos]) (by norm_num [pointSeven, abs_of_pos]) (by norm_num)
    (roundHalfEven_of_lt _ 6305039478318694 (by norm_num [pointSeven]) (by norm_num [pointSeven]))
    (by norm_num [abs_of_pos])
  rw [h]
  norm_num [pointSeven]

/-- The decimal 0.9 is rounded to `pointNine`. -/
theorem toDouble_decimal_pointNine : toDouble (9 / 10) = some (pointNine) := by
  have h := toDouble_eq (9 / 10) (-1) (-53) 8106479329266893 (by norm_num [pointNine])
    (by norm_num [pointNine, abs_of_pos]) (by norm_num [pointNine, abs_of_pos]) (by norm_num)
    (by rw [roundHalfEven_of_gt _ 8106479329266892 (by norm_num [pointNine]) (by norm_num [pointNine])]; norm_num)
    (by norm_num [abs_of_pos])
  rw [h]
  norm_num [pointNine]

/-- The decimal 1.2 is rounded to `onePointTwo`. -/
theorem toDouble_decimal_onePointTwo : toDouble (12 / 10) = some (onePointTwo) := by
  have h := toDouble_eq (12 / 10) 0 (-52) 5404319552844595 (by norm_num [onePointTwo])
    (by norm_num [onePointTwo, abs_of_pos]) (by norm_num [onePointTwo, abs_of_pos]) (by norm_num)
    (roundHalfEven_of_lt _ 5404319552844595 (by norm_num [onePointTwo]) (by norm_num [onePointTwo]))
    (by norm_num [abs_of_pos])
  rw [h]
  norm_num [onePointTwo]

/-- The decimal 0.9999999999999999 is rounded to `almostOne`. -/
theorem toDouble_decimal_almostOne : toDouble (9999999999999999 / 10000000000000000) = some (almostOne) := by
  have h := toDouble_eq (9999999999999999 / 10000000000000000) (-1) (-53) 9007199254740991 (by norm_num [almostOne])
    (by norm_num [almostOne, abs_of_pos]) (by norm_num [almostOne, abs_of_pos]) (by norm_num)
    (roundHalfEven_of_lt _ 9007199254740991 (by norm_num [almostOne]) (by norm_num [almostOne]))
    (by norm_num [abs_of_pos])
  rw [h]
  norm_num [almostOne]

/-- The number `pointThree` is a binary64 number. -/
theorem toDouble_pointThree : toDouble (pointThree) = some (pointThree) := by
  have h := toDouble_eq (pointThree) (-2) (-54) 5404319552844595 (by norm_num [pointThree])
    (by norm_num [pointThree, abs_of_pos]) (by norm_num [pointThree, abs_of_pos]) (by norm_num)
    (roundHalfEven_of_lt _ 5404319552844595 (by norm_num [pointThree]) (by norm_num [pointThree]))
    (by norm_num [abs_of_pos])
  rw [h]
  norm_num [pointThree]

/-- The number `pointFour` is a binary64 number. -/
theorem toDouble_pointFour : toDouble (pointFour) = some (pointFour) := by
  have h := toDouble_eq (pointFour) (-2) (-54) 7205759403792794 (by norm_num [pointFour])
    (by norm_num [pointFour, abs_of_pos]) (by norm_num [pointFour, abs_of_pos]) (by norm_num)
    (roundHalfEven_of_lt _ 7205759403792794 (by norm_num [pointFour]) (by norm_num [pointFour]))
    (by norm_num [abs_of_pos])
  rw [h]
  norm_num [pointFour]

/-- The number `pointSeven` is a binary64 number. -/
theorem toDouble_pointSeven : toDouble (pointSeven) = some (pointSeven) := by
  have h := toDouble_eq (pointSeven) (-1) (-53) 6305039478318694 (by norm_num [pointSeven])
    (by norm_num [pointSeven, abs_of_pos]) (by norm_num [pointSeven, abs_of_pos]) (by norm_num)
    (roundHalfEven_of_lt _ 6305039478318694 (by norm_num [pointSeven]) (by norm_num [pointSeven]))
    (by norm_num [abs_of_pos])
  rw [h]
  norm_num [pointSeven]

/-- The number `pointNine` is a binary64 number. -/
theorem toDouble_pointNine : toDouble (pointNine) = some (pointNine) := by
  have h := toDouble_eq (pointNine) (-1) (-53) 8106479329266893 (by norm_num [pointNine])
    (by norm_num [pointNine, abs_of_pos]) (by norm_num [pointNine, abs_of_pos]) (by norm_num)
    (roundHalfEven_of_lt _ 8106479329266893 (by norm_num [pointNine]) (by norm_num [pointNine]))
    (by norm_num [abs_of_pos])
  rw [h]
  norm_num [pointNine]

/-- The number `onePointTwo` is a binary64 number. -/
theorem toDouble_onePointTwo : toDouble (onePointTwo) = some (onePointTwo) := by
  have h := toDouble_eq (onePointTwo) 0 (-52) 5404319552844595 (by norm_num [onePointTwo])
    (by norm_num [onePointTwo, abs_of_pos]) (by norm_num [onePointTwo, abs_of_pos]) (by norm_num)
    (roundHalfEven_of_lt _ 5404319552844595 (by norm_num [onePointTwo]) (by norm_num [onePointTwo]))
    (by norm_num [abs_of_pos])
  rw [h]
  norm_num [onePointTwo]

/-- The number `almostOne` is a binary64 number. -/
theorem toDouble_almostOne : toDouble (almostOne) = some (almostOne) := by
  have h := toDouble_eq (almostOne) (-1) (-53) 9007199254740991 (by norm_num [almostOne])
    (by norm_num [almostOne, abs_of_pos]) (by norm_num [almostOne, abs_of_pos]) (by norm_num)
    (roundHalfEven_of_lt _ 9007199254740991 (by norm_num [almostOne]) (by norm_num [almostOne]))
    (by norm_num [abs_of_pos])
  rw [h]
  norm_num [almostOne]

/-- In binary64, 0.3 + 1.2 is exactly 1.5. -/
theorem toDouble_pointThree_add : toDouble (pointThree + onePointTwo) = some (3 / 2) := by
  have h := toDouble_eq (pointThree + onePointTwo) 0 (-52) 6755399441055744 (by norm_num [pointThree, onePointTwo])
    (by norm_num [pointThree, onePointTwo, abs_of_pos]) (by norm_num [pointThree, onePointTwo, abs_of_pos]) (by norm_num)
    (by rw [roundHalfEven_of_gt _ 6755399441055743 (by norm_num [pointThree, onePointTwo]) (by norm_num [pointThree, onePointTwo])]; norm_num)
    (by norm_num [abs_of_pos])
  rw [h]
  norm_num [pointThree, onePointTwo]

/-- In binary64, 1.2 + 0.9 is the number nearest to 2.1. -/
theorem toDouble_onePointTwo_add : toDouble (onePointTwo + pointNine) = some (4728779608739021 / 2251799813685248) := by
  have h := toDouble_eq (onePointTwo + pointNine) 1 (-51) 4728779608739021 (by norm_num [onePointTwo, pointNine])
    (by norm_num [onePointTwo, pointNine, abs_of_pos]) (by norm_num [onePointTwo, pointNine, abs_of_pos]) (by norm_num)
    (by rw [roundHalfEven_of_gt _ 4728779608739020 (by norm_num [onePointTwo, pointNine]) (by norm_num [onePointTwo, pointNine])]; norm_num)
    (by norm_num [abs_of_pos])
  rw [h]
  norm_num [onePointTwo, pointNine]

/-- In binary64, 2.1 + 0.4 is exactly 2.5. -/
theorem toDouble_twoPointOne_add : toDouble (4728779608739021 / 2251799813685248 + pointFour) = some (5 / 2) := by
  have h := toDouble_eq (4728779608739021 / 2251799813685248 + pointFour) 1 (-51) 5629499534213120 (by norm_num [pointFour])
    (by norm_num [pointFour, abs_of_pos]) (by norm_num [pointFour, abs_of_pos]) (by norm_num)
    (roundHalfEven_of_lt _ 5629499534213120 (by norm_num [pointFour]) (by norm_num [pointFour]))
    (by norm_num [abs_of_pos])
  rw [h]
  norm_num [pointFour]

/-- The product of 0.9999999999999999 and 4 is a binary64 number. -/
theorem toDouble_almostOne_mul : toDouble (almostOne * 4) = some (almostOne * 4) := by
  have h := toDouble_eq (almostOne * 4) 1 (-51) 9007199254740991 (by norm_num [almostOne])
    (by norm_num [almostOne, abs_of_pos]) (by norm_num [almostOne, abs_of_pos]) (by norm_num)
    (roundHalfEven_of_lt _ 9007199254740991 (by norm_num [almostOne]) (by norm_num [almostOne]))
    (by norm_num [abs_of_pos])
  rw [h]
  norm_num [almostOne]

/-- In binary64, 0.9999999999999999 * 4 + 1.0 is exactly 5: a tie that goes to the even significand. -/
theorem toDouble_almostOne_add : toDouble (almostOne * 4 + 1) = some (5) := by
  have h := toDouble_eq (almostOne * 4 + 1) 2 (-50) 5629499534213120 (by norm_num [almostOne])
    (by norm_num [almostOne, abs_of_pos]) (by norm_num [almostOne, abs_of_pos]) (by norm_num)
    (by rw [roundHalfEven_tie_odd _ 5629499534213119 (by norm_num [almostOne]) (by decide)]; norm_num)
    (by norm_num [abs_of_pos])
  rw [h]
  norm_num [almostOne]

/-- In binary64, 0.7 * 10 is exactly 7: a tie that goes to the even significand. -/
theorem toDouble_pointSeven_mul : toDouble (pointSeven * 10) = some (7) := by
  have h := toDouble_eq (pointSeven * 10) 2 (-50) 7881299347898368 (by norm_num [pointSeven])
    (by norm_num [pointSeven, abs_of_pos]) (by norm_num [pointSeven, abs_of_pos]) (by norm_num)
    (by rw [roundHalfEven_tie_odd _ 7881299347898367 (by norm_num [pointSeven]) (by decide)]; norm_num)
    (by norm_num [abs_of_pos])
  rw [h]
  norm_num [pointSeven]

theorem toDouble_2 : toDouble (2) = some (2) := by
  have h := toDouble_eq (2) 1 (-51) 4503599627370496 (by norm_num)
    (by norm_num [abs_of_pos]) (by norm_num [abs_of_pos]) (by norm_num)
    (roundHalfEven_of_lt _ 4503599627370496 (by norm_num) (by norm_num))
    (by norm_num [abs_of_pos])
  rw [h]
  norm_num

theorem toDouble_3 : toDouble (3) = some (3) := by
  have h := toDouble_eq (3) 1 (-51) 6755399441055744 (by norm_num)
    (by norm_num [abs_of_pos]) (by norm_num [abs_of_pos]) (by norm_num)
    (roundHalfEven_of_lt _ 6755399441055744 (by norm_num) (by norm_num))
    (by norm_num [abs_of_pos])
  rw [h]
  norm_num

theorem toDouble_4 : toDouble (4) = some (4) := by
  have h := toDouble_eq (4) 2 (-50) 4503599627370496 (by norm_num)
    (by norm_num [abs_of_pos]) (by norm_num [abs_of_pos]) (by norm_num)
    (roundHalfEven_of_lt _ 4503599627370496 (by norm_num) (by norm_num))
    (by norm_num [abs_of_pos])
  rw [h]
  norm_num

theorem toDouble_5 : toDouble (5) = some (5) := by
  have h := toDouble_eq (5) 2 (-50) 5629499534213120 (by norm_num)
    (by norm_num [abs_of_pos]) (by norm_num [abs_of_pos]) (by norm_num)
    (roundHalfEven_of_lt _ 5629499534213120 (by norm_num) (by norm_num))
    (by norm_num [abs_of_pos])
  rw [h]
  norm_num

theorem toDouble_8 : toDouble (8) = some (8) := by
  have h := toDouble_eq (8) 3 (-49) 4503599627370496 (by norm_num)
    (by norm_num [abs_of_pos]) (by norm_num [abs_of_pos]) (by norm_num)
    (roundHalfEven_of_lt _ 4503599627370496 (by norm_num) (by norm_num))
    (by norm_num [abs_of_pos])
  rw [h]
  norm_num

theorem toDouble_10 : toDouble (10) = some (10) := by
  have h := toDouble_eq (10) 3 (-49) 5629499534213120 (by norm_num)
    (by norm_num [abs_of_pos]) (by norm_num [abs_of_pos]) (by norm_num)
    (roundHalfEven_of_lt _ 5629499534213120 (by norm_num) (by norm_num))
    (by norm_num [abs_of_pos])
  rw [h]
  norm_num

/-! ### `CountOffspring` -/

/-- The loop of `CountOffspring` is the binary64 sum of the offspring amounts, added to
the accumulator in member order. -/
theorem CountOffspringLoop_eq (l : List (Genome G)) (acc : ℚ) :
    CountOffspringLoop l acc = doubleSumFrom acc (l.map Genome.GetOffspringAmount) := by
  induction l generalizing acc with
  | nil => rfl
  | cons g rest ih =>
    rw [CountOffspringLoop, List.map_cons, doubleSumFrom]
    cases toDouble (acc + g.GetOffspringAmount) with
    | none => rfl
    | some a => exact ih a

/-- When every partial sum is a binary64 number no addition rounds, and the binary64 sum
is the sum. -/
theorem doubleSumFrom_exact (acc : ℚ) (l : List ℚ)
    (h : ∀ k : Nat, 1 ≤ k → k ≤ l.length →
      toDouble (acc + (l.take k).sum) = some (acc + (l.take k).sum)) :
    doubleSumFrom acc l = some (acc + l.sum) := by
  induction l generalizing acc with
  | nil => simp [doubleSumFrom]
  | cons a rest ih =>
    have h1 := h 1 (le_refl _) (by simp)
    simp only [List.take_succ_cons, List.take_zero, List.sum_cons, List.sum_nil, add_zero] at h1
    rw [doubleSumFrom, h1]
    simp only
    rw [ih (acc + a)]
    · simp only [List.sum_cons, add_assoc]
    · intro k hk1 hk2
      have := h (k + 1) (by omega) (by simpa using hk2)
      simp only [List.take_succ_cons, List.sum_cons] at this
      rw [add_assoc]
      exact this

/-- C7, counterexample: for the offspring amounts 0.3 and 1.2, both binary64 numbers,
`CountOffspring` stores exactly 1.5, which is not the sum of the two amounts: the sum is
below 1.5 and the second addition rounds it up. The stored value rounds to 2 babies,
the sum of the amounts to 1. -/
theorem CountOffspring_rounded_counterexample :
    roundedDemandSpecies.m_Individuals.map Genome.GetOffspringAmount
        = [pointThree, onePointTwo]
      ∧ toDouble (3 / 10) = some pointThree
      ∧ toDouble (12 / 10) = some onePointTwo
      ∧ (CountOffspring roundedDemandSpecies).map Species.m_OffspringRqd = some (3 / 2)
      ∧ (roundedDemandSpecies.m_Individuals.map Genome.GetOffspringAmount).sum < 3 / 2
      ∧ Rounded (3 / 2) = 2
      ∧ Rounded (roundedDemandSpecies.m_Individuals.map Genome.GetOffspringAmount).sum = 1 := by
  refine ⟨rfl, toDouble_decimal_pointThree, toDouble_decimal_onePointTwo, ?_, ?_, ?_, ?_⟩
  · simp only [CountOffspring, CountOffspringLoop_eq, roundedDemandSpecies, sampleSpecies,
      sampleGenome, List.map_cons, List.map_nil, Genome.GetOffspringAmount, doubleSumFrom,
      zero_add, toDouble_pointThree, toDouble_pointThree_add, Option.map_some']
  · norm_num [roundedDemandSpecies, sampleSpecies, sampleGenome, Genome.GetOffspringAmount,
      pointThree, onePointTwo]
  · rw [Rounded, Int.floor_eq_iff]
    norm_num
  · rw [Rounded, Int.floor_eq_iff]
    norm_num [roundedDemandSpecies, sampleSpecies, sampleGenome, Genome.GetOffspringAmount,
      pointThree, onePointTwo]

/-- C7, amended: `CountOffspring` sets `m_OffspringRqd` to the binary64 sum of the
members' offspring amounts, accumulated from 0 in member order with every addition
rounded, and changes nothing else (it fails only when an addition overflows). The
result does not depend on the value `m_OffspringRqd` held before, so a second call
changes nothing; an empty species gets 0; when every partial sum is a binary64 number
the result is the sum of the amounts; and the amounts 1.2, 0.9 and 0.4 give exactly
2.5. -/
theorem CountOffspring_sum (s : Species G) (x : ℚ) :
    CountOffspring s
        = (doubleSum (s.m_Individuals.map Genome.GetOffspringAmount)).map
            (fun v => { s with m_OffspringRqd := v })
      ∧ CountOffspring { s with m_OffspringRqd := x } = CountOffspring s
      ∧ (∀ s1 : Species G, CountOffspring s = some s1 → CountOffspring s1 = some s1)
      ∧ CountOffspring { s with m_Individuals := [] }
          = some { s with m_Individuals := [], m_OffspringRqd := 0 }
      ∧ ((∀ k : Nat, 1 ≤ k → k ≤ s.m_Individuals.length →
            toDouble (((s.m_Individuals.map Genome.GetOffspringAmount).take k).sum)
              = some (((s.m_Individuals.map Genome.GetOffspringAmount).take k).sum)) →
          CountOffspring s
            = some { s with
                m_OffspringRqd := (s.m_Individuals.map Genome.GetOffspringAmount).sum })
      ∧ toDouble (12 / 10) = some onePointTwo
      ∧ toDouble (9 / 10) = some pointNine
      ∧ toDouble (4 / 10) = some pointFour
      ∧ demandSpecies.m_Individuals.map Genome.GetOffspringAmount
          = [onePointTwo, pointNine, pointFour]
      ∧ (CountOffspring { demandSpecies with m_OffspringRqd := x }).map Species.m_OffspringRqd
          = some (5 / 2) := by
  have hform : ∀ t : Species G, CountOffspring t
      = (doubleSum (t.m_Individuals.map Genome.GetOffspringAmount)).map
          (fun v => { t with m_OffspringRqd := v }) := by
    intro t
    unfold CountOffspring doubleSum
    rw [CountOffspringLoop_eq]
    cases doubleSumFrom 0 (t.m_Individuals.map Genome.GetOffspringAmount) with
    | none => rfl
    | some v => rfl
  refine ⟨hform s, ?_, ?_, ?_, ?_, toDouble_decimal_onePointTwo, toDouble_decimal_pointNine,
    toDouble_decimal_pointFour, rfl, ?_⟩
  · rw [hform, hform]
  · intro s1 h1
    rw [hform] at h1
    rw [hform]
    cases hd : doubleSum (s.m_Individuals.map Genome.GetOffspringAmount) with
    | none =>
      rw [hd] at h1
      exact absurd h1 (by simp)
    | some v =>
      rw [hd] at h1
      simp only [Option.map_some', Option.some.injEq] at h1
      subst h1
      simp only [hd, Option.map_some']
  · rfl
  · intro hexact
    rw [hform]
    unfold doubleSum
    rw [doubleSumFrom_exact 0 _ (by
      intro k hk1 hk2
      rw [zero_add]
      exact hexact k hk1 (by simpa using hk2))]
    simp
  · simp only [CountOffspring, CountOffspringLoop_eq, demandSpecies, sampleSpecies,
      sampleGenome, List.map_cons, List.map_nil, Genome.GetOffspringAmount, doubleSumFrom,
      zero_add, toDouble_onePointTwo, toDouble_onePointTwo_add, toDouble_twoPointOne_add,
      Option.map_some']

/-! ### `KillWorst` with the truncation size of the machine -/

/-- The promotion loop of `KillWorst` runs past the end of the vector when the
truncation size is larger than the number of members left. -/
theorem KillWorstAdultLoop_none (k : Nat) (pre rest : List (Genome G)) (h : rest.length < k) :
    KillWorstAdultLoop k pre.length (pre ++ rest) = none := by
  induction k generalizing pre rest with
  | zero => omega
  | succ k ih =>
    cases rest with
    | nil =>
      rw [KillWorstAdultLoop]
      simp
    | cons g rest1 =>
      have hk : rest1.length < k := by simpa using h
      have hget : (pre ++ g :: rest1)[pre.length]? = some g := by
        rw [List.getElem?_append_right (le_refl _)]
        simp
      have hset : (pre ++ g :: rest1).set pre.length g.Adult = (pre ++ [g.Adult]) ++ rest1 := by
        simp
      rw [KillWorstAdultLoop, hget]
      simp only
      rw [hset]
      have := ih (pre ++ [g.Adult]) rest1 hk
      simp only [List.length_append, List.length_singleton] at this
      exact this

/-- With the same truncation size the two embeddings of `KillWorst` agree. -/
theorem KillWorstDouble_eq_KillWorst (E : Env G W) (hE : StdSortContract E)
    (P P1 : Parameters) (s : Species G)
    (h : numParentsDouble P s.m_Individuals.length
      = some (numParents P1 s.m_Individuals.length)) :
    KillWorstDouble E P s = KillWorst E P1 s := by
  have hlen : (E.sortGenomes (s.m_Individuals.map Genome.Birth)).length
      = s.m_Individuals.length := by
    rw [(hE.genomes_perm _).length_eq, List.length_map]
  unfold KillWorstDouble KillWorst
  simp only [SortIndividuals, hlen, h]

/-- A truncation size larger than the number of members makes `KillWorst` index past the
end of the member vector. -/
theorem KillWorstDouble_overrun (E : Env G W) (hE : StdSortContract E) (P : Parameters)
    (s : Species G) (k : Int) (hk : numParentsDouble P s.m_Individuals.length = some k)
    (hlt : (s.m_Individuals.length : Int) < k) : KillWorstDouble E P s = none := by
  have hlen : (E.sortGenomes (s.m_Individuals.map Genome.Birth)).length
      = s.m_Individuals.length := by
    rw [(hE.genomes_perm _).length_eq, List.length_map]
  have hnot : ¬ k ≤ 0 := by omega
  have hloop := KillWorstAdultLoop_none k.toNat []
    (E.sortGenomes (s.m_Individuals.map Genome.Birth)) (by rw [hlen]; omega)
  simp only [List.length_nil, List.nil_append] at hloop
  unfold KillWorstDouble
  simp only [SortIndividuals, hlen, hk, hnot, if_false, hloop]
  split <;> rfl

/-- The truncation size `floor(r * N) + 1` of the exact embedding is `k` for the rate
`r = (k - 1) / N`. -/
theorem numParents_of_ratio (P : Parameters) (N : Nat) (k : Int) (hN : 1 ≤ N) :
    numParents { P with SurvivalRate := ((k : ℚ) - 1) / (N : ℚ) } N = k := by
  have hN0 : (N : ℚ) ≠ 0 := by
    have : (0 : ℚ) < (N : ℚ) := by exact_mod_cast hN
    exact ne_of_gt this
  rw [numParents_eq]
  simp only
  rw [div_mul_cancel₀ _ hN0]
  have : ((k : ℚ) - 1) = ((k - 1 : Int) : ℚ) := by push_cast; ring
  rw [this, Int.floor_intCast]
  omega

theorem numParentsDouble_almostOne : numParentsDouble almostFullSurvivalParameters 4 = some 5 := by
  have h4 : toDouble ((4 : Nat) : ℚ) = some 4 := by
    have := toDouble_4
    simpa using this
  simp only [numParentsDouble, almostFullSurvivalParameters, h4, toDouble_almostOne_mul,
    toDouble_almostOne_add]
  norm_num

theorem numParentsDouble_half : numParentsDouble sampleParameters 4 = some 3 := by
  have h4 : toDouble ((4 : Nat) : ℚ) = some 4 := by
    have := toDouble_4
    simpa using this
  have h2 : toDouble ((1 : ℚ) / 2 * 4) = some 2 := by
    have := toDouble_2
    norm_num at this ⊢
    exact this
  have h3 : toDouble ((2 : ℚ) + 1) = some 3 := by
    have := toDouble_3
    norm_num at this ⊢
    exact this
  simp only [numParentsDouble, sampleParameters, h4, h2, h3]
  norm_num

theorem numParentsDouble_pointSeven : numParentsDouble pointSevenParameters 10 = some 8 := by
  have h10 : toDouble ((10 : Nat) : ℚ) = some 10 := by
    have := toDouble_10
    simpa using this
  have h8 : toDouble ((7 : ℚ) + 1) = some 8 := by
    have := toDouble_8
    norm_num at this ⊢
    exact this
  simp only [numParentsDouble, pointSevenParameters, h10, toDouble_pointSeven_mul, h8]
  norm_num

/-- C5: what `KillWorst` keeps, and where it breaks. With the truncation size `k` the
machine computes (the floor of `r * N + 1.0`, product and sum rounded to binary64):
when `1 <= k <= N`, under the contract of `std::sort`, `KillWorst` returns and changes
only the member vector; the kept members number exactly `k`, are in descending fitness
order and are all flagged Adult; together with the discarded ones they are the original
members (lifecycle flag apart); no discarded member is fitter than a kept one; and the
kept fitnesses are the first `k` entries of the descending sort of the original
fitnesses. The fitnesses 10, 7, 3, 1 with `r = 0.5` give `k = 3` and the members 10, 7,
3, all Adult. When the size, the product and the sum are binary64 numbers nothing is
rounded and `k` is `floor(r * N) + 1`. But `k` can exceed `N` for a rate below 1: for
`r = 0.9999999999999999` and `N = 4` the product is `4 - 2 ^ (-51)`, the sum rounds to
5 and `k = 5`, where `floor(r * N) + 1` is 4; the promotion loop then reads
`m_Individuals[4]` of four members, and whenever `k > N` the call fails in this way.
The rounding also moves `k`
inside the range: for `r = 0.7` and `N = 10` the product rounds to 7 and `k = 8`, where
the floor of the product of the stored rate and 10, plus 1, is 7. -/
theorem KillWorst_rounded_size (E : Env G W) (P : Parameters) (s : Species G) :
    (StdSortContract E → s.m_Individuals ≠ [] →
        ∀ k : Int, numParentsDouble P s.m_Individuals.length = some k → 1 ≤ k →
          k ≤ s.m_Individuals.length →
          ∃ kept discarded : List (Genome G),
            KillWorstDouble E P s = some { s with m_Individuals := kept }
            ∧ (kept.length : Int) = k
            ∧ kept.Pairwise (fun a b => a.GetFitness ≥ b.GetFitness)
            ∧ (∀ g ∈ kept, g.IsAdult = true)
            ∧ (kept.map Genome.Birth ++ discarded).Perm (s.m_Individuals.map Genome.Birth)
            ∧ (∀ g ∈ kept, ∀ d ∈ discarded, d.GetFitness ≤ g.GetFitness)
            ∧ kept.map Genome.GetFitness
                = ((s.m_Individuals.map Genome.GetFitness).insertionSort
                    (fun a b => a ≥ b)).take kept.length)
      ∧ (StdSortContract E →
          ∀ k : Int, numParentsDouble P s.m_Individuals.length = some k →
            (s.m_Individuals.length : Int) < k → KillWorstDouble E P s = none)
      ∧ (toDouble (s.m_Individuals.length : ℚ) = some (s.m_Individuals.length : ℚ) →
          toDouble (P.SurvivalRate * (s.m_Individuals.length : ℚ))
            = some (P.SurvivalRate * (s.m_Individuals.length : ℚ)) →
          toDouble (P.SurvivalRate * (s.m_Individuals.length : ℚ) + 1)
            = some (P.SurvivalRate * (s.m_Individuals.length : ℚ) + 1) →
          -(2 : Int) ^ 31 ≤ ⌊P.SurvivalRate * (s.m_Individuals.length : ℚ)⌋ + 1 →
          ⌊P.SurvivalRate * (s.m_Individuals.length : ℚ)⌋ + 1 < (2 : Int) ^ 31 →
          numParentsDouble P s.m_Individuals.length
            = some (⌊P.SurvivalRate * (s.m_Individuals.length : ℚ)⌋ + 1))
      ∧ numParentsDouble sampleParameters 4 = some 3
      ∧ (KillWorstDouble sampleEnv sampleParameters fourSpecies).map
          (fun s => s.m_Individuals.map (fun g => (g.GetFitness, g.IsAdult)))
          = some [(10, true), (7, true), (3, true)]
      ∧ toDouble (9999999999999999 / 10000000000000000) = some almostOne
      ∧ 0 ≤ almostFullSurvivalParameters.SurvivalRate
      ∧ almostFullSurvivalParameters.SurvivalRate < 1
      ∧ ⌊almostFullSurvivalParameters.SurvivalRate * 4⌋ + 1 = 4
      ∧ toDouble (almostFullSurvivalParameters.SurvivalRate * 4)
          = some (almostFullSurvivalParameters.SurvivalRate * 4)
      ∧ toDouble (almostFullSurvivalParameters.SurvivalRate * 4 + 1) = some 5
      ∧ numParentsDouble almostFullSurvivalParameters 4 = some 5
      ∧ fourSpecies.m_Individuals.length = 4
      ∧ KillWorstDouble sampleEnv almostFullSurvivalParameters fourSpecies = none
      ∧ toDouble (7 / 10) = some pointSeven
      ∧ toDouble (pointSevenParameters.SurvivalRate * 10) = some 7
      ∧ numParentsDouble pointSevenParameters 10 = some 8
      ∧ ⌊pointSevenParameters.SurvivalRate * 10⌋ + 1 = 7 := by
  refine ⟨?_, ?_, ?_, numParentsDouble_half, ?_, toDouble_decimal_almostOne, ?_, ?_, ?_,
    toDouble_almostOne_mul, toDouble_almostOne_add, numParentsDouble_almostOne, rfl, ?_,
    toDouble_decimal_pointSeven, toDouble_pointSeven_mul, numParentsDouble_pointSeven, ?_⟩
  · intro hE hne k hk h1 hN
    have hlen : 1 ≤ s.m_Individuals.length := by
      cases hs : s.m_Individuals with
      | nil => exact absurd hs hne
      | cons a l => simp
    have hN0 : (0 : ℚ) < (s.m_Individuals.length : ℚ) := by exact_mod_cast hlen
    have hnum := numParents_of_ratio P s.m_Individuals.length k hlen
    have hsame := KillWorstDouble_eq_KillWorst E hE P
      { P with SurvivalRate := ((k : ℚ) - 1) / (s.m_Individuals.length : ℚ) } s
      (by rw [hk, hnum])
    have hr0 : (0 : ℚ) ≤ ((k : ℚ) - 1) / (s.m_Individuals.length : ℚ) := by
      apply div_nonneg _ (le_of_lt hN0)
      have : ((1 : Int) : ℚ) ≤ (k : ℚ) := by exact_mod_cast h1
      push_cast at this
      linarith
    have hr1 : ((k : ℚ) - 1) / (s.m_Individuals.length : ℚ) < 1 := by
      rw [div_lt_one hN0]
      have : (k : ℚ) ≤ ((s.m_Individuals.length : Int) : ℚ) := by exact_mod_cast hN
      push_cast at this
      linarith
    obtain ⟨kept, discarded, hkw, hcount, hsorted, hadult, hperm, hdom, hfit⟩ :=
      KillWorst_keeps_best E hE
        { P with SurvivalRate := ((k : ℚ) - 1) / (s.m_Individuals.length : ℚ) } s hne hr0 hr1
    refine ⟨kept, discarded, by rw [hsame]; exact hkw, ?_, hsorted, hadult, hperm, hdom, hfit⟩
    rw [hcount, ← numParents_eq]
    exact hnum
  · intro hE k hk hlt
    exact KillWorstDouble_overrun E hE P s k hk hlt
  · intro hN hprod hsum hlo hhi
    have hfloor : ⌊P.SurvivalRate * (s.m_Individuals.length : ℚ) + 1⌋
        = ⌊P.SurvivalRate * (s.m_Individuals.length : ℚ)⌋ + 1 := Int.floor_add_one _
    simp only [numParentsDouble, hN, hprod, hsum, hfloor]
    rw [if_pos ⟨hlo, hhi⟩]
  · have h3n : Int.toNat 3 = 3 := rfl
    norm_num [KillWorstDouble, SortIndividuals, fourSpecies, sampleSpecies, sampleEnv,
      sampleGenome, Genome.Birth, Genome.Adult, Genome.GetFitness, Genome.IsAdult,
      numParentsDouble_half, h3n, KillWorstAdultLoop]
  · norm_num [almostFullSurvivalParameters, almostOne]
  · norm_num [almostFullSurvivalParameters, almostOne]
  · rw [show (⌊almostFullSurvivalParameters.SurvivalRate * 4⌋ : Int) = 3 from by
      rw [Int.floor_eq_iff]
      norm_num [almostFullSurvivalParameters, almostOne]]
    rfl
  · exact KillWorstDouble_overrun sampleEnv sampleEnv_contract almostFullSurvivalParameters
      fourSpecies 5 numParentsDouble_almostOne (by decide)
  · rw [show (⌊pointSevenParameters.SurvivalRate * 10⌋ : Int) = 6 from by
      rw [Int.floor_eq_iff]
      norm_num [pointSevenParameters, pointSeven]]
    rfl

end NEAT
